import Mathlib

/-!
Verification of the `cli` command line parser (`src/commandline.hpp`).

Shallow embedding of the argument tree, the result tree (`Options`), the
token-match rule (`parseArg`), the recursive matcher (`Argument::parse`) and
the facade (`CommandLine::parse`), followed by theorems about them.

Modelling conventions
* A C string is the list of its characters before the terminating NUL
  (`CString`); `cli::strlen` counts the terminator, so it is `length + 1`.
* The `int` bitmasks (argument kinds and error codes) are modelled by their
  bit pattern as a natural number; the source only applies `|`, `&`, `~`,
  `==` and truth tests to them. `~ERR_REQ_ARG_NOT_FOUND` is the 32-bit
  pattern `0xFFFFFFF7`.
* A window `(argc, argv)` is the list `argv`, with `argc = argv.length`.
* Function pointers are pure total functions. Console output is not modelled.
* A pointer into the result tree returned by `Options::get` is modelled by
  the value read (`Options.get`) and a write-back (`Options.put`).
-/

namespace cli

/-- A C string: the characters before the terminating NUL. -/
abbrev CString := List Char

/-! ## Constants (lines 86-129) -/

def VERBOSE_OFF : Nat := 0
def VERBOSE_SIMPLE : Nat := 1
def VERBOSE_FULL : Nat := 2

def ERR_NO_ERR : Nat := 1
def ERR_UNKOWN_INPUT : Nat := 2
def ERR_INVALID_INPUT : Nat := 4
def ERR_REQ_ARG_NOT_FOUND : Nat := 8
def ERR_WRONG_DATA : Nat := 16
def ERR_HELP_WILDCARD : Nat := 32
def ERR_NOT_FOUND : Nat := 64
def ERR_REQ_PARAM_NOT_FOUND : Nat := 128

def NO_ERROR : Nat := ERR_NO_ERR

def OPTION : Nat := 1
def PARAM : Nat := 2
def WILDCARD : Nat := 4
def METHOD : Nat := 8
def _NULL_ARG_ : Nat := 16

/-- The 32-bit complement `~x` of a bit pattern. -/
def bnot32 (x : Nat) : Nat := 4294967295 - x % 4294967296

/-! ## String utilities (lines 138-251) -/

/-- The terminating NUL character. -/
def NUL : Char := Char.ofNat 0

/-- The character `str[i]`; index `str.length` holds the terminator. -/
def charAt (str : CString) (i : Nat) : Char := str.getD i NUL

/-- Line 138: `cli::strlen` returns the index of the terminator plus one. -/
def strlen (str : CString) : Nat := str.length + 1

/-- Line 151: `_compare_cstring`, equal lengths and equal characters over the
`strlen` positions (terminator included). -/
def _compare_cstring (str1 str2 : CString) : Bool :=
  let l := strlen str1
  if l ≠ strlen str2 then false
  else (List.range l).foldl (fun same i => same && (charAt str1 i == charAt str2 i)) true

/-- Line 162: `_compare_cstring_until`, equal characters over the first `l`
positions, no length test. The `&&` short-circuits, so no position after the
first mismatch is read. -/
def _compare_cstring_until (str1 str2 : CString) (l : Nat) : Bool :=
  (List.range l).foldl (fun same i => same && (charAt str1 i == charAt str2 i)) true

/-- Line 169: `combineString` copies `str1` without its terminator, then
`str2` with its terminator. -/
def combineString (str1 str2 : CString) : CString := str1 ++ str2

/-- Line 184: `_checkArgType`. -/
def _checkArgType (arg_type : Nat) : Bool :=
  if arg_type &&& METHOD ≠ 0 then
    !(decide (arg_type &&& (OPTION ||| PARAM ||| WILDCARD ||| _NULL_ARG_) ≠ 0))
  else if arg_type &&& OPTION ≠ 0 then
    decide ((arg_type ||| (arg_type &&& WILDCARD)) ≠ 0)
      && !(decide (arg_type &&& (PARAM ||| METHOD ||| _NULL_ARG_) ≠ 0))
  else if arg_type &&& PARAM ≠ 0 then
    !(decide (arg_type &&& (WILDCARD ||| METHOD ||| OPTION ||| _NULL_ARG_) ≠ 0))
  else if arg_type &&& WILDCARD ≠ 0 then
    decide ((arg_type ||| (arg_type &&& OPTION)) ≠ 0)
      && !(decide (arg_type &&& (METHOD ||| PARAM ||| _NULL_ARG_) ≠ 0))
  else if arg_type &&& _NULL_ARG_ ≠ 0 then
    !(decide (arg_type &&& (OPTION ||| PARAM ||| WILDCARD ||| METHOD) ≠ 0))
  else false

/-- Line 233: `_argtype_header`. The source returns nothing when neither test
succeeds (undefined); `parseArg` only calls it with `"long"` or `"short"` on a
kind that has the OPTION or the WILDCARD bit. The empty string stands for that
case here. -/
def _argtype_header (arg_type : Nat) (flag : CString) : CString :=
  if (arg_type &&& OPTION) ||| (arg_type &&& WILDCARD) ≠ 0 then
    if _compare_cstring flag ['l', 'o', 'n', 'g'] then ['-', '-']
    else if _compare_cstring flag ['s', 'h', 'o', 'r', 't'] then ['-']
    else []
  else []

/-- Line 241: `copySubArgv`, `newargv[0] = argv[0]` and
`newargv[i] = argv[i + startpoint]` for `1 ≤ i < argc - startpoint`. -/
def copySubArgv (argc : Nat) (argv : List CString) (startpoint : Nat) : List CString :=
  (List.range (argc - startpoint)).map
    (fun i => if i = 0 then argv.getD 0 [] else argv.getD (i + startpoint) [])

/-! ## The result tree (lines 288-394) -/

/-- Line 288: `struct Options`. -/
structure Options where
  arg_type : Nat
  key : CString
  data : CString
  argv : List CString
  argc : Nat
  parsed : Bool
  options : List Options

/-- Line 301: the constructor `Options()`. -/
def Options.new : Options :=
  { arg_type := _NULL_ARG_
    key := ['_', '_', 'n', 'u', 'l', 'l', '_', '_']
    data := ['_', '_', 'n', 'u', 'l', 'l', '_', '_']
    argv := []
    argc := 0
    parsed := false
    options := [] }

def Options.setArgType (this : Options) (t : Nat) : Options := { this with arg_type := t }
def Options.getKey (this : Options) : CString := this.key
def Options.setKey (this : Options) (key : CString) : Options := { this with key := key }
def Options.setParsed (this : Options) (parsed : Bool) : Options := { this with parsed := parsed }
def Options.setArgc (this : Options) (arg_count : Nat) : Options := { this with argc := arg_count }
def Options.getArgc (this : Options) : Nat := this.argc
def Options.getParsed (this : Options) : Bool := this.parsed
def Options.addOptions (this : Options) (options : Options) : Options :=
  { this with options := this.options ++ [options] }
def Options.setData (this : Options) (data : CString) : Options := { this with data := data }
def Options.getData (this : Options) : CString := this.data

/-- The scan of `Options::get` (line 323) over the indices `0 .. argc-1` of the
children vector: the first child whose key equals `key`. Reading an index
beyond the vector is undefined in the source; it ends the scan here. -/
def Options.getLoop (key : CString) : List Options → Nat → Option Options
  | [], _ => none
  | _ :: _, 0 => none
  | o :: os, n + 1 => if _compare_cstring key o.key then some o else Options.getLoop key os n

/-- Line 321: `Options::get`, the first matching child, or a freshly
constructed node on a miss. -/
def Options.get (this : Options) (key : CString) : Options :=
  match Options.getLoop key this.options this.argc with
  | some option => option
  | none => Options.new

/-- Write-back through the pointer returned by `Options::get`: the same scan,
replacing the child it stops at. -/
def Options.putLoop (key : CString) (node : Options) : List Options → Nat → List Options
  | [], _ => []
  | o :: os, 0 => o :: os
  | o :: os, n + 1 =>
    if _compare_cstring key o.key then node :: os else o :: Options.putLoop key node os n

/-- The tree after the node `get key` points to has been changed into `node`.
On a miss the pointer is to a fresh node that is not part of the tree, and the
tree is unchanged. -/
def Options.put (this : Options) (key : CString) (node : Options) : Options :=
  { this with options := Options.putLoop key node this.options this.argc }

/-! ## The argument node (lines 452-523, 1026-1112, 1335-1486) -/

/-- Line 452: `struct Argument`, with the fields that the constructors set
and the parser reads. `dtype`, `the_data`, `parsed`, `excludes`, `choices`,
`help_msg`, `callback`, `method` and `parent` are never read by
`parseArg`, `Argument::parse` or `CommandLine::parse` and are left out.
`dtype_check_cb` is a pure function on the token; `is_custom_dtype` is the
`int` flag read as a truth value. -/
structure Argument where
  arg_type : Nat
  dtype_custom : CString
  is_custom_dtype : Bool
  long_flag : CString
  short_flag : CString
  required : Bool
  dtype_check_cb : CString → Nat
  arguments : List Argument

/-- Line 1026: the constructor `Argument()`, the null node. -/
def Argument.new : Argument :=
  { arg_type := _NULL_ARG_
    dtype_custom := []
    is_custom_dtype := false
    long_flag := ['n', 'u', 'l', 'l']
    short_flag := ['n']
    required := false
    dtype_check_cb := fun _ => NO_ERROR
    arguments := [] }

/-- Line 1063: the constructor `Argument(arg_type, short_flag, long_flag,
required, help_msg)`. -/
def Argument.ctor (arg_type : Nat) (short_flag long_flag : CString) (required : Bool)
    (_help_msg : CString) : Argument :=
  { arg_type := arg_type
    dtype_custom := []
    is_custom_dtype := false
    long_flag := long_flag
    short_flag := short_flag
    required := required
    dtype_check_cb := fun _ => NO_ERROR
    arguments := [] }

/-- Line 1391: `Argument::addArgument`. -/
def Argument.addArgument (this arg : Argument) : Argument :=
  { this with arguments := this.arguments ++ [arg] }

/-- Line 1371: `Argument::setRequired`. -/
def Argument.setRequired (this : Argument) (rqrd : Bool) : Argument :=
  { this with required := rqrd }

/-- Line 1353: `Argument::setDatatypeCheckCallback` with a non-null `func`. -/
def Argument.setDatatypeCheckCallback (this : Argument) (func : CString → Nat) : Argument :=
  { this with dtype_check_cb := func, is_custom_dtype := true }

def Argument.getArgType (this : Argument) : Nat := this.arg_type
def Argument.getArguments (this : Argument) : List Argument := this.arguments

/-- Line 1437: `NewArgument`. -/
def NewArgument (arg_type : Nat) (short_flag long_flag : CString) (required : Bool)
    (help : CString) : Argument :=
  if !_checkArgType arg_type then Argument.new
  else Argument.ctor arg_type short_flag long_flag required help

/-- Line 1468: `NewParamter`. -/
def NewParamter (title dtype : CString) : Argument :=
  { Argument.ctor PARAM title title false [] with dtype_custom := dtype }

/-! ## The token-match rule (lines 531-595) -/

/-- The C library predicate `isspace` in the "C" locale. -/
def isspace (c : Char) : Bool :=
  c = Char.ofNat 32 || (9 ≤ c.toNat && c.toNat ≤ 13)

/-- The value of `c` as a digit of `strtol`: `0-9`, then letters of either
case from ten on. -/
def digitValue (c : Char) : Option Nat :=
  if '0' ≤ c ∧ c ≤ '9' then some (c.toNat - '0'.toNat)
  else if 'a' ≤ c ∧ c ≤ 'z' then some (c.toNat - 'a'.toNat + 10)
  else if 'A' ≤ c ∧ c ≤ 'Z' then some (c.toNat - 'A'.toNat + 10)
  else none

/-- Whether `c` is a digit of the base `base`. -/
def isDigitOf (base : Nat) (c : Char) : Bool :=
  match digitValue c with
  | some d => decide (d < base)
  | none => false

/-- The C library call `strtol(nptr, &end, 0)` of line 567, as far as the
source uses it: the text `end` points to. White space is skipped, then an
optional sign; the base is 16 after `0x`/`0X` followed by a hexadecimal digit,
8 after `0`, and 10 otherwise; `end` is placed after the longest run of digits
of that base, or at `nptr` when there is none. -/
def strtol_end (nptr : CString) : CString :=
  let s := nptr.dropWhile isspace
  let s := match s with
    | '+' :: t => t
    | '-' :: t => t
    | _ => s
  match s with
  | '0' :: x :: d :: t =>
    if (x = 'x' ∨ x = 'X') ∧ isDigitOf 16 d then (d :: t).dropWhile (isDigitOf 16)
    else s.dropWhile (isDigitOf 8)
  | '0' :: _ => s.dropWhile (isDigitOf 8)
  | c :: _ => if isDigitOf 10 c then s.dropWhile (isDigitOf 10) else nptr
  | [] => nptr

/-- The fallback of `parseArg` (line 594). -/
def parseArgFallback (arg : Argument) : Nat :=
  if arg.required then ERR_REQ_ARG_NOT_FOUND else ERR_NOT_FOUND

/-- Line 531: `parseArg`. `access thearg` is the outcome of the system call
`access(thearg, F_OK) == 0` of line 575. -/
def parseArg (access : CString → Bool) (arg : Argument) (thearg : CString) : Nat :=
  if arg.arg_type &&& OPTION ≠ 0 ∧
      (_compare_cstring thearg
          (combineString (_argtype_header arg.arg_type ['l', 'o', 'n', 'g']) arg.long_flag) ||
        _compare_cstring thearg
          (combineString (_argtype_header arg.arg_type ['s', 'h', 'o', 'r', 't']) arg.short_flag))
  then ERR_NO_ERR
  else if arg.arg_type &&& WILDCARD ≠ 0 ∧
      (_compare_cstring thearg
          (combineString (_argtype_header arg.arg_type ['l', 'o', 'n', 'g']) arg.long_flag) ||
        _compare_cstring thearg
          (combineString (_argtype_header arg.arg_type ['s', 'h', 'o', 'r', 't']) arg.short_flag))
  then ERR_NO_ERR
  else if arg.arg_type &&& METHOD ≠ 0 ∧
      (_compare_cstring thearg arg.long_flag || _compare_cstring thearg arg.short_flag)
  then ERR_NO_ERR
  else if arg.arg_type &&& PARAM ≠ 0 then
    if _compare_cstring_until thearg ['-'] 1 || _compare_cstring_until thearg ['-', '-'] 2 then
      ERR_REQ_PARAM_NOT_FOUND ||| ERR_INVALID_INPUT ||| ERR_WRONG_DATA
    else if arg.is_custom_dtype then arg.dtype_check_cb thearg
    else if _compare_cstring arg.dtype_custom ['s', 't', 'r', 'i', 'n', 'g'] then
      if strlen thearg > 0 then ERR_NO_ERR else ERR_WRONG_DATA
    else if _compare_cstring arg.dtype_custom ['i', 'n', 't'] then
      if charAt (strtol_end thearg) 0 = NUL then ERR_NO_ERR
      else if arg.required then ERR_WRONG_DATA ||| ERR_REQ_PARAM_NOT_FOUND else ERR_WRONG_DATA
    else if _compare_cstring arg.dtype_custom ['f', 'i', 'l', 'e'] then
      if access thearg then ERR_NO_ERR else ERR_WRONG_DATA
    else if _compare_cstring arg.dtype_custom ['u', 'r', 'l'] then
      if _compare_cstring_until thearg ['h', 't', 't', 'p'] 4 then ERR_NO_ERR else 0
    else if _compare_cstring arg.dtype_custom ['f', 'i', 'l', 'e'] then 1
    else
      -- line 590: the callback is called and its result dropped
      parseArgFallback arg
  else parseArgFallback arg

/-! ## The recursive matcher (lines 1119-1132, 1228-1332) -/

/-- Line 1119: `attachOptions`, a new parsed node for `arg` holding the token
`argv[i]`, appended to the children of `options`. The source declares the
result `int` and returns nothing; no caller reads it. -/
def attachOptions (arg : Argument) (options : Options) (i : Nat) (argv : List CString)
    (_argc : Nat) : Options :=
  let nop := Options.new
  let nop := nop.setParsed true
  let nop := nop.setData (argv.getD i [])
  let nop := nop.setArgType arg.arg_type
  let nop := nop.setKey arg.long_flag
  let options := options.setArgc (options.getArgc + 1)
  options.addOptions nop

/-- Lines 1314-1316 and 1321-1323: the loop over the children of `this` that
ORs into `err_glob`, for each required child, REQ_PARAM_NOT_FOUND or NO_ERR
for a child with the PARAM bit and REQ_ARG_NOT_FOUND for any other child. -/
def requiredChildren (this : Argument) (err_glob : Nat) : Nat :=
  this.arguments.foldl
    (fun err_glob child =>
      if child.required then
        err_glob |||
          (if child.arg_type &&& PARAM ≠ 0 then
            (if this.required ∧ this.arg_type &&& (OPTION ||| WILDCARD ||| METHOD) ≠ 0 then
              ERR_REQ_PARAM_NOT_FOUND
            else ERR_NO_ERR)
          else ERR_REQ_ARG_NOT_FOUND)
      else err_glob)
    err_glob

/-- Lines 1257-1318: what `Argument::parse` does with the token `i` once
`parseArg` returned `e = ERR_NO_ERR` for it. `children` runs the loop over the
children of `this` (lines 1269-1277) on the sub-window. The test
`e & ERR_NO_ERR == ERR_NO_ERR` of line 1264 reads `e & (1 == 1)`, which the
enclosing test has established, so its else branch is not reached. -/
def parseMatched (this : Argument)
    (children : List CString → Options → Nat → Nat × Options)
    (argv : List CString) (options : Options) (i e err_glob : Nat) : Nat × Options :=
  let argc := argv.length
  if i < argc - 1 ∧ e &&& ERR_NO_ERR ≠ 0 then
    let options := attachOptions this options i argv argc
    if this.arguments.length = 0 then (err_glob, options)
    else
      let newargv := copySubArgv argc argv i
      let (e, options) := children newargv options e
      if e = ERR_NO_ERR then (e, options)
      else (err_glob ||| e, options)
  else
    let options := attachOptions this options (argc - 1) argv argc
    (requiredChildren this err_glob, options)

/-- Lines 1245-1331: the token loop of `Argument::parse` with `n` iterations
left, at index `i`, followed by the code after the loop. -/
def parseLoop (access : CString → Bool) (this : Argument)
    (children : List CString → Options → Nat → Nat × Options)
    (argv : List CString) (options : Options) : Nat → Nat → Nat → Nat → Nat × Options
  | 0, _, e, err_glob =>
    let err_glob := requiredChildren this err_glob
    if argv.length = 2 then (err_glob, options)
    else (err_glob ||| e, options)
  | n + 1, i, _, _ =>
    let e := 0 ||| parseArg access this (argv.getD i [])
    let err_glob := e
    if e ≠ ERR_NO_ERR then parseLoop access this children argv options n (i + 1) e err_glob
    else parseMatched this children argv options i e err_glob

mutual
/-- Line 1228: `Argument::parse`, returning the error code and the result
node `options` as left by the call. -/
def Argument.parse (access : CString → Bool) :
    Argument → List CString → Options → Nat × Options
  | ⟨arg_type, dtype_custom, is_custom_dtype, long_flag, short_flag, required,
      dtype_check_cb, arguments⟩, argv, options =>
    let this : Argument := ⟨arg_type, dtype_custom, is_custom_dtype, long_flag, short_flag,
      required, dtype_check_cb, arguments⟩
    let argc := argv.length
    let e := 0
    let err_glob := 1
    let e := if required ∧ argc < 2 then
        e ||| (if required then ERR_REQ_ARG_NOT_FOUND else ERR_NO_ERR)
      else e
    let err_glob := err_glob ||| e
    if argc < 2 then (err_glob, options)
    else
      parseLoop access this
        (fun newargv options e => parseChildren access required long_flag arguments newargv options e)
        argv options (argc - 1) 1 e err_glob
/-- Lines 1269-1277: the loop over the children `q` of a node with the given
`required` and `long_flag`; each child parses the sub-window into the node
`options->get(long_flag)` and its code is ORed into `e`, from which
REQ_ARG_NOT_FOUND is cleared when the node is optional and the child required. -/
def parseChildren (access : CString → Bool) (this_required : Bool) (this_long_flag : CString) :
    List Argument → List CString → Options → Nat → Nat × Options
  | [], _, options, e => (e, options)
  | child :: rest, newargv, options, e =>
    let r := Argument.parse access child newargv (options.get this_long_flag)
    let options := options.put this_long_flag r.2
    let e := e ||| r.1
    let e := if e &&& ERR_REQ_ARG_NOT_FOUND ≠ 0 ∧ (!this_required ∧ child.required) then
        e &&& bnot32 ERR_REQ_ARG_NOT_FOUND
      else e
    parseChildren access this_required this_long_flag rest newargv options e
end

/-! ## The facade (lines 610-680, 692-734, 890-994) -/

/-- Line 610: `struct argument_tree` (its uninitialised `size` left out). -/
structure argument_tree where
  root : Argument
  methods : Nat
  options : Nat

/-- Line 651: the constructor of `argument_tree`. -/
def argument_tree.new : argument_tree :=
  { root := Argument.ctor _NULL_ARG_ ['r'] ['r', 'o', 'o', 't'] true []
    methods := 0
    options := 0 }

/-- Line 670: `argument_tree::addArgument`. -/
def argument_tree.addArgument (this : argument_tree) (arg : Argument) : argument_tree :=
  { root := this.root.addArgument arg
    methods := this.methods + (if arg.getArgType &&& METHOD > 0 then 1 else 0)
    options := this.options + (if arg.getArgType &&& OPTION > 0 then 1 else 0) }

/-- Line 692: `struct CommandLine`. The pointer `options` is not set before
the first `parse`. -/
structure CommandLine where
  verbosity : Nat
  args : argument_tree
  options : Option Options

/-- Line 727: the constructor `CommandLine()`. -/
def CommandLine.new : CommandLine :=
  { verbosity := 0, args := argument_tree.new, options := none }

/-- Line 772: `CommandLine::addArgument`. -/
def CommandLine.addArgument (this : CommandLine) (arg : Argument) : CommandLine :=
  { this with args := this.args.addArgument arg }

/-- Line 890: `CommandLine::build_options_tree`, the fresh root of the result
tree. -/
def CommandLine.build_options_tree (this : CommandLine) : Options :=
  let options := Options.new
  let options := options.setKey this.args.root.long_flag
  let options := options.setParsed true
  options.setArgc 0

/-- Lines 910-916: one round of the scan for the two global switches; `s` is
the pair of `this->verbosity` and `help`. -/
def scanStep (s : Nat × Nat) (tok : CString) : Nat × Nat :=
  let verbosity :=
    if _compare_cstring tok ['-', 'v', 'C', 'L', 'I'] ||
        _compare_cstring tok ['-', '-', 'v', 'e', 'r', 'b', 'o', 's', 'e', 'C', 'L', 'I']
    then VERBOSE_FULL else s.1
  let help :=
    if _compare_cstring tok ['-', 'h'] || _compare_cstring tok ['-', '-', 'h', 'e', 'l', 'p']
    then ERR_HELP_WILDCARD else s.2
  (verbosity, help)

/-- Lines 906-917: the scan of the whole `argv`, `argv[0]` included, for the
verbosity and the help token; returns the new `verbosity` and `help`. -/
def scanSwitches (verbosity : Nat) (argv : List CString) : Nat × Nat :=
  argv.foldl scanStep (verbosity, 0)

/-- Lines 932-944: the loop over the top level arguments. -/
def parseTopLevel (access : CString → Bool) (argv : List CString) :
    List Argument → Nat → Options → Nat × Options
  | [], err, options_tree => (err, options_tree)
  | arg :: rest, err, options_tree =>
    let r := arg.parse access argv options_tree
    let err := err ||| (r.1 ||| err)
    let err := if !arg.required ∧ ¬ (err &&& ERR_REQ_PARAM_NOT_FOUND ≠ 0) then
        err &&& bnot32 ERR_REQ_ARG_NOT_FOUND
      else err
    let err := if arg.required ∧ arg.arg_type &&& PARAM ≠ 0 then
        err ||| ERR_REQ_PARAM_NOT_FOUND
      else err
    parseTopLevel access argv rest err r.2

/-- Line 903: `CommandLine::parse`, returning the code and the command line
with its new result tree and verbosity. The copy `newargv` of line 930 is only
freed again and is left out. -/
def CommandLine.parse (access : CString → Bool) (this : CommandLine) (argv : List CString) :
    Nat × CommandLine :=
  let options_tree := this.build_options_tree
  let s := scanSwitches this.verbosity argv
  let help := s.2
  let err := 0
  let r := parseTopLevel access argv this.args.root.getArguments err options_tree
  let err := r.1
  let err := if err = ERR_NO_ERR ∨ help ≠ 0 then err ||| help else err
  (err, { this with verbosity := s.1, options := some r.2 })

/-- Line 991: `CommandLine::parsedArgs`. -/
def CommandLine.parsedArgs (this : CommandLine) : Option Options := this.options

/-! ## The demo of `examples/create_demo/command_line_unit_test_01.cpp` -/

/-- Lines 13-19 of the demo: the argument `h`. -/
def demo_h : Argument :=
  (NewArgument (WILDCARD ||| OPTION) ['t', 't'] ['t', 'e', 's', 't', 'i', 'n', 'g'] false
      "This is the default help message for the commandline parser in c++".toList).addArgument
    (NewParamter ['t', 'e', 's', 't'] ['s', 't', 'r', 'i', 'n', 'g'])

/-- Lines 25-31 of the demo: the argument `mynextArg`. -/
def demo_mynextArg : Argument :=
  (NewArgument OPTION ['r'] ['r', 'e', 'f', 'e', 'r', 'e', 'n', 'c', 'e'] false
      "This is the default help message for the commandline parser in c++".toList).addArgument
    (NewParamter ['n', 'u', 'm', 'b', 'e', 'r'] ['i', 'n', 't'])

/-- Lines 35-41 of the demo: the argument `mynextArg2`. -/
def demo_mynextArg2 : Argument :=
  (NewArgument OPTION ['q'] ['q', 'u', 'e', 's', 't', 'i', 'o', 'n'] false
      "This is the default help message for the commandline parser in c++".toList).addArgument
    (NewParamter ['t', 'h', 'e', 'q'] ['s', 't', 'r', 'i', 'n', 'g'])

/-- Lines 9-42 of the demo: the command line with its three arguments. -/
def myCommandLine : CommandLine :=
  ((CommandLine.new.addArgument demo_h).addArgument demo_mynextArg).addArgument demo_mynextArg2

/-- A decimal numeral without leading zero: a non-empty run of decimal digits
that is `0` itself or does not start with `0`. -/
def isDecimalNumeral (s : CString) : Bool :=
  !s.isEmpty && s.all Char.isDigit && (s.head? != some '0' || s == ['0'])

/-! ## Concrete inputs used by the witnesses and counterexamples -/

/-- A file system without any file, for the `access` call of `parseArg`. -/
def noFiles : CString → Bool := fun _ => false

/-- A required option `-n` or `--name` with a required string parameter `value`. -/
def ex_name : Argument :=
  (NewArgument OPTION "n".toList "name".toList true []).addArgument
    ((NewParamter "value".toList "string".toList).setRequired true)

/-- A required option `-h` or `--help` with a required string parameter `topic`. -/
def ex_help : Argument :=
  (NewArgument OPTION "h".toList "help".toList true []).addArgument
    ((NewParamter "topic".toList "string".toList).setRequired true)

/-- A required option `-i` or `--input` with a string parameter `path`. -/
def ex_input : Argument :=
  (NewArgument OPTION "i".toList "input".toList true []).addArgument
    (NewParamter "path".toList "string".toList)

/-- An optional option `-v` or `--verbose` without children. -/
def ex_verbose : Argument :=
  NewArgument OPTION "v".toList "verbose".toList false []

/-- An optional option `-o` or `--output` with a required string parameter `path`. -/
def ex_output : Argument :=
  (NewArgument OPTION "o".toList "output".toList false []).addArgument
    ((NewParamter "path".toList "string".toList).setRequired true)

/-- A result node with the key `a`. -/
def ex_child0 : Options :=
  { Options.new with key := "a".toList, data := "zero".toList, parsed := true }

/-- A result node with the key `ab` and the value `first`. -/
def ex_child1 : Options :=
  { Options.new with key := "ab".toList, data := "first".toList, parsed := true }

/-- A result node with the key `ab` and the value `second`. -/
def ex_child2 : Options :=
  { Options.new with key := "ab".toList, data := "second".toList, parsed := true }

/-- A result node with three children, two of which share the key `ab`. -/
def ex_result : Options :=
  { Options.new with argc := 3, options := [ex_child0, ex_child1, ex_child2] }

/-- Whether a token starts with `0x` or `0X` followed by a hexadecimal digit,
the form that `strtol` with base 0 reads as a hexadecimal literal. -/
def isHexPrefixed (t : CString) : Bool :=
  match t with
  | '0' :: x :: d :: _ => (x == 'x' || x == 'X') && isDigitOf 16 d
  | _ => false

/-! ## The error description (lines 396-434) -/

/-- Lines 417-433 of `ErrParse`: the tests after the help block. The test
`ErrCode & 0xFE == 0` reads `ErrCode & (0xFE == 0)`. -/
def ErrParsePlain (ErrCode : Nat) : String :=
  if ErrCode &&& (if (254 : Nat) = 0 then 1 else 0) ≠ 0 then "No Error.\n"
  else if ErrCode &&& ERR_INVALID_INPUT ≠ 0 then "Invalid Input.\n"
  else if ErrCode &&& ERR_REQ_ARG_NOT_FOUND ≠ 0 then "Required Argument could not be found.\n"
  else if ErrCode &&& ERR_WRONG_DATA ≠ 0 then "The input data(type) is incorrect.\n"
  else if ErrCode &&& ERR_REQ_PARAM_NOT_FOUND ≠ 0 then "Required Parameter could not be found.\n"
  else
    "Err - No Error Description found. sanity check advised or run with higher verbosity (if possible).\n"

/-- Line 396: `ErrParse`. When no test of the help block returns, control
falls through to the tests after it. -/
def ErrParse (ErrCode : Nat) : String :=
  if ErrCode &&& ERR_HELP_WILDCARD ≠ 0 then
    if ErrCode &&& (if (254 : Nat) = 0 then 1 else 0) ≠ 0 then "<Help - Wildhard> No Error.\n"
    else if ErrCode &&& ERR_INVALID_INPUT ≠ 0 then "<Help - Wildhard> Invalid Input.\n"
    else if ErrCode &&& ERR_REQ_ARG_NOT_FOUND ≠ 0 then
      "<Help - Wildhard> Required Argument could not be found.\n"
    else if ErrCode &&& ERR_WRONG_DATA ≠ 0 then
      "<Help - Wildhard> The input data(type) is incorrect.\n"
    else if ErrCode &&& ERR_REQ_PARAM_NOT_FOUND ≠ 0 then
      "<Help - Wildhard> Required Parameter could not be found.\n"
    else ErrParsePlain ErrCode
  else ErrParsePlain ErrCode

/-- The four messages of `ErrParse` with their bits, in the order of
priority INVALID_INPUT, REQ_ARG_NOT_FOUND, WRONG_DATA, REQ_PARAM_NOT_FOUND. -/
def errMessages : List (Nat × String) :=
  [(ERR_INVALID_INPUT, "Invalid Input.\n"),
    (ERR_REQ_ARG_NOT_FOUND, "Required Argument could not be found.\n"),
    (ERR_WRONG_DATA, "The input data(type) is incorrect.\n"),
    (ERR_REQ_PARAM_NOT_FOUND, "Required Parameter could not be found.\n")]

/-- The fallback message of `ErrParse`. -/
def errFallback : String :=
  "Err - No Error Description found. sanity check advised or run with higher verbosity (if possible).\n"

/-- The description of a code as the spec words it: the message of the first
set bit in the order of priority, with the help marker in front exactly when
HELP_WILDCARD is set too, and the fallback when none of the four bits is set. -/
def describeError (code : Nat) : String :=
  match errMessages.find? (fun m => code &&& m.1 ≠ 0) with
  | some m => if code &&& ERR_HELP_WILDCARD ≠ 0 then "<Help - Wildhard> " ++ m.2 else m.2
  | none => errFallback

/-! ## Definitions for the claims on the matcher -/

/-- The part of a result node that its creation fixes: kind, key, value,
`argv` and the parsed flag; `argc` and the children are what later
attachments change. -/
def Options.header (o : Options) : Nat × CString × CString × List CString × Bool :=
  (o.arg_type, o.key, o.data, o.argv, o.parsed)

/-- An optional wildcard `-V` or `--version` without children. -/
def ex_version : Argument :=
  NewArgument WILDCARD "V".toList "version".toList false []

/-- A required option `-f` or `--format` without children. -/
def ex_format : Argument :=
  NewArgument OPTION "f".toList "format".toList true []

/-- An optional option `-e` or `--export` whose only child is the required
option `--format`. -/
def ex_export : Argument :=
  (NewArgument OPTION "e".toList "export".toList false []).addArgument ex_format

/-- A required option `-c` or `--copy` with two required string parameters
`from` and `to`. -/
def ex_copy : Argument :=
  ((NewArgument OPTION "c".toList "copy".toList true []).addArgument
      ((NewParamter "from".toList "string".toList).setRequired true)).addArgument
    ((NewParamter "to".toList "string".toList).setRequired true)

/-- Following the wording of the specification for a node `N` matched by the
last token of the window: what a required child `c` adds to the code.
REQ_PARAM_NOT_FOUND if `c` is a Param and `N` is required and of kind Option,
Wildcard or Method, NO_ERR if `c` is a Param and `N` is not such a node,
REQ_ARG_NOT_FOUND if `c` is not a Param. -/
def missingChildCode (N c : Argument) : Nat :=
  if c.arg_type &&& PARAM ≠ 0 then
    if N.required = true ∧ N.arg_type &&& (OPTION ||| WILDCARD ||| METHOD) ≠ 0 then
      ERR_REQ_PARAM_NOT_FOUND
    else ERR_NO_ERR
  else ERR_REQ_ARG_NOT_FOUND

/-- Following the wording of the specification: NO_ERR ORed, over every
required child of `N`, with `missingChildCode`. -/
def lastTokenCode (N : Argument) : Nat :=
  (N.arguments.filter (fun c => c.required)).foldl (fun e c => e ||| missingChildCode N c)
    ERR_NO_ERR

/-! ## Predicates on the result tree and on the argument tree -/

mutual
/-- The nodes of a result tree: the node itself, then the nodes of the trees
below its children, in order. -/
def Options.nodes : Options → List Options
  | ⟨arg_type, key, data, argv, argc, parsed, options⟩ =>
    ⟨arg_type, key, data, argv, argc, parsed, options⟩ :: Options.nodesList options
/-- The nodes of a sequence of result trees. -/
def Options.nodesList : List Options → List Options
  | [] => []
  | o :: os => Options.nodes o ++ Options.nodesList os
end

mutual
/-- No node of the argument tree below and including this node had
`setDatatypeCheckCallback` called on it. -/
def Argument.noCustomCallback : Argument → Bool
  | ⟨_, _, is_custom_dtype, _, _, _, _, arguments⟩ =>
    !is_custom_dtype && Argument.noCustomCallbackList arguments
/-- The same for a sequence of argument nodes. -/
def Argument.noCustomCallbackList : List Argument → Bool
  | [] => true
  | a :: rest => Argument.noCustomCallback a && Argument.noCustomCallbackList rest
end

/-- The bits that `parseArg` and `Argument::parse` can set when no custom
callback is registered: NO_ERR, INVALID_INPUT, REQ_ARG_NOT_FOUND, WRONG_DATA,
NOT_FOUND and REQ_PARAM_NOT_FOUND. -/
def matcherBits : Nat :=
  ERR_NO_ERR ||| ERR_INVALID_INPUT ||| ERR_REQ_ARG_NOT_FOUND ||| ERR_WRONG_DATA |||
    ERR_NOT_FOUND ||| ERR_REQ_PARAM_NOT_FOUND

/-- Lines 1120-1124: the node that `attachOptions` creates for `arg` and the
token `tok`. -/
def attachedNode (arg : Argument) (tok : CString) : Options :=
  (((Options.new.setParsed true).setData tok).setArgType arg.arg_type).setKey arg.long_flag

/-- A required option `-s` or `--site` with a url parameter `addr`. -/
def ex_site : Argument :=
  (NewArgument OPTION "s".toList "site".toList true []).addArgument
    (NewParamter "addr".toList "url".toList)

/-- A url parameter `addr` that has a child of its own, the required option
`-S` or `--secure`. -/
def ex_addr_nested : Argument :=
  (NewParamter "addr".toList "url".toList).addArgument
    (NewArgument OPTION "S".toList "secure".toList true [])

/-- A required option `-s` or `--site` whose only child is `ex_addr_nested`. -/
def ex_site_nested : Argument :=
  (NewArgument OPTION "s".toList "site".toList true []).addArgument ex_addr_nested

/-- A string parameter `from` that has a child of its own, the required int
parameter `mode`. -/
def ex_from_nested : Argument :=
  (NewParamter "from".toList "string".toList).addArgument
    ((NewParamter "mode".toList "int".toList).setRequired true)

/-- A required option `-c` or `--copy` with the string parameters
`ex_from_nested` and `to`. -/
def ex_copy_nested : Argument :=
  ((NewArgument OPTION "c".toList "copy".toList true []).addArgument ex_from_nested).addArgument
    (NewParamter "to".toList "string".toList)

/-- An optional option `-m` or `--move` with the string parameters `src` and
`dst`. -/
def ex_move : Argument :=
  ((NewArgument OPTION "m".toList "move".toList false []).addArgument
      (NewParamter "src".toList "string".toList)).addArgument
    (NewParamter "dst".toList "string".toList)

/-! ## Lemmas on the string utilities -/

theorem foldl_and_range (p : Nat → Bool) (l : Nat) :
    (List.range l).foldl (fun same i => same && p i) true = true ↔ ∀ i, i < l → p i = true := by
  induction l with
  | zero => simp
  | succ n ih =>
    rw [List.range_succ, List.foldl_append]
    simp only [List.foldl_cons, List.foldl_nil, Bool.and_eq_true, ih]
    constructor
    · rintro ⟨h1, h2⟩ i hi
      rcases Nat.lt_succ_iff_lt_or_eq.mp hi with h | h
      · exact h1 i h
      · rw [h]; exact h2
    · intro h
      exact ⟨fun i hi => h i (Nat.lt_succ_of_lt hi), h n (Nat.lt_succ_self n)⟩

theorem compare_cstring_iff (str1 str2 : CString) :
    _compare_cstring str1 str2 = true ↔ str1 = str2 := by
  unfold _compare_cstring strlen
  constructor
  · intro h
    by_cases hl : str1.length + 1 ≠ str2.length + 1
    · simp [hl] at h
    · simp only [hl, if_false] at h
      rw [foldl_and_range] at h
      have hlen : str1.length = str2.length := by omega
      apply List.ext_getElem hlen
      intro n h1 h2
      have := h n (by omega)
      simp only [charAt, beq_iff_eq] at this
      rw [List.getD_eq_getElem _ _ h1, List.getD_eq_getElem _ _ h2] at this
      exact this
  · intro h
    subst h
    simp only [ne_eq, not_true_eq_false, if_false]
    rw [foldl_and_range]
    intro i _
    simp

theorem compare_cstring_eq (str1 str2 : CString) :
    _compare_cstring str1 str2 = decide (str1 = str2) := by
  by_cases h : str1 = str2
  · simp [h, (compare_cstring_iff str2 str2).mpr rfl]
  · have : _compare_cstring str1 str2 ≠ true := fun hc => h ((compare_cstring_iff _ _).mp hc)
    simp [h, this]

theorem compare_until_dash1 (thearg : CString) :
    _compare_cstring_until thearg ['-'] 1 = decide (thearg.head? = some '-') := by
  cases thearg with
  | nil => decide
  | cons c t =>
    by_cases h : c = '-' <;> simp [_compare_cstring_until, List.range_succ, charAt, h]

/-! ## Lemmas on the result tree -/

theorem getLoop_none (key : CString) (opts : List Options) (n : Nat)
    (h : ∀ c ∈ opts.take n, c.key ≠ key) : Options.getLoop key opts n = none := by
  induction opts generalizing n with
  | nil => simp [Options.getLoop]
  | cons o os ih =>
    cases n with
    | zero => simp [Options.getLoop]
    | succ m =>
      have ho : o.key ≠ key := h o (by simp)
      have hne : key ≠ o.key := fun e => ho e.symm
      simp only [Options.getLoop, compare_cstring_eq, hne, decide_False, Bool.false_eq_true,
        if_false]
      exact ih m (fun c hc => h c (by simp [hc]))

theorem getLoop_first (key : CString) (opts : List Options) (n i : Nat) (c : Options)
    (hi : i < n) (hc : opts[i]? = some c) (hkey : c.key = key)
    (hfirst : ∀ j, j < i → ∀ d, opts[j]? = some d → d.key ≠ key) :
    Options.getLoop key opts n = some c := by
  induction opts generalizing n i with
  | nil => simp at hc
  | cons o os ih =>
    cases n with
    | zero => omega
    | succ m =>
      cases i with
      | zero =>
        simp only [List.getElem?_cons_zero, Option.some.injEq] at hc
        subst hc
        simp [Options.getLoop, compare_cstring_eq, hkey]
      | succ k =>
        have ho : o.key ≠ key := hfirst 0 (by omega) o (by simp)
        have hne : key ≠ o.key := fun e => ho e.symm
        simp only [Options.getLoop, compare_cstring_eq, hne, decide_False, Bool.false_eq_true,
          if_false]
        refine ih m k (by omega) (by simpa using hc) ?_
        intro j hj d hd
        exact hfirst (j + 1) (by omega) d (by simpa using hd)

/-! ## Lemmas on the token-match rule -/

theorem kind_bits :
    ((1 : Nat) &&& 1 = 1) ∧ ((1 : Nat) &&& 2 = 0) ∧ ((1 : Nat) &&& 4 = 0) ∧ ((1 : Nat) &&& 8 = 0) ∧
    ((2 : Nat) &&& 1 = 0) ∧ ((2 : Nat) &&& 2 = 2) ∧ ((2 : Nat) &&& 4 = 0) ∧ ((2 : Nat) &&& 8 = 0) ∧
    ((4 : Nat) &&& 1 = 0) ∧ ((4 : Nat) &&& 2 = 0) ∧ ((4 : Nat) &&& 4 = 4) ∧ ((4 : Nat) &&& 8 = 0) ∧
    ((5 : Nat) &&& 1 = 1) ∧ ((5 : Nat) &&& 2 = 0) ∧ ((5 : Nat) &&& 4 = 4) ∧ ((5 : Nat) &&& 8 = 0) ∧
    ((8 : Nat) &&& 1 = 0) ∧ ((8 : Nat) &&& 2 = 0) ∧ ((8 : Nat) &&& 4 = 0) ∧ ((8 : Nat) &&& 8 = 8) ∧
    ((1 : Nat) ||| 4 = 5) := by
  decide

theorem parseArg_param_dash (access : CString → Bool) (P : Argument) (rest : CString)
    (hk : P.arg_type = PARAM) :
    parseArg access P ('-' :: rest) =
      ERR_REQ_PARAM_NOT_FOUND ||| ERR_INVALID_INPUT ||| ERR_WRONG_DATA := by
  simp [parseArg, hk, PARAM, OPTION, WILDCARD, METHOD, compare_until_dash1, kind_bits]

theorem parseArg_flag (access : CString → Bool) (N : Argument) (t : CString)
    (hk : N.arg_type = OPTION ∨ N.arg_type = WILDCARD ∨ N.arg_type = OPTION ||| WILDCARD) :
    parseArg access N t =
      if t = ['-', '-'] ++ N.long_flag ∨ t = ['-'] ++ N.short_flag then ERR_NO_ERR
      else parseArgFallback N := by
  rcases hk with h | h | h <;>
    by_cases h1 : t = '-' :: '-' :: N.long_flag <;>
    by_cases h2 : t = '-' :: N.short_flag <;>
    simp [parseArg, h, PARAM, OPTION, WILDCARD, METHOD, _argtype_header, compare_cstring_eq,
      combineString, h1, h2, kind_bits]

theorem parseArg_method (access : CString → Bool) (N : Argument) (t : CString)
    (hk : N.arg_type = METHOD) :
    parseArg access N t =
      if t = N.long_flag ∨ t = N.short_flag then ERR_NO_ERR else parseArgFallback N := by
  by_cases h1 : t = N.long_flag <;> by_cases h2 : t = N.short_flag <;>
    simp [parseArg, hk, PARAM, OPTION, WILDCARD, METHOD, compare_cstring_eq, h1, h2, kind_bits]

theorem parseArgFallback_ne (N : Argument) : parseArgFallback N ≠ ERR_NO_ERR := by
  unfold parseArgFallback
  split <;> decide

/-! ## Lemmas on the matcher -/

theorem parse_eq (access : CString → Bool) (this : Argument) (argv : List CString)
    (options : Options) :
    Argument.parse access this argv options =
      if argv.length < 2 then
        (1 ||| (if this.required then ERR_REQ_ARG_NOT_FOUND else 0), options)
      else
        parseLoop access this
          (fun newargv options e =>
            parseChildren access this.required this.long_flag this.arguments newargv options e)
          argv options (argv.length - 1) 1 0 1 := by
  cases this with
  | mk arg_type dtype_custom is_custom_dtype long_flag short_flag required dtype_check_cb arguments =>
    rw [Argument.parse]
    by_cases h : argv.length < 2
    · cases required <;> simp [h]
    · have h2 : ¬ (required = true ∧ argv.length < 2) := fun hh => h hh.2
      simp [h]

theorem parseLoop_zero (access : CString → Bool) (this : Argument)
    (children : List CString → Options → Nat → Nat × Options) (argv : List CString)
    (options : Options) (i e err_glob : Nat) :
    parseLoop access this children argv options 0 i e err_glob =
      if argv.length = 2 then (requiredChildren this err_glob, options)
      else (requiredChildren this err_glob ||| e, options) := by
  rw [parseLoop]

theorem parseLoop_succ (access : CString → Bool) (this : Argument)
    (children : List CString → Options → Nat → Nat × Options) (argv : List CString)
    (options : Options) (n i e err_glob : Nat) :
    parseLoop access this children argv options (n + 1) i e err_glob =
      if parseArg access this (argv.getD i []) ≠ ERR_NO_ERR then
        parseLoop access this children argv options n (i + 1)
          (parseArg access this (argv.getD i [])) (parseArg access this (argv.getD i []))
      else
        parseMatched this children argv options i
          (parseArg access this (argv.getD i [])) (parseArg access this (argv.getD i [])) := by
  conv => lhs; rw [parseLoop]
  simp only [Nat.zero_or]

theorem parseLoop_nomatch (access : CString → Bool) (this : Argument)
    (children : List CString → Options → Nat → Nat × Options) (argv : List CString)
    (options : Options) (n i e err_glob : Nat)
    (h : ∀ j, i ≤ j → j < i + (n + 1) → parseArg access this (argv.getD j []) ≠ ERR_NO_ERR) :
    parseLoop access this children argv options (n + 1) i e err_glob =
      parseLoop access this children argv options 0 (i + (n + 1))
        (parseArg access this (argv.getD (i + n) []))
        (parseArg access this (argv.getD (i + n) [])) := by
  induction n generalizing i e err_glob with
  | zero =>
    rw [parseLoop_succ, if_pos (h i (Nat.le_refl i) (by omega))]
    rfl
  | succ m ih =>
    rw [parseLoop_succ, if_pos (h i (Nat.le_refl i) (by omega))]
    rw [ih (i + 1) _ _ (fun j h1 h2 => h j (by omega) (by omega))]
    have e1 : i + 1 + (m + 1) = i + (m + 1 + 1) := by omega
    have e2 : i + 1 + m = i + (m + 1) := by omega
    rw [e1, e2]

theorem parseLoop_match (access : CString → Bool) (this : Argument)
    (children : List CString → Options → Nat → Nat × Options) (argv : List CString)
    (options : Options) (n i k e err_glob : Nat) (hik : i ≤ k) (hkn : k < i + n)
    (h : ∀ j, i ≤ j → j < k → parseArg access this (argv.getD j []) ≠ ERR_NO_ERR)
    (hk : parseArg access this (argv.getD k []) = ERR_NO_ERR) :
    parseLoop access this children argv options n i e err_glob =
      parseMatched this children argv options k ERR_NO_ERR ERR_NO_ERR := by
  induction n generalizing i e err_glob with
  | zero => omega
  | succ m ih =>
    rw [parseLoop_succ]
    by_cases hi : i = k
    · subst hi
      rw [if_neg (by rw [hk]; exact fun hh => hh rfl), hk]
    · rw [if_pos (h i (Nat.le_refl i) (by omega))]
      exact ih (i + 1) _ _ (by omega) (by omega) (fun j h1 h2 => h j (by omega) h2)

/-- A window in which no token at the positions `1 .. argc-1` matches: the
code is that of the last token, ORed with the bits of the required children. -/
theorem parse_nomatch (access : CString → Bool) (this : Argument) (argv : List CString)
    (options : Options) (hlen : 2 ≤ argv.length)
    (h : ∀ j, 1 ≤ j → j < argv.length → parseArg access this (argv.getD j []) ≠ ERR_NO_ERR) :
    Argument.parse access this argv options =
      if argv.length = 2 then
        (requiredChildren this (parseArg access this (argv.getD (argv.length - 1) [])), options)
      else
        (requiredChildren this (parseArg access this (argv.getD (argv.length - 1) [])) |||
          parseArg access this (argv.getD (argv.length - 1) []), options) := by
  rw [parse_eq]
  have h2 : ¬ argv.length < 2 := by omega
  simp only [h2, if_false]
  obtain ⟨m, hm⟩ : ∃ m, argv.length - 1 = m + 1 := ⟨argv.length - 2, by omega⟩
  rw [hm, parseLoop_nomatch _ _ _ _ _ m 1 _ _ (fun j h1 h2 => h j h1 (by omega)), parseLoop_zero]
  have e3 : 1 + m = argv.length - 1 := by omega
  rw [e3, hm]

/-- A window whose first matching token is at position `k`. -/
theorem parse_match (access : CString → Bool) (this : Argument) (argv : List CString)
    (options : Options) (k : Nat) (hk1 : 1 ≤ k) (hklen : k < argv.length)
    (h : ∀ j, 1 ≤ j → j < k → parseArg access this (argv.getD j []) ≠ ERR_NO_ERR)
    (hk : parseArg access this (argv.getD k []) = ERR_NO_ERR) :
    Argument.parse access this argv options =
      parseMatched this
        (fun newargv options e =>
          parseChildren access this.required this.long_flag this.arguments newargv options e)
        argv options k ERR_NO_ERR ERR_NO_ERR := by
  rw [parse_eq]
  have h2 : ¬ argv.length < 2 := by omega
  simp only [h2, if_false]
  exact parseLoop_match _ _ _ _ _ _ 1 k _ _ hk1 (by omega) h hk

/-! ## Lemmas on the bit patterns -/

theorem and_two_pow_eq (x i : Nat) : x &&& 2 ^ i = 2 ^ i ↔ x.testBit i = true := by
  constructor
  · intro h
    have := congrArg (fun z => Nat.testBit z i) h
    simpa [Nat.testBit_two_pow_self] using this
  · intro h
    apply Nat.eq_of_testBit_eq
    intro j
    by_cases hj : i = j
    · subst hj; simp [h]
    · simp [Nat.testBit_two_pow_of_ne hj]

theorem and_two_pow_eq_zero (x i : Nat) : x &&& 2 ^ i = 0 ↔ x.testBit i = false := by
  constructor
  · intro h
    have := congrArg (fun z => Nat.testBit z i) h
    simpa [Nat.testBit_two_pow_self] using this
  · intro h
    apply Nat.eq_of_testBit_eq
    intro j
    by_cases hj : i = j
    · subst hj; simp [h]
    · simp [Nat.testBit_two_pow_of_ne hj]

theorem testBit_bnot32_8 (x i : Nat) (hi : i < 32) (h3 : i ≠ 3) :
    (x &&& bnot32 ERR_REQ_ARG_NOT_FOUND).testBit i = x.testBit i := by
  have hb : (bnot32 ERR_REQ_ARG_NOT_FOUND).testBit i = true := by
    have : bnot32 ERR_REQ_ARG_NOT_FOUND = 4294967287 := by decide
    rw [this]
    interval_cases i <;> first | decide | exact absurd rfl h3
  simp [hb]

theorem testBit_bnot32_8_three (x : Nat) :
    (x &&& bnot32 ERR_REQ_ARG_NOT_FOUND).testBit 3 = false := by
  have hb : (bnot32 ERR_REQ_ARG_NOT_FOUND).testBit 3 = false := by decide
  simp [hb]

theorem bnot32_8_bits :
    (bnot32 ERR_REQ_ARG_NOT_FOUND).testBit 0 = true ∧
    (bnot32 ERR_REQ_ARG_NOT_FOUND).testBit 1 = true ∧
    (bnot32 ERR_REQ_ARG_NOT_FOUND).testBit 2 = true ∧
    (bnot32 ERR_REQ_ARG_NOT_FOUND).testBit 3 = false ∧
    (bnot32 ERR_REQ_ARG_NOT_FOUND).testBit 4 = true ∧
    (bnot32 ERR_REQ_ARG_NOT_FOUND).testBit 5 = true ∧
    (bnot32 ERR_REQ_ARG_NOT_FOUND).testBit 6 = true ∧
    (bnot32 ERR_REQ_ARG_NOT_FOUND).testBit 7 = true := by
  decide

/-! ## Lemmas on the loop over the required children -/

theorem requiredChildren_nil (this : Argument) (g : Nat) (h : this.arguments = []) :
    requiredChildren this g = g := by
  simp [requiredChildren, h]

theorem requiredChildren_testBit (this : Argument) (g i : Nat) (h : g.testBit i = true) :
    (requiredChildren this g).testBit i = true := by
  unfold requiredChildren
  generalize this.arguments = cs
  induction cs generalizing g with
  | nil => simpa using h
  | cons c cs ih =>
    rw [List.foldl_cons]
    apply ih
    split
    · simp [h]
    · exact h

/-! ## Lemmas on the write-back -/

theorem putLoop_getLoop (key : CString) (dflt : Options) (opts : List Options) (n : Nat) :
    Options.putLoop key ((Options.getLoop key opts n).getD dflt) opts n = opts := by
  induction opts generalizing n with
  | nil => simp [Options.putLoop]
  | cons o os ih =>
    cases n with
    | zero => simp [Options.putLoop]
    | succ m =>
      by_cases h : _compare_cstring key o.key = true
      · simp [Options.putLoop, Options.getLoop, h]
      · simp only [Options.getLoop, h, Bool.false_eq_true, if_false]
        rw [Options.putLoop]
        simp only [h, Bool.false_eq_true, if_false]
        rw [ih m]

theorem put_get_self (R : Options) (key : CString) : R.put key (R.get key) = R := by
  have h := putLoop_getLoop key Options.new R.options R.argc
  have e : R.get key = (Options.getLoop key R.options R.argc).getD Options.new := by
    unfold Options.get
    cases Options.getLoop key R.options R.argc <;> rfl
  rw [e]
  unfold Options.put
  rw [h]
  cases R
  rfl

theorem parse_dash_value (access : CString → Bool) (N P : Argument) (prog t1 t2 rest : CString)
    (R : Options) (hN : N.arguments = [P]) (hmatch : parseArg access N t1 = ERR_NO_ERR)
    (hP : P.arg_type = PARAM) (ht2 : t2 = '-' :: rest) :
    ∃ code, Argument.parse access N [prog, t1, t2] R =
        (code, attachOptions N R 1 [prog, t1, t2] 3) ∧
      code.testBit 7 = true ∧ code.testBit 2 = true ∧ code.testBit 4 = true := by
  subst ht2
  rw [parse_match access N [prog, t1, '-' :: rest] R 1 (Nat.le_refl 1) (by simp)
    (fun j h1 h2 => by omega) hmatch]
  have hPp : Argument.parse access P [prog, '-' :: rest]
      ((attachOptions N R 1 [prog, t1, '-' :: rest] 3).get N.long_flag) =
      (requiredChildren P (ERR_REQ_PARAM_NOT_FOUND ||| ERR_INVALID_INPUT ||| ERR_WRONG_DATA),
        (attachOptions N R 1 [prog, t1, '-' :: rest] 3).get N.long_flag) := by
    rw [parse_nomatch access P _ _ (by simp)]
    · simp [parseArg_param_dash access P rest hP]
    · intro j h1 h2
      have hj : j = 1 := by simp at h2; omega
      subst hj
      simp only [List.getD_cons_succ, List.getD_cons_zero]
      rw [parseArg_param_dash access P rest hP]
      decide
  have hcopy : copySubArgv 3 [prog, t1, '-' :: rest] 1 = [prog, '-' :: rest] := rfl
  have hbits : ∀ i, (ERR_REQ_PARAM_NOT_FOUND ||| ERR_INVALID_INPUT ||| ERR_WRONG_DATA).testBit i = true →
      (requiredChildren P
        (ERR_REQ_PARAM_NOT_FOUND ||| ERR_INVALID_INPUT ||| ERR_WRONG_DATA)).testBit i = true :=
    fun i h => requiredChildren_testBit P _ i h
  have h7 := hbits 7 (by decide)
  have h2 := hbits 2 (by decide)
  have h4 := hbits 4 (by decide)
  generalize requiredChildren P (ERR_REQ_PARAM_NOT_FOUND ||| ERR_INVALID_INPUT ||| ERR_WRONG_DATA)
    = g at hPp h7 h2 h4
  have e1 : (1 : Nat) &&& 1 ≠ 0 := by decide
  simp only [parseMatched, List.length_cons, List.length_nil, hN, hcopy, parseChildren, hPp,
    put_get_self, ERR_NO_ERR]
  simp only [Nat.reduceAdd, Nat.reduceSub, Nat.lt_add_one, ne_eq, e1, not_false_eq_true,
    and_self, if_true, Nat.add_eq_zero, one_ne_zero, and_false, if_false]
  split <;> split <;>
    refine ⟨_, rfl, ?_, ?_, ?_⟩ <;>
    simp [bnot32_8_bits, h7, h2, h4]

theorem isDigit_cases (c : Char) (h : c.isDigit = true) :
    c = '0' ∨ c = '1' ∨ c = '2' ∨ c = '3' ∨ c = '4' ∨ c = '5' ∨ c = '6' ∨ c = '7' ∨
      c = '8' ∨ c = '9' := by
  have h1 : 48 ≤ c.toNat ∧ c.toNat ≤ 57 := by
    simp only [Char.isDigit, Bool.and_eq_true, decide_eq_true_eq] at h
    exact ⟨h.1, h.2⟩
  have h2 : Char.ofNat c.toNat = c := Char.ofNat_toNat c
  obtain ⟨hlo, hhi⟩ := h1
  generalize c.toNat = n at h2 hlo hhi
  subst h2
  interval_cases n <;> decide

theorem dropWhile_digits (t : CString) (h : t.all Char.isDigit = true) :
    t.dropWhile (isDigitOf 10) = [] := by
  induction t with
  | nil => rfl
  | cons c t ih =>
    simp only [List.all_cons, Bool.and_eq_true] at h
    have hc : isDigitOf 10 c = true := by
      rcases isDigit_cases c h.1 with h | h | h | h | h | h | h | h | h | h <;> subst h <;> decide
    rw [List.dropWhile_cons, if_pos hc]
    exact ih h.2

theorem strtol_end_numeral (s : CString) (h : isDecimalNumeral s = true) : strtol_end s = [] := by
  cases s with
  | nil => simp [isDecimalNumeral] at h
  | cons c t =>
    simp only [isDecimalNumeral, List.isEmpty_cons, Bool.not_false, Bool.true_and,
      Bool.and_eq_true, Bool.or_eq_true, List.head?_cons, bne_iff_ne, ne_eq, Option.some.injEq,
      beq_iff_eq] at h
    obtain ⟨hall, hzero⟩ := h
    rcases hzero with hz | hz
    · have hd := dropWhile_digits (c :: t) hall
      simp only [List.all_cons, Bool.and_eq_true] at hall
      rcases isDigit_cases c hall.1 with h | h | h | h | h | h | h | h | h | h
      · exact absurd h hz
      all_goals
        subst h
        simp only [strtol_end]
        exact hd
    · rw [hz]; decide

theorem compare_until_dash2 (thearg : CString) (h : thearg.head? ≠ some '-') :
    _compare_cstring_until thearg ['-', '-'] 2 = false := by
  cases thearg with
  | nil => decide
  | cons c t =>
    have hc : c ≠ '-' := fun e => h (by simp [e])
    simp [_compare_cstring_until, List.range_succ, charAt, hc]

theorem parseArg_param_string (access : CString → Bool) (P : Argument) (v : CString)
    (hk : P.arg_type = PARAM) (hc : P.is_custom_dtype = false)
    (hd : P.dtype_custom = ['s', 't', 'r', 'i', 'n', 'g']) (hv : v.head? ≠ some '-') :
    parseArg access P v = ERR_NO_ERR := by
  simp [parseArg, hk, PARAM, OPTION, WILDCARD, METHOD, kind_bits, compare_until_dash1,
    compare_until_dash2 v hv, hv, hc, hd, compare_cstring_eq, strlen]

theorem numeral_no_dash (v : CString) (h : isDecimalNumeral v = true) : v.head? ≠ some '-' := by
  cases v with
  | nil => simp
  | cons c t =>
    simp only [isDecimalNumeral, List.isEmpty_cons, Bool.not_false, Bool.true_and,
      Bool.and_eq_true, List.all_cons] at h
    intro e
    simp only [List.head?_cons, Option.some.injEq] at e
    subst e
    exact absurd h.1.1 (by decide)

theorem parseArg_param_int (access : CString → Bool) (P : Argument) (v : CString)
    (hk : P.arg_type = PARAM) (hc : P.is_custom_dtype = false)
    (hd : P.dtype_custom = ['i', 'n', 't']) (hv : isDecimalNumeral v = true) :
    parseArg access P v = ERR_NO_ERR := by
  have hnd := numeral_no_dash v hv
  simp [parseArg, hk, PARAM, OPTION, WILDCARD, METHOD, kind_bits, compare_until_dash1,
    compare_until_dash2 v hnd, hnd, hc, hd, compare_cstring_eq, strtol_end_numeral v hv, charAt]

theorem parseArg_flag_no_dash (access : CString → Bool) (N : Argument) (t : CString)
    (hk : N.arg_type = OPTION ∨ N.arg_type = WILDCARD ∨ N.arg_type = OPTION ||| WILDCARD)
    (ht : t.head? ≠ some '-') : parseArg access N t ≠ ERR_NO_ERR := by
  rw [parseArg_flag access N t hk]
  have h1 : ¬ (t = ['-', '-'] ++ N.long_flag ∨ t = ['-'] ++ N.short_flag) := by
    rintro (h | h) <;> exact ht (by simp [h])
  rw [if_neg h1]
  exact parseArgFallback_ne N

theorem attachOptions_eq (arg : Argument) (R : Options) (i : Nat) (argv : List CString)
    (c : Nat) :
    attachOptions arg R i argv c =
      { R with
        argc := R.argc + 1
        options := R.options ++
          [{ arg_type := arg.arg_type, key := arg.long_flag, data := argv.getD i [], argv := [],
             argc := 0, parsed := true, options := [] }] } := rfl

/-- A node without children whose first matching token is token 1. -/
theorem parse_leaf_match (access : CString → Bool) (P : Argument) (argv : List CString)
    (R : Options) (hPc : P.arguments = []) (hlen : 2 ≤ argv.length)
    (hval : parseArg access P (argv.getD 1 []) = ERR_NO_ERR) :
    Argument.parse access P argv R = (ERR_NO_ERR, attachOptions P R 1 argv argv.length) := by
  rw [parse_match access P argv R 1 (Nat.le_refl 1) (by omega) (fun j h1 h2 => by omega) hval]
  unfold parseMatched
  by_cases h : 1 < argv.length - 1
  · simp [h, hPc, ERR_NO_ERR]
  · have e : argv.length - 1 = 1 := by omega
    simp [h, e, requiredChildren_nil P _ hPc, attachOptions_eq]

theorem copySubArgv_getD_one (argv : List CString) (k : Nat) (hk : k + 1 < argv.length) :
    (copySubArgv argv.length argv k).getD 1 [] = argv.getD (k + 1) [] ∧
      2 ≤ (copySubArgv argv.length argv k).length := by
  unfold copySubArgv
  constructor
  · rw [List.getD_eq_getElem _ _ (by simp; omega)]
    simp [Nat.add_comm]
  · simp; omega

/-- A node whose only child is a node without children: the first token that
matches the node is at `k`, and the child accepts the token after it. -/
theorem parse_with_leaf_child (access : CString → Bool) (N P : Argument) (argv : List CString)
    (R : Options) (k : Nat) (hN : N.arguments = [P]) (hPc : P.arguments = [])
    (hk1 : 1 ≤ k) (hk : k + 1 < argv.length)
    (hfirst : ∀ j, 1 ≤ j → j < k → parseArg access N (argv.getD j []) ≠ ERR_NO_ERR)
    (hmatch : parseArg access N (argv.getD k []) = ERR_NO_ERR)
    (hval : parseArg access P (argv.getD (k + 1) []) = ERR_NO_ERR) :
    Argument.parse access N argv R =
      (ERR_NO_ERR,
        (attachOptions N R k argv argv.length).put N.long_flag
          (attachOptions P ((attachOptions N R k argv argv.length).get N.long_flag) 1
            (copySubArgv argv.length argv k) (copySubArgv argv.length argv k).length)) := by
  rw [parse_match access N argv R k hk1 (by omega) hfirst hmatch]
  obtain ⟨hc1, hc2⟩ := copySubArgv_getD_one argv k hk
  have hP := fun R2 => parse_leaf_match access P (copySubArgv argv.length argv k) R2 hPc hc2
    (by rw [hc1]; exact hval)
  have hlt : k < argv.length - 1 := by omega
  have e1 : (1 : Nat) &&& 1 ≠ 0 := by decide
  have e2 : ((1 : Nat) ||| 1) &&& 8 = 0 := by decide
  have e3 : (1 : Nat) ||| 1 = 1 := by decide
  simp [parseMatched, hlt, hN, parseChildren, hP, ERR_NO_ERR, ERR_REQ_ARG_NOT_FOUND, e1, e2, e3]

theorem scanSwitches_help_nil (verbosity : Nat) : (scanSwitches verbosity []).2 = 0 := rfl

theorem scanSwitches_foldl_snd (argv : List CString) (s : Nat × Nat)
    (h : ∀ tok ∈ argv, tok ≠ ['-', 'h'] ∧ tok ≠ ['-', '-', 'h', 'e', 'l', 'p']) :
    (argv.foldl scanStep s).2 = s.2 := by
  induction argv generalizing s with
  | nil => rfl
  | cons tok rest ih =>
    rw [List.foldl_cons, ih _ (fun t ht => h t (by simp [ht]))]
    have := h tok (by simp)
    simp [scanStep, compare_cstring_eq, this.1, this.2]

theorem scanSwitches_foldl_help (argv : List CString) (s : Nat × Nat)
    (h : s.2 = ERR_HELP_WILDCARD ∨
      ∃ tok ∈ argv, tok = ['-', 'h'] ∨ tok = ['-', '-', 'h', 'e', 'l', 'p']) :
    (argv.foldl scanStep s).2 = ERR_HELP_WILDCARD := by
  induction argv generalizing s with
  | nil =>
    rcases h with h | ⟨tok, ht, _⟩
    · exact h
    · simp at ht
  | cons tok rest ih =>
    rw [List.foldl_cons]
    apply ih
    by_cases hh : tok = ['-', 'h'] ∨ tok = ['-', '-', 'h', 'e', 'l', 'p']
    · left
      rcases hh with e | e <;> subst e <;> rfl
    · rcases h with h | ⟨t, ht, htt⟩
      · left
        simp only [not_or] at hh
        simp [scanStep, compare_cstring_eq, hh.1, hh.2, h]
      · rcases List.mem_cons.mp ht with e | e
        · subst e; exact absurd htt hh
        · exact Or.inr ⟨t, e, htt⟩

/-- Without a help token in `argv` the scan leaves `help = 0`. -/
theorem scanSwitches_no_help (verbosity : Nat) (argv : List CString)
    (h : ∀ tok ∈ argv, tok ≠ ['-', 'h'] ∧ tok ≠ ['-', '-', 'h', 'e', 'l', 'p']) :
    (scanSwitches verbosity argv).2 = 0 := by
  unfold scanSwitches
  rw [scanSwitches_foldl_snd argv _ h]

theorem no_dash_not_help (v : CString) (hv : v.head? ≠ some '-') :
    v ≠ ['-', 'h'] ∧ v ≠ ['-', '-', 'h', 'e', 'l', 'p'] := by
  constructor <;> intro e <;> exact hv (by simp [e])

/-- A window of three flag-value pairs after the program name: the node is
matched by the flag of one pair and by no token before it, and its only child,
a node without children, accepts the value of that pair. -/
theorem parse_three_pairs (access : CString → Bool) (N P : Argument) (R : Options)
    (prog a1 b1 a2 b2 a3 b3 f v : CString) (hN : N.arguments = [P]) (hPc : P.arguments = [])
    (hmatch : parseArg access N f = ERR_NO_ERR) (hval : parseArg access P v = ERR_NO_ERR)
    (hpos : (a1 = f ∧ b1 = v) ∨
      (a2 = f ∧ b2 = v ∧ parseArg access N a1 ≠ ERR_NO_ERR ∧ parseArg access N b1 ≠ ERR_NO_ERR) ∨
      (a3 = f ∧ b3 = v ∧ parseArg access N a1 ≠ ERR_NO_ERR ∧ parseArg access N b1 ≠ ERR_NO_ERR ∧
        parseArg access N a2 ≠ ERR_NO_ERR ∧ parseArg access N b2 ≠ ERR_NO_ERR)) :
    Argument.parse access N [prog, a1, b1, a2, b2, a3, b3] R =
      (ERR_NO_ERR,
        (attachOptions N R 0 [f] 1).put N.long_flag
          (attachOptions P ((attachOptions N R 0 [f] 1).get N.long_flag) 0 [v] 1)) := by
  rcases hpos with ⟨h1, h2⟩ | ⟨h1, h2, n1, n2⟩ | ⟨h1, h2, n1, n2, n3, n4⟩
  · subst h1; subst h2
    rw [parse_with_leaf_child access N P [prog, a1, b1, a2, b2, a3, b3] R 1 hN hPc (Nat.le_refl 1) (by simp)
      (fun j h1 h2 => by omega) hmatch hval]
    rfl
  · subst h1; subst h2
    rw [parse_with_leaf_child access N P [prog, a1, b1, a2, b2, a3, b3] R 3 hN hPc (by omega) (by simp)
      (fun j h1 h2 => by interval_cases j <;> first | exact n1 | exact n2) hmatch hval]
    rfl
  · subst h1; subst h2
    rw [parse_with_leaf_child access N P [prog, a1, b1, a2, b2, a3, b3] R 5 hN hPc (by omega) (by simp)
      (fun j h1 h2 => by interval_cases j <;> first | exact n1 | exact n2 | exact n3 | exact n4)
      hmatch hval]
    rfl

theorem perm_three {α : Type} (l : List α) (a b c : α) (h : List.Perm l [a, b, c]) :
    l = [a, b, c] ∨ l = [a, c, b] ∨ l = [b, a, c] ∨ l = [b, c, a] ∨ l = [c, a, b] ∨
      l = [c, b, a] := by
  have hm : l ∈ List.permutations [a, b, c] := List.mem_permutations.mpr h
  simp [List.permutations, List.permutationsAux_cons, List.permutationsAux2] at hm
  tauto

/-- One round of the loop over the top level arguments for an optional
argument whose parse returns NO_ERR, when no error has been recorded so far. -/
theorem parseTopLevel_step_ok (access : CString → Bool) (argv : List CString) (arg : Argument)
    (rest : List Argument) (err : Nat) (R R2 : Options)
    (h : Argument.parse access arg argv R = (ERR_NO_ERR, R2)) (hr : arg.required = false)
    (herr : err = 0 ∨ err = 1) :
    parseTopLevel access argv (arg :: rest) err R = parseTopLevel access argv rest 1 R2 := by
  have e1 : ((0 : Nat) ||| (1 ||| 0)) &&& 128 = 0 := by decide
  have e2 : ((0 : Nat) ||| (1 ||| 0)) &&& bnot32 8 = 1 := by decide
  have e3 : ((1 : Nat) ||| (1 ||| 1)) &&& 128 = 0 := by decide
  have e4 : ((1 : Nat) ||| (1 ||| 1)) &&& bnot32 8 = 1 := by decide
  conv => lhs; rw [parseTopLevel]
  rcases herr with he | he <;> subst he <;>
    simp only [h, hr, ERR_NO_ERR, ERR_REQ_PARAM_NOT_FOUND, ERR_REQ_ARG_NOT_FOUND, e1, e2, e3, e4,
      Bool.not_false, ne_eq, not_true_eq_false, not_false_eq_true, and_self, if_true,
      Bool.false_eq_true, false_and, if_false]

theorem demo_parse_core (access : CString → Bool) (argv : List CString) (ft vt fr vr fq vq : CString)
    (hT : ∀ R, Argument.parse access demo_h argv R =
      (ERR_NO_ERR, (attachOptions demo_h R 0 [ft] 1).put demo_h.long_flag
        (attachOptions (NewParamter ['t', 'e', 's', 't'] ['s', 't', 'r', 'i', 'n', 'g'])
          ((attachOptions demo_h R 0 [ft] 1).get demo_h.long_flag) 0 [vt] 1)))
    (hR : ∀ R, Argument.parse access demo_mynextArg argv R =
      (ERR_NO_ERR, (attachOptions demo_mynextArg R 0 [fr] 1).put demo_mynextArg.long_flag
        (attachOptions (NewParamter ['n', 'u', 'm', 'b', 'e', 'r'] ['i', 'n', 't'])
          ((attachOptions demo_mynextArg R 0 [fr] 1).get demo_mynextArg.long_flag) 0 [vr] 1)))
    (hQ : ∀ R, Argument.parse access demo_mynextArg2 argv R =
      (ERR_NO_ERR, (attachOptions demo_mynextArg2 R 0 [fq] 1).put demo_mynextArg2.long_flag
        (attachOptions (NewParamter ['t', 'h', 'e', 'q'] ['s', 't', 'r', 'i', 'n', 'g'])
          ((attachOptions demo_mynextArg2 R 0 [fq] 1).get demo_mynextArg2.long_flag) 0 [vq] 1)))
    (hhelp : ∀ tok ∈ argv, tok ≠ ['-', 'h'] ∧ tok ≠ ['-', '-', 'h', 'e', 'l', 'p']) :
    (myCommandLine.parse access argv).1 = ERR_NO_ERR ∧
      ∃ t, (myCommandLine.parse access argv).2.parsedArgs = some t ∧
        ((t.get ['t', 'e', 's', 't', 'i', 'n', 'g']).get ['t', 'e', 's', 't']).getData = vt ∧
        ((t.get ['r', 'e', 'f', 'e', 'r', 'e', 'n', 'c', 'e']).get
          ['n', 'u', 'm', 'b', 'e', 'r']).getData = vr ∧
        ((t.get ['q', 'u', 'e', 's', 't', 'i', 'o', 'n']).get ['t', 'h', 'e', 'q']).getData = vq := by
  have hargs : myCommandLine.args.root.arguments = [demo_h, demo_mynextArg, demo_mynextArg2] := rfl
  have hh := scanSwitches_no_help myCommandLine.verbosity argv hhelp
  have r1 : demo_h.required = false := rfl
  have r2 : demo_mynextArg.required = false := rfl
  have r3 : demo_mynextArg2.required = false := rfl
  simp only [CommandLine.parse, Argument.getArguments, hargs, hh, CommandLine.parsedArgs]
  rw [parseTopLevel_step_ok access argv _ _ 0 _ _ (hT _) r1 (Or.inl rfl),
    parseTopLevel_step_ok access argv _ _ 1 _ _ (hR _) r2 (Or.inr rfl),
    parseTopLevel_step_ok access argv _ _ 1 _ _ (hQ _) r3 (Or.inr rfl)]
  simp only [parseTopLevel]
  have k1 : demo_h.long_flag = ['t', 'e', 's', 't', 'i', 'n', 'g'] := rfl
  have k2 : demo_mynextArg.long_flag = ['r', 'e', 'f', 'e', 'r', 'e', 'n', 'c', 'e'] := rfl
  have k3 : demo_mynextArg2.long_flag = ['q', 'u', 'e', 's', 't', 'i', 'o', 'n'] := rfl
  have k4 : (NewParamter ['t', 'e', 's', 't'] ['s', 't', 'r', 'i', 'n', 'g']).long_flag =
    ['t', 'e', 's', 't'] := rfl
  have k5 : (NewParamter ['n', 'u', 'm', 'b', 'e', 'r'] ['i', 'n', 't']).long_flag =
    ['n', 'u', 'm', 'b', 'e', 'r'] := rfl
  have k6 : (NewParamter ['t', 'h', 'e', 'q'] ['s', 't', 'r', 'i', 'n', 'g']).long_flag =
    ['t', 'h', 'e', 'q'] := rfl
  simp [attachOptions_eq, Options.get, Options.getLoop, Options.put, Options.putLoop,
    compare_cstring_eq, CommandLine.build_options_tree, Options.new, Options.setKey,
    Options.setParsed, Options.setArgc, Options.getData, k1, k2, k3, k4, k5, k6, ERR_NO_ERR]

/-! ## The claims -/

/-- C1, counterexample. A required option whose long flag is `help`, with a
required string parameter: `[prog, --help, usage]` is the round trip of the
claim, and `CommandLine::parse` returns NO_ERR | HELP_WILDCARD (33), not
NO_ERR, because the facade reads `--help` as the help token. -/
theorem C1_counterexample :
    ((CommandLine.new.addArgument ex_help).parse noFiles
      ["prog".toList, "--help".toList, "usage".toList]).1 = ERR_NO_ERR ||| ERR_HELP_WILDCARD ∧
    ((CommandLine.new.addArgument ex_help).parse noFiles
      ["prog".toList, "--help".toList, "usage".toList]).1 ≠ ERR_NO_ERR := by
  decide

/-- C1, as amended (round trip). The only registered argument is a required
Option `N` (with or without the Wildcard bit) whose long flag is not `help`,
with exactly one child, a required
Param `P` of datatype `string` without custom callback and without children;
`v` does not begin with `-` and `prog` is not a help token. Then
`CommandLine::parse` on `[prog, "--" + N.long_flag, v]` returns exactly NO_ERR
and `parsedArgs().get(N.long_flag).get(P.long_flag).getData()` is `v`. -/
theorem C1_round_trip (access : CString → Bool) (cl : CommandLine) (N P : Argument)
    (prog v : CString)
    (hargs : cl.args.root.arguments = [N])
    (hN : N.arg_type = OPTION ∨ N.arg_type = OPTION ||| WILDCARD)
    (hNr : N.required = true) (hNc : N.arguments = [P])
    (hP : P.arg_type = PARAM) (hPc : P.arguments = [])
    (hPd : P.dtype_custom = ['s', 't', 'r', 'i', 'n', 'g']) (hPcb : P.is_custom_dtype = false)
    (hv : v.head? ≠ some '-')
    (hprog : prog ≠ ['-', 'h'] ∧ prog ≠ ['-', '-', 'h', 'e', 'l', 'p'])
    (hL : N.long_flag ≠ ['h', 'e', 'l', 'p']) :
    (cl.parse access [prog, ['-', '-'] ++ N.long_flag, v]).1 = ERR_NO_ERR ∧
      ∃ t, (cl.parse access [prog, ['-', '-'] ++ N.long_flag, v]).2.parsedArgs = some t ∧
        ((t.get N.long_flag).get P.long_flag).getData = v := by
  have hkind : N.arg_type = OPTION ∨ N.arg_type = WILDCARD ∨
      N.arg_type = OPTION ||| WILDCARD := by
    rcases hN with h | h
    · exact Or.inl h
    · exact Or.inr (Or.inr h)
  have hNP : N.arg_type &&& PARAM = 0 := by
    rcases hN with h | h <;> rw [h] <;> decide
  have hflag : parseArg access N (['-', '-'] ++ N.long_flag) = ERR_NO_ERR := by
    rw [parseArg_flag access N _ hkind]
    simp
  have hval : parseArg access P v = ERR_NO_ERR := parseArg_param_string access P v hP hPcb hPd hv
  have hparse := fun R => parse_with_leaf_child access N P [prog, ['-', '-'] ++ N.long_flag, v] R 1
    hNc hPc (Nat.le_refl 1) (by simp) (fun j h1 h2 => by omega) hflag hval
  have hhelp : (scanSwitches cl.verbosity [prog, ['-', '-'] ++ N.long_flag, v]).2 = 0 := by
    apply scanSwitches_no_help
    intro tok ht
    simp only [List.mem_cons, List.mem_singleton, List.not_mem_nil, or_false] at ht
    rcases ht with h | h | h
    · rw [h]; exact hprog
    · rw [h]
      constructor
      · simp
      · intro e
        apply hL
        simpa using e
    · rw [h]; exact no_dash_not_help v hv
  simp only [CommandLine.parse, hhelp, Argument.getArguments, hargs, parseTopLevel, hparse, hNr,
    hNP, ERR_NO_ERR, CommandLine.parsedArgs]
  simp [attachOptions_eq, Options.get, Options.getLoop, Options.put, Options.putLoop,
    compare_cstring_eq, CommandLine.build_options_tree, Options.new, Options.setKey,
    Options.setParsed, Options.setArgc, Options.getData, copySubArgv, List.range_succ]

/-- C1, witness: the option `--name` with the parameter `value`, on
`[prog, --name, abc]`. -/
theorem C1_round_trip_witness :
    ((CommandLine.new.addArgument ex_name).parse noFiles
      ["prog".toList, "--name".toList, "abc".toList]).1 = ERR_NO_ERR ∧
    ∃ t, ((CommandLine.new.addArgument ex_name).parse noFiles
        ["prog".toList, "--name".toList, "abc".toList]).2.parsedArgs = some t ∧
      ((t.get "name".toList).get "value".toList).getData = "abc".toList :=
  C1_round_trip noFiles (CommandLine.new.addArgument ex_name) ex_name
    ((NewParamter "value".toList "string".toList).setRequired true) "prog".toList "abc".toList
    rfl (Or.inl rfl) rfl rfl rfl rfl rfl rfl (by decide) (by decide) (by decide)

/-- C2, counterexample. The demo command line with the three flag-value pairs
of the spec after a program name that reads `--help`: `CommandLine::parse`
returns NO_ERR | HELP_WILDCARD (33), not NO_ERR, because the scan for the help
token starts at `argv[0]`. -/
theorem C2_counterexample :
    (myCommandLine.parse noFiles
      ["--help".toList, "--reference".toList, "5".toList, "--question".toList, "hi".toList,
        "--testing".toList, "yo".toList]).1 = ERR_NO_ERR ||| ERR_HELP_WILDCARD ∧
    (myCommandLine.parse noFiles
      ["--help".toList, "--reference".toList, "5".toList, "--question".toList, "hi".toList,
        "--testing".toList, "yo".toList]).1 ≠ ERR_NO_ERR := by
  decide

/-- C2, as amended (multi-flag end-to-end). For the demo command line and every
`argv` made of a program name that is not a help token followed by the three
flag-value pairs in any order (`order` is a permutation of the pairs), each
flag in its long or short spelling, the int value a decimal numeral without
leading zero and the string values not beginning with `-`:
`CommandLine::parse` returns exactly NO_ERR and each value is retrievable as
`parsedArgs().get(flag).get(param).getData()`. -/
theorem C2_multi_flag (access : CString → Bool) (prog ft vt fr vr fq vq : CString)
    (order : List (List CString))
    (hft : ft = ['-', '-', 't', 'e', 's', 't', 'i', 'n', 'g'] ∨ ft = ['-', 't', 't'])
    (hfr : fr = ['-', '-', 'r', 'e', 'f', 'e', 'r', 'e', 'n', 'c', 'e'] ∨ fr = ['-', 'r'])
    (hfq : fq = ['-', '-', 'q', 'u', 'e', 's', 't', 'i', 'o', 'n'] ∨ fq = ['-', 'q'])
    (hvt : vt.head? ≠ some '-') (hvr : isDecimalNumeral vr = true) (hvq : vq.head? ≠ some '-')
    (horder : List.Perm order [[ft, vt], [fr, vr], [fq, vq]])
    (hprog : prog ≠ ['-', 'h'] ∧ prog ≠ ['-', '-', 'h', 'e', 'l', 'p']) :
    (myCommandLine.parse access (prog :: order.flatten)).1 = ERR_NO_ERR ∧
      ∃ t, (myCommandLine.parse access (prog :: order.flatten)).2.parsedArgs = some t ∧
        ((t.get ['t', 'e', 's', 't', 'i', 'n', 'g']).get ['t', 'e', 's', 't']).getData = vt ∧
        ((t.get ['r', 'e', 'f', 'e', 'r', 'e', 'n', 'c', 'e']).get
          ['n', 'u', 'm', 'b', 'e', 'r']).getData = vr ∧
        ((t.get ['q', 'u', 'e', 's', 't', 'i', 'o', 'n']).get ['t', 'h', 'e', 'q']).getData = vq := by
  have hvrd := numeral_no_dash vr hvr
  have kT : demo_h.arg_type = OPTION ∨ demo_h.arg_type = WILDCARD ∨
      demo_h.arg_type = OPTION ||| WILDCARD := Or.inr (Or.inr rfl)
  have kR : demo_mynextArg.arg_type = OPTION ∨ demo_mynextArg.arg_type = WILDCARD ∨
      demo_mynextArg.arg_type = OPTION ||| WILDCARD := Or.inl rfl
  have kQ : demo_mynextArg2.arg_type = OPTION ∨ demo_mynextArg2.arg_type = WILDCARD ∨
      demo_mynextArg2.arg_type = OPTION ||| WILDCARD := Or.inl rfl
  -- the flags match their own argument and no other
  have mT : parseArg access demo_h ft = ERR_NO_ERR := by
    rw [parseArg_flag access _ _ kT]; rcases hft with h | h <;> subst h <;> decide
  have mR : parseArg access demo_mynextArg fr = ERR_NO_ERR := by
    rw [parseArg_flag access _ _ kR]; rcases hfr with h | h <;> subst h <;> decide
  have mQ : parseArg access demo_mynextArg2 fq = ERR_NO_ERR := by
    rw [parseArg_flag access _ _ kQ]; rcases hfq with h | h <;> subst h <;> decide
  have nTr : parseArg access demo_h fr ≠ ERR_NO_ERR := by
    rw [parseArg_flag access _ _ kT]; rcases hfr with h | h <;> subst h <;> decide
  have nTq : parseArg access demo_h fq ≠ ERR_NO_ERR := by
    rw [parseArg_flag access _ _ kT]; rcases hfq with h | h <;> subst h <;> decide
  have nRt : parseArg access demo_mynextArg ft ≠ ERR_NO_ERR := by
    rw [parseArg_flag access _ _ kR]; rcases hft with h | h <;> subst h <;> decide
  have nRq : parseArg access demo_mynextArg fq ≠ ERR_NO_ERR := by
    rw [parseArg_flag access _ _ kR]; rcases hfq with h | h <;> subst h <;> decide
  have nQt : parseArg access demo_mynextArg2 ft ≠ ERR_NO_ERR := by
    rw [parseArg_flag access _ _ kQ]; rcases hft with h | h <;> subst h <;> decide
  have nQr : parseArg access demo_mynextArg2 fr ≠ ERR_NO_ERR := by
    rw [parseArg_flag access _ _ kQ]; rcases hfr with h | h <;> subst h <;> decide
  -- the values match no flag
  have vTt := parseArg_flag_no_dash access demo_h vt kT hvt
  have vTr := parseArg_flag_no_dash access demo_h vr kT hvrd
  have vTq := parseArg_flag_no_dash access demo_h vq kT hvq
  have vRt := parseArg_flag_no_dash access demo_mynextArg vt kR hvt
  have vRr := parseArg_flag_no_dash access demo_mynextArg vr kR hvrd
  have vRq := parseArg_flag_no_dash access demo_mynextArg vq kR hvq
  have vQt := parseArg_flag_no_dash access demo_mynextArg2 vt kQ hvt
  have vQr := parseArg_flag_no_dash access demo_mynextArg2 vr kQ hvrd
  have vQq := parseArg_flag_no_dash access demo_mynextArg2 vq kQ hvq
  -- the parameters accept their values
  have aT : parseArg access (NewParamter ['t', 'e', 's', 't'] ['s', 't', 'r', 'i', 'n', 'g']) vt =
      ERR_NO_ERR := parseArg_param_string access _ vt rfl rfl rfl hvt
  have aR : parseArg access (NewParamter ['n', 'u', 'm', 'b', 'e', 'r'] ['i', 'n', 't']) vr =
      ERR_NO_ERR := parseArg_param_int access _ vr rfl rfl rfl hvr
  have aQ : parseArg access (NewParamter ['t', 'h', 'e', 'q'] ['s', 't', 'r', 'i', 'n', 'g']) vq =
      ERR_NO_ERR := parseArg_param_string access _ vq rfl rfl rfl hvq
  -- no token is a help token
  have hTh : ft ≠ ['-', 'h'] ∧ ft ≠ ['-', '-', 'h', 'e', 'l', 'p'] := by
    rcases hft with h | h <;> subst h <;> decide
  have hRh : fr ≠ ['-', 'h'] ∧ fr ≠ ['-', '-', 'h', 'e', 'l', 'p'] := by
    rcases hfr with h | h <;> subst h <;> decide
  have hQh : fq ≠ ['-', 'h'] ∧ fq ≠ ['-', '-', 'h', 'e', 'l', 'p'] := by
    rcases hfq with h | h <;> subst h <;> decide
  have hvth := no_dash_not_help vt hvt
  have hvrh := no_dash_not_help vr hvrd
  have hvqh := no_dash_not_help vq hvq
  rcases perm_three order _ _ _ horder with h | h | h | h | h | h <;> subst h <;>
    simp only [List.flatten_cons, List.flatten_nil, List.cons_append, List.nil_append, List.append_nil] <;>
    refine demo_parse_core access _ ft vt fr vr fq vq
      (fun R => parse_three_pairs access demo_h _ R _ _ _ _ _ _ _ ft vt rfl rfl mT aT ?_)
      (fun R => parse_three_pairs access demo_mynextArg _ R _ _ _ _ _ _ _ fr vr rfl rfl mR aR ?_)
      (fun R => parse_three_pairs access demo_mynextArg2 _ R _ _ _ _ _ _ _ fq vq rfl rfl mQ aQ ?_)
      ?_
  all_goals first
    | exact Or.inl ⟨rfl, rfl⟩
    | exact Or.inr (Or.inl ⟨rfl, rfl, by assumption, by assumption⟩)
    | exact Or.inr (Or.inr ⟨rfl, rfl, by assumption, by assumption, by assumption, by assumption⟩)
    | (intro tok ht
       simp only [List.mem_cons, List.mem_singleton, List.not_mem_nil, or_false] at ht
       rcases ht with h | h | h | h | h | h | h <;> subst h <;> assumption)

/-- C2, witness: the argv of the spec,
`[prog, --reference, 5, --question, hi, --testing, yo]`. -/
theorem C2_multi_flag_witness :
    (myCommandLine.parse noFiles
      ["prog".toList, "--reference".toList, "5".toList, "--question".toList, "hi".toList,
        "--testing".toList, "yo".toList]).1 = ERR_NO_ERR ∧
    ∃ t, (myCommandLine.parse noFiles
        ["prog".toList, "--reference".toList, "5".toList, "--question".toList, "hi".toList,
          "--testing".toList, "yo".toList]).2.parsedArgs = some t ∧
      ((t.get "testing".toList).get "test".toList).getData = "yo".toList ∧
      ((t.get "reference".toList).get "number".toList).getData = "5".toList ∧
      ((t.get "question".toList).get "theq".toList).getData = "hi".toList :=
  C2_multi_flag noFiles "prog".toList "--testing".toList "yo".toList "--reference".toList
    "5".toList "--question".toList "hi".toList
    [["--reference".toList, "5".toList], ["--question".toList, "hi".toList],
      ["--testing".toList, "yo".toList]]
    (Or.inl rfl) (Or.inl rfl) (Or.inl rfl) (by decide) (by decide) (by decide)
    (by decide) (by decide)

/-- C3, evaluated at the failing input. The required option `--input` is
registered before the optional option `--verbose`, and no token of
`[prog, --verbose]` matches it: `CommandLine::parse` returns exactly NO_ERR,
without REQ_ARG_NOT_FOUND. With the same two arguments registered in the other
order the same `argv` returns NO_ERR | REQ_ARG_NOT_FOUND (9). -/
theorem C3_missing_required_option_lost :
    (∀ tok ∈ ["prog".toList, "--verbose".toList], parseArg noFiles ex_input tok ≠ ERR_NO_ERR) ∧
    (((CommandLine.new.addArgument ex_input).addArgument ex_verbose).parse noFiles
      ["prog".toList, "--verbose".toList]).1 = ERR_NO_ERR ∧
    (((CommandLine.new.addArgument ex_input).addArgument ex_verbose).parse noFiles
      ["prog".toList, "--verbose".toList]).1 &&& ERR_REQ_ARG_NOT_FOUND = 0 ∧
    (((CommandLine.new.addArgument ex_verbose).addArgument ex_input).parse noFiles
      ["prog".toList, "--verbose".toList]).1 = ERR_NO_ERR ||| ERR_REQ_ARG_NOT_FOUND := by
  decide

/-- C5, counterexample. The optional option `--verbose` has no children and
the optional option `--output` has a required Param child; no token of the
windows matches them, and `Argument::parse` returns NOT_FOUND (64) and
NOT_FOUND | NO_ERR (65), not NO_ERR. -/
theorem C5_counterexample :
    (∀ tok ∈ ["prog".toList, "file.txt".toList], parseArg noFiles ex_verbose tok ≠ ERR_NO_ERR) ∧
    (Argument.parse noFiles ex_verbose ["prog".toList, "file.txt".toList] Options.new).1 =
      ERR_NOT_FOUND ∧
    (Argument.parse noFiles ex_verbose ["prog".toList, "file.txt".toList] Options.new).1 ≠
      ERR_NO_ERR ∧
    (∀ tok ∈ ["prog".toList, "a".toList, "b".toList], parseArg noFiles ex_output tok ≠ ERR_NO_ERR) ∧
    (Argument.parse noFiles ex_output ["prog".toList, "a".toList, "b".toList] Options.new).1 =
      ERR_NOT_FOUND ||| ERR_NO_ERR ∧
    (Argument.parse noFiles ex_output ["prog".toList, "a".toList, "b".toList] Options.new).1 ≠
      ERR_NO_ERR := by
  decide

/-- C5, as amended (absent optional option). `N` is an optional Option (with or
without the Wildcard bit) with no children or with exactly one child, a
required Param, and no token at the
positions `1 .. argc-1` of the window matches `N`. Then `Argument::parse` on
`N` leaves the result node unchanged and returns NO_ERR (1) when the window has
fewer than 2 tokens, NOT_FOUND (64) when it has at least 2 tokens and `N` has
no children, and NOT_FOUND | NO_ERR (65) when it has at least 2 tokens and `N`
has the required Param child; in every case neither REQ_ARG_NOT_FOUND nor
REQ_PARAM_NOT_FOUND is set. -/
theorem C5_absent_optional_option (access : CString → Bool) (N : Argument)
    (argv : List CString) (R : Options)
    (hk : N.arg_type = OPTION ∨ N.arg_type = OPTION ||| WILDCARD) (hopt : N.required = false)
    (hch : N.arguments = [] ∨ ∃ P, N.arguments = [P] ∧ P.required = true ∧ P.arg_type = PARAM)
    (hno : ∀ j, 1 ≤ j → j < argv.length → parseArg access N (argv.getD j []) ≠ ERR_NO_ERR) :
    Argument.parse access N argv R =
        (if argv.length < 2 then ERR_NO_ERR
          else if N.arguments.length = 0 then ERR_NOT_FOUND
          else ERR_NOT_FOUND ||| ERR_NO_ERR, R) ∧
      (Argument.parse access N argv R).1 &&& ERR_REQ_ARG_NOT_FOUND = 0 ∧
      (Argument.parse access N argv R).1 &&& ERR_REQ_PARAM_NOT_FOUND = 0 := by
  have key : Argument.parse access N argv R =
      (if argv.length < 2 then ERR_NO_ERR
        else if N.arguments.length = 0 then ERR_NOT_FOUND
        else ERR_NOT_FOUND ||| ERR_NO_ERR, R) := by
    by_cases hlen : argv.length < 2
    · rw [parse_eq]
      simp [hlen, hopt, ERR_NO_ERR]
    · have hlast : parseArg access N (argv.getD (argv.length - 1) []) = ERR_NOT_FOUND := by
        have h1 := hno (argv.length - 1) (by omega) (by omega)
        have hkind : N.arg_type = OPTION ∨ N.arg_type = WILDCARD ∨
            N.arg_type = OPTION ||| WILDCARD := by
          rcases hk with h | h
          · exact Or.inl h
          · exact Or.inr (Or.inr h)
        rw [parseArg_flag access N _ hkind] at h1 ⊢
        split
        · rename_i hm
          rw [if_pos hm] at h1
          exact absurd rfl h1
        · simp [parseArgFallback, hopt]
      rw [parse_nomatch access N argv R (by omega) hno, hlast]
      have e1 : ERR_NOT_FOUND ||| ERR_NOT_FOUND = ERR_NOT_FOUND := by decide
      have e2 : ERR_NOT_FOUND ||| ERR_NO_ERR ||| ERR_NOT_FOUND = ERR_NOT_FOUND ||| ERR_NO_ERR := by
        decide
      rcases hch with h0 | ⟨P, hP, hPr, hPk⟩
      · simp [hlen, requiredChildren, h0, e1]
      · have e3 : PARAM ≠ 0 := by decide
        simp [hlen, requiredChildren, hP, hPr, hPk, hopt, e2, e3]
  rw [key]
  refine ⟨rfl, ?_, ?_⟩
  all_goals dsimp only
  all_goals split
  all_goals first | decide | (split <;> decide)

/-- C5, witness: the optional option `--output` with its required parameter,
on the window `[prog, a, b]`. -/
theorem C5_absent_optional_option_witness :
    Argument.parse noFiles ex_output ["prog".toList, "a".toList, "b".toList] Options.new =
        (if ["prog".toList, "a".toList, "b".toList].length < 2 then ERR_NO_ERR
          else if ex_output.arguments.length = 0 then ERR_NOT_FOUND
          else ERR_NOT_FOUND ||| ERR_NO_ERR, Options.new) ∧
      (Argument.parse noFiles ex_output ["prog".toList, "a".toList, "b".toList]
        Options.new).1 &&& ERR_REQ_ARG_NOT_FOUND = 0 ∧
      (Argument.parse noFiles ex_output ["prog".toList, "a".toList, "b".toList]
        Options.new).1 &&& ERR_REQ_PARAM_NOT_FOUND = 0 :=
  C5_absent_optional_option noFiles ex_output ["prog".toList, "a".toList, "b".toList]
    Options.new (Or.inl rfl) rfl
    (Or.inr ⟨(NewParamter "path".toList "string".toList).setRequired true, rfl, rfl, rfl⟩)
    (fun j h1 h2 => by
      have h3 : j < 3 := h2
      interval_cases j <;> decide)

/-- C6 (help short-circuit). For every command line and every `argv` that
contains `-h` or `--help` at any position, `argv[0]` included, the code
returned by `CommandLine::parse` has HELP_WILDCARD set. -/
theorem C6_help_short_circuit (access : CString → Bool) (cl : CommandLine)
    (argv : List CString)
    (h : ['-', 'h'] ∈ argv ∨ ['-', '-', 'h', 'e', 'l', 'p'] ∈ argv) :
    (cl.parse access argv).1 &&& ERR_HELP_WILDCARD = ERR_HELP_WILDCARD := by
  have hh : (scanSwitches cl.verbosity argv).2 = ERR_HELP_WILDCARD := by
    unfold scanSwitches
    apply scanSwitches_foldl_help
    right
    rcases h with h | h
    · exact ⟨_, h, Or.inl rfl⟩
    · exact ⟨_, h, Or.inr rfl⟩
  have h0 : ERR_HELP_WILDCARD ≠ 0 := by decide
  simp only [CommandLine.parse, hh, ne_eq, h0, not_false_eq_true, or_true, if_true]
  have p5 : ERR_HELP_WILDCARD = 2 ^ 5 := by decide
  rw [p5, and_two_pow_eq, Nat.testBit_or, Nat.testBit_two_pow_self, Bool.or_true]

/-- C6, witness: the demo command line on `[prog, --reference, -h]`, where the
option `--reference` misses its value. -/
theorem C6_help_short_circuit_witness :
    (myCommandLine.parse noFiles ["prog".toList, "--reference".toList, "-h".toList]).1 &&&
      ERR_HELP_WILDCARD = ERR_HELP_WILDCARD :=
  C6_help_short_circuit noFiles myCommandLine
    ["prog".toList, "--reference".toList, "-h".toList] (Or.inl (by decide))

/-- C7 (result-miss sentinel). When none of the children that `Options::get`
scans (the first `argc` of the children sequence) has the key `k`, `R.get(k)`
is the freshly constructed node: key `__null__`, value `__null__`, not parsed,
no children. -/
theorem C7_result_miss_sentinel (R : Options) (k : CString)
    (h : ∀ c ∈ R.options.take R.argc, c.key ≠ k) :
    R.get k = Options.new ∧
      (R.get k).getKey = ['_', '_', 'n', 'u', 'l', 'l', '_', '_'] ∧
      (R.get k).getData = ['_', '_', 'n', 'u', 'l', 'l', '_', '_'] ∧
      (R.get k).getParsed = false ∧
      (R.get k).options = [] ∧ (R.get k).getArgc = 0 := by
  have e : R.get k = Options.new := by
    unfold Options.get
    rw [getLoop_none k R.options R.argc h]
  rw [e]
  exact ⟨rfl, rfl, rfl, rfl, rfl, rfl⟩

/-- C7, witness: the key `abc` in a node whose children have the keys `a`,
`ab` and `ab`. -/
theorem C7_result_miss_sentinel_witness :
    ex_result.get "abc".toList = Options.new ∧
      (ex_result.get "abc".toList).getKey = ['_', '_', 'n', 'u', 'l', 'l', '_', '_'] ∧
      (ex_result.get "abc".toList).getData = ['_', '_', 'n', 'u', 'l', 'l', '_', '_'] ∧
      (ex_result.get "abc".toList).getParsed = false ∧
      (ex_result.get "abc".toList).options = [] ∧ (ex_result.get "abc".toList).getArgc = 0 :=
  C7_result_miss_sentinel ex_result "abc".toList (by decide)

/-- C8 (first match wins on lookup). When the child `c` at index `i < argc` has
the key `k` and no child at a lower index has it, `R.get(k)` is `c`, whatever
the later children are; and a key that is a proper prefix or a proper
extension of `k` does not compare equal to `k`. -/
theorem C8_first_match_wins (R : Options) (k : CString) (i : Nat) (c : Options)
    (hi : i < R.argc) (hc : R.options[i]? = some c) (hkey : c.key = k)
    (hfirst : ∀ j, j < i → ∀ d, R.options[j]? = some d → d.key ≠ k) :
    R.get k = c ∧
      ∀ key : CString, (key <+: k ∨ k <+: key) → key ≠ k → _compare_cstring k key = false := by
  constructor
  · unfold Options.get
    rw [getLoop_first k R.options R.argc i c hi hc hkey hfirst]
  · intro key _ hne
    rw [compare_cstring_eq]
    exact decide_eq_false (fun e => hne e.symm)

/-- C8, witness: the key `ab` in a node whose children have the keys `a`, `ab`
and `ab`; the first `ab` child (value `first`) is returned. -/
theorem C8_first_match_wins_witness :
    ex_result.get "ab".toList = ex_child1 ∧
      ∀ key : CString, (key <+: "ab".toList ∨ "ab".toList <+: key) → key ≠ "ab".toList →
        _compare_cstring "ab".toList key = false :=
  C8_first_match_wins ex_result "ab".toList 1 ex_child1 (by decide) rfl rfl
    (fun j hj d hd => by
      have h0 : j = 0 := by omega
      subst h0
      have hdd : ex_child0 = d := Option.some.inj hd
      subst hdd
      decide)

/-- C9 (token-match rule for flag kinds). For a node of kind Option, Wildcard
or Option|Wildcard, `parseArg` returns NO_ERR if and only if the token equals
`"--" + long_flag` or `"-" + short_flag`; for a node of kind Method, if and
only if the token equals `long_flag` or `short_flag`; in every other case it
returns REQ_ARG_NOT_FOUND when the node is required and NOT_FOUND when not. -/
theorem C9_token_match_rule (access : CString → Bool) (N : Argument) (t : CString) :
    ((N.arg_type = OPTION ∨ N.arg_type = WILDCARD ∨ N.arg_type = OPTION ||| WILDCARD) →
      (parseArg access N t = ERR_NO_ERR ↔
        (t = ['-', '-'] ++ N.long_flag ∨ t = ['-'] ++ N.short_flag)) ∧
      (¬ (t = ['-', '-'] ++ N.long_flag ∨ t = ['-'] ++ N.short_flag) →
        parseArg access N t = if N.required then ERR_REQ_ARG_NOT_FOUND else ERR_NOT_FOUND)) ∧
    (N.arg_type = METHOD →
      (parseArg access N t = ERR_NO_ERR ↔ (t = N.long_flag ∨ t = N.short_flag)) ∧
      (¬ (t = N.long_flag ∨ t = N.short_flag) →
        parseArg access N t = if N.required then ERR_REQ_ARG_NOT_FOUND else ERR_NOT_FOUND)) := by
  constructor
  · intro hk
    rw [parseArg_flag access N t hk]
    constructor
    · constructor
      · intro h
        by_contra hn
        rw [if_neg hn] at h
        exact parseArgFallback_ne N h
      · intro h
        rw [if_pos h]
    · intro hn
      rw [if_neg hn]
      rfl
  · intro hk
    rw [parseArg_method access N t hk]
    constructor
    · constructor
      · intro h
        by_contra hn
        rw [if_neg hn] at h
        exact parseArgFallback_ne N h
      · intro h
        rw [if_pos h]
    · intro hn
      rw [if_neg hn]
      rfl

/-- C9, witness: the demo option `testing` (Option|Wildcard, short flag `tt`)
and a Method node `run` with short flag `r`. -/
theorem C9_token_match_rule_witness :
    ((parseArg noFiles demo_h "-tt".toList = ERR_NO_ERR ↔
        ("-tt".toList = ['-', '-'] ++ demo_h.long_flag ∨
          "-tt".toList = ['-'] ++ demo_h.short_flag)) ∧
      (¬ ("-tt".toList = ['-', '-'] ++ demo_h.long_flag ∨
          "-tt".toList = ['-'] ++ demo_h.short_flag) →
        parseArg noFiles demo_h "-tt".toList =
          if demo_h.required then ERR_REQ_ARG_NOT_FOUND else ERR_NOT_FOUND)) ∧
    ((parseArg noFiles (NewArgument METHOD "r".toList "run".toList true []) "--run".toList =
          ERR_NO_ERR ↔
        ("--run".toList = (NewArgument METHOD "r".toList "run".toList true []).long_flag ∨
          "--run".toList = (NewArgument METHOD "r".toList "run".toList true []).short_flag)) ∧
      (¬ ("--run".toList = (NewArgument METHOD "r".toList "run".toList true []).long_flag ∨
          "--run".toList = (NewArgument METHOD "r".toList "run".toList true []).short_flag) →
        parseArg noFiles (NewArgument METHOD "r".toList "run".toList true []) "--run".toList =
          if (NewArgument METHOD "r".toList "run".toList true []).required then
            ERR_REQ_ARG_NOT_FOUND
          else ERR_NOT_FOUND)) :=
  ⟨(C9_token_match_rule noFiles demo_h "-tt".toList).1 (Or.inr (Or.inr rfl)),
    (C9_token_match_rule noFiles (NewArgument METHOD "r".toList "run".toList true [])
      "--run".toList).2 rfl⟩

/-- C10 (dash-prefixed tokens never satisfy a parameter). For every node of
kind Param, whatever its datatype name, its `is_custom_dtype` flag, its
callback and its `required` value, and every token whose first character is
`-`, `parseArg` returns exactly
REQ_PARAM_NOT_FOUND | INVALID_INPUT | WRONG_DATA (148); the callback and the
datatype checks have no part in the result, which is never NO_ERR. -/
theorem C10_dash_never_a_parameter (access : CString → Bool) (P : Argument)
    (t rest : CString) (hk : P.arg_type = PARAM) (ht : t = '-' :: rest) :
    parseArg access P t = ERR_REQ_PARAM_NOT_FOUND ||| ERR_INVALID_INPUT ||| ERR_WRONG_DATA ∧
      parseArg access P t = 148 ∧ parseArg access P t ≠ ERR_NO_ERR := by
  subst ht
  rw [parseArg_param_dash access P rest hk]
  decide

/-- C10, witness: the negative literal `-5` on the int parameter of the demo,
with a custom callback that accepts everything. -/
theorem C10_dash_never_a_parameter_witness :
    parseArg noFiles
        ((NewParamter "number".toList "int".toList).setDatatypeCheckCallback
          (fun _ => ERR_NO_ERR)) "-5".toList =
        ERR_REQ_PARAM_NOT_FOUND ||| ERR_INVALID_INPUT ||| ERR_WRONG_DATA ∧
      parseArg noFiles
        ((NewParamter "number".toList "int".toList).setDatatypeCheckCallback
          (fun _ => ERR_NO_ERR)) "-5".toList = 148 ∧
      parseArg noFiles
        ((NewParamter "number".toList "int".toList).setDatatypeCheckCallback
          (fun _ => ERR_NO_ERR)) "-5".toList ≠ ERR_NO_ERR :=
  C10_dash_never_a_parameter noFiles
    ((NewParamter "number".toList "int".toList).setDatatypeCheckCallback (fun _ => ERR_NO_ERR))
    "-5".toList "5".toList rfl rfl

/-! ## Lemmas on the datatype checks -/

theorem isDigitOf_ten (c : Char) : isDigitOf 10 c = c.isDigit := by
  by_cases h : c.isDigit = true
  · rw [h]
    rcases isDigit_cases c h with h | h | h | h | h | h | h | h | h | h <;> subst h <;> decide
  · have hf : c.isDigit = false := by simpa using h
    rw [hf]
    have h1 : ¬ ('0' ≤ c ∧ c ≤ '9') := by
      intro hh
      apply h
      simp only [Char.isDigit, Bool.and_eq_true, decide_eq_true_eq]
      exact ⟨hh.1, hh.2⟩
    unfold isDigitOf digitValue
    rw [if_neg h1]
    split
    · rename_i d hd
      split at hd
      · simp only [Option.some.injEq] at hd
        subst hd
        simp
      · split at hd
        · simp only [Option.some.injEq] at hd
          subst hd
          simp
        · simp at hd
    · rfl

theorem isDigitOf_eight_of_not_digit (c : Char) (h : c.isDigit = false) :
    isDigitOf 8 c = false := by
  have h10 : isDigitOf 10 c = false := by rw [isDigitOf_ten, h]
  unfold isDigitOf at h10 ⊢
  split
  · rename_i d hd
    rw [hd] at h10
    simp only [decide_eq_false_iff_not, Nat.not_lt] at h10 ⊢
    omega
  · rfl

theorem dropWhile_digits_append (base : Nat) (t : CString) (c : Char) (rest : CString)
    (ht : ∀ x ∈ t, isDigitOf base x = true) (hc : isDigitOf base c = false) :
    (t ++ c :: rest).dropWhile (isDigitOf base) = c :: rest := by
  induction t with
  | nil => simp [List.dropWhile_cons, hc]
  | cons x t ih =>
    rw [List.cons_append, List.dropWhile_cons, if_pos (ht x (by simp))]
    exact ih (fun y hy => ht y (by simp [hy]))

theorem all_isDigitOf_ten (t : CString) (h : t.all Char.isDigit = true) :
    ∀ x ∈ t, isDigitOf 10 x = true := by
  intro x hx
  rw [isDigitOf_ten]
  exact (List.all_eq_true.mp h) x hx

/-- The text `strtol` leaves unread after a decimal numeral that is followed by
a character `c` that is no decimal digit, when the token is no hexadecimal
literal. -/
theorem strtol_end_numeral_append (n : CString) (c : Char) (rest : CString)
    (hn : isDecimalNumeral n = true) (hc : c.isDigit = false)
    (hhex : isHexPrefixed (n ++ c :: rest) = false) :
    strtol_end (n ++ c :: rest) = c :: rest := by
  have hc10 : isDigitOf 10 c = false := by rw [isDigitOf_ten, hc]
  have hc8 := isDigitOf_eight_of_not_digit c hc
  cases n with
  | nil => simp [isDecimalNumeral] at hn
  | cons c0 t =>
    simp only [isDecimalNumeral, List.isEmpty_cons, Bool.not_false, Bool.true_and,
      Bool.and_eq_true, Bool.or_eq_true, List.head?_cons, bne_iff_ne, ne_eq, Option.some.injEq,
      beq_iff_eq] at hn
    obtain ⟨hall, hzero⟩ := hn
    rcases hzero with hz | hz
    · have hd := dropWhile_digits_append 10 (c0 :: t) c rest (all_isDigitOf_ten _ hall) hc10
      simp only [List.all_cons, Bool.and_eq_true] at hall
      rcases isDigit_cases c0 hall.1 with h | h | h | h | h | h | h | h | h | h
      · exact absurd h hz
      all_goals
        subst h
        simp only [strtol_end, List.cons_append]
        exact hd
    · simp only [List.cons.injEq] at hz
      obtain ⟨h0, ht⟩ := hz
      subst h0; subst ht
      have h0 : isDigitOf 8 '0' = true := by decide
      have hs : isspace '0' = false := by decide
      cases rest with
      | nil =>
        simp [strtol_end, List.dropWhile_cons, h0, hc8, hs]
      | cons d t =>
        simp only [List.cons_append, List.nil_append, isHexPrefixed, Bool.and_eq_false_imp,
          Bool.or_eq_true, beq_iff_eq] at hhex
        by_cases hx : (c = 'x' ∨ c = 'X') ∧ isDigitOf 16 d = true
        · have := hhex hx.1
          rw [hx.2] at this
          exact absurd this (by decide)
        · simp [strtol_end, hx, List.dropWhile_cons, h0, hc8, hs]

/-- C11, counterexample. `0` is a decimal numeral without leading zero and `x`
is no decimal digit, but `strtol` with base 0 reads the token `0x1F` as a
hexadecimal literal up to its end, so an int Param accepts it with NO_ERR,
required or not. -/
theorem C11_counterexample :
    isDecimalNumeral "0".toList = true ∧ Char.isDigit 'x' = false ∧
    "0".toList ++ 'x' :: "1F".toList = "0x1F".toList ∧
    parseArg noFiles (NewParamter "number".toList "int".toList) "0x1F".toList = ERR_NO_ERR ∧
    parseArg noFiles ((NewParamter "number".toList "int".toList).setRequired true)
      "0x1F".toList = ERR_NO_ERR ∧
    ERR_NO_ERR ≠ ERR_WRONG_DATA ∧ ERR_NO_ERR ≠ ERR_WRONG_DATA ||| ERR_REQ_PARAM_NOT_FOUND := by
  decide

/-- C11, as amended (int datatype). For every Param of datatype `int` without
custom callback, `parseArg` returns NO_ERR for every decimal numeral without
leading zero `n`; and for every token made of such a numeral followed by a
character `c` that is no decimal digit (a character of a C string, so not the
terminating NUL) and by any rest, unless the token starts with `0x` or `0X`
followed by a hexadecimal digit, it returns WRONG_DATA, ORed with
REQ_PARAM_NOT_FOUND exactly when the Param is required. -/
theorem C11_int_datatype (access : CString → Bool) (P : Argument) (n : CString) (c : Char)
    (rest : CString) (hk : P.arg_type = PARAM) (hcb : P.is_custom_dtype = false)
    (hd : P.dtype_custom = ['i', 'n', 't']) (hn : isDecimalNumeral n = true)
    (hc : c.isDigit = false) (hnul : c ≠ NUL)
    (hhex : isHexPrefixed (n ++ c :: rest) = false) :
    parseArg access P n = ERR_NO_ERR ∧
      parseArg access P (n ++ c :: rest) =
        (if P.required then ERR_WRONG_DATA ||| ERR_REQ_PARAM_NOT_FOUND else ERR_WRONG_DATA) ∧
      (P.required = true → parseArg access P (n ++ c :: rest) = 144) ∧
      (P.required = false → parseArg access P (n ++ c :: rest) = 16) := by
  have hend := strtol_end_numeral_append n c rest hn hc hhex
  have hnd : (n ++ c :: rest).head? ≠ some '-' := by
    have h1 := numeral_no_dash n hn
    cases n with
    | nil => simp [isDecimalNumeral] at hn
    | cons c0 t => simpa using h1
  have key : parseArg access P (n ++ c :: rest) =
      (if P.required then ERR_WRONG_DATA ||| ERR_REQ_PARAM_NOT_FOUND else ERR_WRONG_DATA) := by
    generalize n ++ c :: rest = tok at hend hnd
    simp [parseArg, hk, PARAM, OPTION, WILDCARD, METHOD, kind_bits, compare_until_dash1,
      compare_until_dash2 _ hnd, hnd, hcb, hd, compare_cstring_eq, hend, charAt, hnul]
  refine ⟨parseArg_param_int access P n hk hcb hd hn, key, ?_, ?_⟩
  · intro hr; rw [key, hr]; decide
  · intro hr; rw [key, hr]; decide

/-- C11, witness: the tokens `42` and `42x` on the int parameter of the demo,
made required. -/
theorem C11_int_datatype_witness :
    parseArg noFiles ((NewParamter "number".toList "int".toList).setRequired true)
        "42".toList = ERR_NO_ERR ∧
      parseArg noFiles ((NewParamter "number".toList "int".toList).setRequired true)
          ("42".toList ++ 'x' :: []) =
        (if ((NewParamter "number".toList "int".toList).setRequired true).required then
          ERR_WRONG_DATA ||| ERR_REQ_PARAM_NOT_FOUND else ERR_WRONG_DATA) ∧
      (((NewParamter "number".toList "int".toList).setRequired true).required = true →
        parseArg noFiles ((NewParamter "number".toList "int".toList).setRequired true)
          ("42".toList ++ 'x' :: []) = 144) ∧
      (((NewParamter "number".toList "int".toList).setRequired true).required = false →
        parseArg noFiles ((NewParamter "number".toList "int".toList).setRequired true)
          ("42".toList ++ 'x' :: []) = 16) :=
  C11_int_datatype noFiles ((NewParamter "number".toList "int".toList).setRequired true)
    "42".toList 'x' [] rfl rfl rfl (by decide) (by decide) (by decide) (by decide)

theorem compare_until_http (t : CString) :
    _compare_cstring_until t ['h', 't', 't', 'p'] 4 = true ↔ ['h', 't', 't', 'p'] <+: t := by
  have e : ∀ (same : Bool) (a b : Char), (same && (a == b)) = true ↔ same = true ∧ a = b := by
    intro same a b; simp
  unfold _compare_cstring_until
  rw [foldl_and_range (fun i => charAt t i == charAt ['h', 't', 't', 'p'] i) 4]
  constructor
  · intro h
    have h0 := h 0 (by omega)
    have h1 := h 1 (by omega)
    have h2 := h 2 (by omega)
    have h3 := h 3 (by omega)
    match t, h0, h1, h2, h3 with
    | [], h0, _, _, _ => exact absurd h0 (by decide)
    | [_], _, h1, _, _ => exact absurd h1 (by simp [charAt]; decide)
    | [_, _], _, _, h2, _ => exact absurd h2 (by simp [charAt]; decide)
    | [_, _, _], _, _, _, h3 => exact absurd h3 (by simp [charAt]; decide)
    | a :: b :: c :: d :: rest, h0, h1, h2, h3 =>
      simp only [charAt, List.getD_cons_zero, List.getD_cons_succ, beq_iff_eq] at h0 h1 h2 h3
      subst h0; subst h1; subst h2; subst h3
      exact ⟨rest, rfl⟩
  · rintro ⟨rest, rfl⟩ i hi
    interval_cases i <;> simp [charAt]

/-- C12 (string datatype). For every Param of datatype `string` without custom
callback and every token that does not begin with `-`, in particular every
non-empty one, `parseArg` returns NO_ERR. -/
theorem C12_string_datatype (access : CString → Bool) (P : Argument) (t : CString)
    (hk : P.arg_type = PARAM) (hcb : P.is_custom_dtype = false)
    (hd : P.dtype_custom = ['s', 't', 'r', 'i', 'n', 'g'])
    (ht : t.head? ≠ some '-') :
    parseArg access P t = ERR_NO_ERR :=
  parseArg_param_string access P t hk hcb hd ht

/-- C12, witness: the token `hi` on the string parameter `theq` of the demo. -/
theorem C12_string_datatype_witness :
    parseArg noFiles (NewParamter "theq".toList "string".toList) "hi".toList = ERR_NO_ERR :=
  C12_string_datatype noFiles (NewParamter "theq".toList "string".toList) "hi".toList
    rfl rfl rfl (by decide)

/-- C13 (url datatype). For every Param of datatype `url` without custom
callback and every token `t` that does not begin with `-`, `parseArg` returns
NO_ERR when `t` starts with the four characters `http` and the integer 0
otherwise, also when `t` has fewer than four characters; 0 is not NO_ERR and
has none of the eight error bits. -/
theorem C13_url_datatype (access : CString → Bool) (P : Argument) (t : CString)
    (hk : P.arg_type = PARAM) (hcb : P.is_custom_dtype = false)
    (hd : P.dtype_custom = ['u', 'r', 'l']) (ht : t.head? ≠ some '-') :
    (['h', 't', 't', 'p'] <+: t → parseArg access P t = ERR_NO_ERR) ∧
      (¬ ['h', 't', 't', 'p'] <+: t →
        parseArg access P t = 0 ∧ parseArg access P t ≠ ERR_NO_ERR ∧
          ∀ b ∈ [ERR_NO_ERR, ERR_UNKOWN_INPUT, ERR_INVALID_INPUT, ERR_REQ_ARG_NOT_FOUND,
            ERR_WRONG_DATA, ERR_HELP_WILDCARD, ERR_NOT_FOUND, ERR_REQ_PARAM_NOT_FOUND],
            parseArg access P t &&& b = 0) ∧
      (t.length < 4 → parseArg access P t = 0) := by
  have key : parseArg access P t =
      if _compare_cstring_until t ['h', 't', 't', 'p'] 4 = true then ERR_NO_ERR else 0 := by
    simp [parseArg, hk, PARAM, OPTION, WILDCARD, METHOD, kind_bits, compare_until_dash1,
      compare_until_dash2 _ ht, ht, hcb, hd, compare_cstring_eq]
  refine ⟨?_, ?_, ?_⟩
  · intro h
    rw [key, if_pos ((compare_until_http t).mpr h)]
  · intro h
    have hn : ¬ _compare_cstring_until t ['h', 't', 't', 'p'] 4 = true :=
      fun hh => h ((compare_until_http t).mp hh)
    rw [key, if_neg hn]
    refine ⟨rfl, by decide, ?_⟩
    intro b _
    simp
  · intro hlen
    have hn : ¬ _compare_cstring_until t ['h', 't', 't', 'p'] 4 = true := by
      intro hh
      obtain ⟨rest, hr⟩ := (compare_until_http t).mp hh
      rw [← hr] at hlen
      simp at hlen
      omega
    rw [key, if_neg hn]

/-- C13, witness: the tokens `http://a.b`, `ftp://a.b` and `htt` on a url
parameter. -/
theorem C13_url_datatype_witness :
    parseArg noFiles (NewParamter "link".toList "url".toList) "http://a.b".toList = ERR_NO_ERR ∧
    parseArg noFiles (NewParamter "link".toList "url".toList) "ftp://a.b".toList = 0 ∧
    parseArg noFiles (NewParamter "link".toList "url".toList) "htt".toList = 0 :=
  ⟨(C13_url_datatype noFiles (NewParamter "link".toList "url".toList) "http://a.b".toList
      rfl rfl rfl (by decide)).1 ⟨"://a.b".toList, rfl⟩,
    ((C13_url_datatype noFiles (NewParamter "link".toList "url".toList) "ftp://a.b".toList
      rfl rfl rfl (by decide)).2.1 (by decide)).1,
    (C13_url_datatype noFiles (NewParamter "link".toList "url".toList) "htt".toList
      rfl rfl rfl (by decide)).2.2 (by decide)⟩

/-- C14 (custom datatype delegation). For every Param on which
`setDatatypeCheckCallback(f)` has been called with a non-null `f`, whatever its
datatype name, and every token `t` that does not begin with `-`, `parseArg`
returns exactly `f(t)`. -/
theorem C14_custom_delegation (access : CString → Bool) (P : Argument) (f : CString → Nat)
    (t : CString) (hk : P.arg_type = PARAM) (ht : t.head? ≠ some '-') :
    parseArg access (P.setDatatypeCheckCallback f) t = f t := by
  simp [parseArg, Argument.setDatatypeCheckCallback, hk, PARAM, OPTION, WILDCARD, METHOD,
    kind_bits, compare_until_dash1, compare_until_dash2 _ ht, ht]

/-- C14, witness: an int parameter with a callback that returns WRONG_DATA for
every token; the numeral `42` is answered by the callback. -/
theorem C14_custom_delegation_witness :
    parseArg noFiles
        ((NewParamter "number".toList "int".toList).setDatatypeCheckCallback
          (fun _ => ERR_WRONG_DATA)) "42".toList =
      (fun _ => ERR_WRONG_DATA) "42".toList :=
  C14_custom_delegation noFiles (NewParamter "number".toList "int".toList)
    (fun _ => ERR_WRONG_DATA) "42".toList rfl (by decide)

/-- C15 (unrecognised datatype). For every Param without registered custom
callback (`is_custom_dtype` is 0) whose datatype name is none of `string`,
`int`, `file`, `url`, whatever its `dtype_check_cb` returns, and every token
that does not begin with `-`, `parseArg` returns REQ_ARG_NOT_FOUND when the
Param is required and NOT_FOUND otherwise; and no token at all makes it return
NO_ERR. -/
theorem C15_unrecognised_datatype (access : CString → Bool) (P : Argument) (t : CString)
    (hk : P.arg_type = PARAM) (hcb : P.is_custom_dtype = false)
    (h1 : P.dtype_custom ≠ ['s', 't', 'r', 'i', 'n', 'g']) (h2 : P.dtype_custom ≠ ['i', 'n', 't'])
    (h3 : P.dtype_custom ≠ ['f', 'i', 'l', 'e']) (h4 : P.dtype_custom ≠ ['u', 'r', 'l'])
    (ht : t.head? ≠ some '-') :
    parseArg access P t = (if P.required then ERR_REQ_ARG_NOT_FOUND else ERR_NOT_FOUND) ∧
      ∀ tok : CString, parseArg access P tok ≠ ERR_NO_ERR := by
  have key : ∀ tok : CString, tok.head? ≠ some '-' →
      parseArg access P tok = (if P.required then ERR_REQ_ARG_NOT_FOUND else ERR_NOT_FOUND) := by
    intro tok htok
    simp [parseArg, hk, PARAM, OPTION, WILDCARD, METHOD, kind_bits, compare_until_dash1,
      compare_until_dash2 _ htok, htok, hcb, h1, h2, h3, h4, compare_cstring_eq,
      parseArgFallback]
  refine ⟨key t ht, ?_⟩
  intro tok
  by_cases hd : tok.head? = some '-'
  · cases tok with
    | nil => simp at hd
    | cons c rest =>
      simp only [List.head?_cons, Option.some.injEq] at hd
      subst hd
      rw [parseArg_param_dash access P rest hk]
      decide
  · rw [key tok hd]
    split <;> decide

/-- C15, witness: a required parameter of the unknown datatype `float` with
its default callback, on the token `1.5`. -/
theorem C15_unrecognised_datatype_witness :
    parseArg noFiles ((NewParamter "ratio".toList "float".toList).setRequired true)
        "1.5".toList =
      (if ((NewParamter "ratio".toList "float".toList).setRequired true).required then
        ERR_REQ_ARG_NOT_FOUND else ERR_NOT_FOUND) ∧
      ∀ tok : CString,
        parseArg noFiles ((NewParamter "ratio".toList "float".toList).setRequired true) tok ≠
          ERR_NO_ERR :=
  C15_unrecognised_datatype noFiles ((NewParamter "ratio".toList "float".toList).setRequired true)
    "1.5".toList rfl rfl (by decide) (by decide) (by decide) (by decide) (by decide)

/-- C16 (kind validation at construction). For every kind bitmask `k` in
`0..31`: when `k` is Method (8), Option (1), Option|Wildcard (5), Param (2),
Wildcard (4) or Null (16), `NewArgument` returns the node built by the
constructor, of kind `k` with the given flags and required value and without
children; for every other `k` it returns the null node (kind Null, long flag
`null`, short flag `n`, not required, no children), whose kind is not `k`. -/
theorem C16_kind_validation (k : Nat) (short long help : CString) (required : Bool)
    (hk : k < 32) :
    (k ∈ [METHOD, OPTION, OPTION ||| WILDCARD, PARAM, WILDCARD, _NULL_ARG_] →
      NewArgument k short long required help = Argument.ctor k short long required help ∧
        (NewArgument k short long required help).arg_type = k ∧
        (NewArgument k short long required help).short_flag = short ∧
        (NewArgument k short long required help).long_flag = long ∧
        (NewArgument k short long required help).required = required ∧
        (NewArgument k short long required help).arguments = []) ∧
    (k ∉ [METHOD, OPTION, OPTION ||| WILDCARD, PARAM, WILDCARD, _NULL_ARG_] →
      NewArgument k short long required help = Argument.new ∧
        (NewArgument k short long required help).arg_type = _NULL_ARG_ ∧
        (NewArgument k short long required help).arg_type ≠ k ∧
        (NewArgument k short long required help).long_flag = ['n', 'u', 'l', 'l'] ∧
        (NewArgument k short long required help).short_flag = ['n'] ∧
        (NewArgument k short long required help).required = false ∧
        (NewArgument k short long required help).arguments = []) := by
  have hv : k ∈ [METHOD, OPTION, OPTION ||| WILDCARD, PARAM, WILDCARD, _NULL_ARG_] →
      _checkArgType k = true := by
    intro h
    simp only [List.mem_cons, List.mem_singleton, List.not_mem_nil, or_false] at h
    rcases h with h | h | h | h | h | h <;> subst h <;> decide
  have hi : k ∉ [METHOD, OPTION, OPTION ||| WILDCARD, PARAM, WILDCARD, _NULL_ARG_] →
      _checkArgType k = false ∧ _NULL_ARG_ ≠ k := by
    intro h
    interval_cases k <;> first | exact absurd (by decide) h | decide
  constructor
  · intro h
    have e : NewArgument k short long required help = Argument.ctor k short long required help := by
      simp [NewArgument, hv h]
    rw [e]
    exact ⟨rfl, rfl, rfl, rfl, rfl, rfl⟩
  · intro h
    have e : NewArgument k short long required help = Argument.new := by
      simp [NewArgument, (hi h).1]
    rw [e]
    exact ⟨rfl, rfl, (hi h).2, rfl, rfl, rfl, rfl⟩

/-- C16, witness: the valid kind Option|Wildcard (5) and the invalid kind
Option|Param (3). -/
theorem C16_kind_validation_witness :
    (NewArgument 5 "h".toList "help".toList true [] =
        Argument.ctor 5 "h".toList "help".toList true [] ∧
      (NewArgument 5 "h".toList "help".toList true []).arg_type = 5 ∧
      (NewArgument 5 "h".toList "help".toList true []).short_flag = "h".toList ∧
      (NewArgument 5 "h".toList "help".toList true []).long_flag = "help".toList ∧
      (NewArgument 5 "h".toList "help".toList true []).required = true ∧
      (NewArgument 5 "h".toList "help".toList true []).arguments = []) ∧
    (NewArgument 3 "h".toList "help".toList true [] = Argument.new ∧
      (NewArgument 3 "h".toList "help".toList true []).arg_type = _NULL_ARG_ ∧
      (NewArgument 3 "h".toList "help".toList true []).arg_type ≠ 3 ∧
      (NewArgument 3 "h".toList "help".toList true []).long_flag = ['n', 'u', 'l', 'l'] ∧
      (NewArgument 3 "h".toList "help".toList true []).short_flag = ['n'] ∧
      (NewArgument 3 "h".toList "help".toList true []).required = false ∧
      (NewArgument 3 "h".toList "help".toList true []).arguments = []) :=
  ⟨(C16_kind_validation 5 "h".toList "help".toList [] true (by decide)).1 (by decide),
    (C16_kind_validation 3 "h".toList "help".toList [] true (by decide)).2 (by decide)⟩

/-- C17 (arity guard). For every node `N` and every window with fewer than 2
tokens, `Argument::parse` returns NO_ERR | REQ_ARG_NOT_FOUND (9) when `N` is
required and exactly NO_ERR (1) when it is not, whatever the window holds and
whatever `access` answers, and the result node is unchanged. -/
theorem C17_arity_guard (access : CString → Bool) (N : Argument) (argv : List CString)
    (R : Options) (h : argv.length < 2) :
    Argument.parse access N argv R =
        (if N.required then ERR_NO_ERR ||| ERR_REQ_ARG_NOT_FOUND else ERR_NO_ERR, R) ∧
      (N.required = true → (Argument.parse access N argv R).1 = 9) ∧
      (N.required = false → (Argument.parse access N argv R).1 = 1) ∧
      (Argument.parse access N argv R).2 = R := by
  have key : Argument.parse access N argv R =
      (if N.required then ERR_NO_ERR ||| ERR_REQ_ARG_NOT_FOUND else ERR_NO_ERR, R) := by
    rw [parse_eq, if_pos h]
    cases N.required <;> rfl
  rw [key]
  refine ⟨rfl, ?_, ?_, rfl⟩
  · intro hr; simp only [hr]; decide
  · intro hr; simp only [hr]; decide

/-- C17, witness: the required option `--input` on the window `[prog]`. -/
theorem C17_arity_guard_witness :
    Argument.parse noFiles ex_input ["prog".toList] Options.new =
        (if ex_input.required then ERR_NO_ERR ||| ERR_REQ_ARG_NOT_FOUND else ERR_NO_ERR,
          Options.new) ∧
      (ex_input.required = true →
        (Argument.parse noFiles ex_input ["prog".toList] Options.new).1 = 9) ∧
      (ex_input.required = false →
        (Argument.parse noFiles ex_input ["prog".toList] Options.new).1 = 1) ∧
      (Argument.parse noFiles ex_input ["prog".toList] Options.new).2 = Options.new :=
  C17_arity_guard noFiles ex_input ["prog".toList] Options.new (by decide)

theorem requiredChildren_or_self (N : Argument) (g : Nat) :
    requiredChildren N g ||| g = requiredChildren N g := by
  apply Nat.eq_of_testBit_eq
  intro i
  rw [Nat.testBit_or]
  cases hb : g.testBit i
  · simp
  · rw [requiredChildren_testBit N g i hb]
    rfl

/-- C18, counterexample. An int Param on the window `[prog, -a, x]`: no token
matches, `parseArg` returns 148 for `-a` and WRONG_DATA (16) for `x`, and
`Argument::parse` returns 16: the bits REQ_PARAM_NOT_FOUND and INVALID_INPUT of
the token `-a` are lost. -/
theorem C18_counterexample :
    parseArg noFiles (NewParamter "number".toList "int".toList) "-a".toList =
      ERR_REQ_PARAM_NOT_FOUND ||| ERR_INVALID_INPUT ||| ERR_WRONG_DATA ∧
    parseArg noFiles (NewParamter "number".toList "int".toList) "x".toList = ERR_WRONG_DATA ∧
    (Argument.parse noFiles (NewParamter "number".toList "int".toList)
      ["prog".toList, "-a".toList, "x".toList] Options.new).1 = ERR_WRONG_DATA ∧
    (Argument.parse noFiles (NewParamter "number".toList "int".toList)
      ["prog".toList, "-a".toList, "x".toList] Options.new).1 &&& ERR_REQ_PARAM_NOT_FOUND = 0 ∧
    (Argument.parse noFiles (NewParamter "number".toList "int".toList)
      ["prog".toList, "-a".toList, "x".toList] Options.new).1 &&& ERR_INVALID_INPUT = 0 := by
  decide

/-- C18, as amended (the code of a window without match). For every node `N`
and every window of at least 2 tokens in which no token at the positions
`1 .. argc-1` matches `N`, the code returned by `Argument::parse` is the code
`parseArg` returned for the last token, position `argc-1`, ORed with the bits
of the loop over the required children; it has every bit of the last token's
code, the codes of the earlier tokens are overwritten, and the result node is
unchanged. -/
theorem C18_code_of_last_token (access : CString → Bool) (N : Argument) (argv : List CString)
    (R : Options) (hlen : 2 ≤ argv.length)
    (hno : ∀ j, 1 ≤ j → j < argv.length → parseArg access N (argv.getD j []) ≠ ERR_NO_ERR) :
    Argument.parse access N argv R =
        (requiredChildren N (parseArg access N (argv.getD (argv.length - 1) [])), R) ∧
      ∀ i, (parseArg access N (argv.getD (argv.length - 1) [])).testBit i = true →
        (Argument.parse access N argv R).1.testBit i = true := by
  have key : Argument.parse access N argv R =
      (requiredChildren N (parseArg access N (argv.getD (argv.length - 1) [])), R) := by
    rw [parse_nomatch access N argv R hlen hno]
    split
    · rfl
    · rw [requiredChildren_or_self]
  rw [key]
  exact ⟨rfl, fun i hi => requiredChildren_testBit N _ i hi⟩

/-- C18, witness: the int Param on the window `[prog, -a, x]`. -/
theorem C18_code_of_last_token_witness :
    Argument.parse noFiles (NewParamter "number".toList "int".toList)
        ["prog".toList, "-a".toList, "x".toList] Options.new =
      (requiredChildren (NewParamter "number".toList "int".toList)
        (parseArg noFiles (NewParamter "number".toList "int".toList)
          (["prog".toList, "-a".toList, "x".toList].getD
            (["prog".toList, "-a".toList, "x".toList].length - 1) [])), Options.new) ∧
      ∀ i, (parseArg noFiles (NewParamter "number".toList "int".toList)
          (["prog".toList, "-a".toList, "x".toList].getD
            (["prog".toList, "-a".toList, "x".toList].length - 1) [])).testBit i = true →
        (Argument.parse noFiles (NewParamter "number".toList "int".toList)
          ["prog".toList, "-a".toList, "x".toList] Options.new).1.testBit i = true :=
  C18_code_of_last_token noFiles (NewParamter "number".toList "int".toList)
    ["prog".toList, "-a".toList, "x".toList] Options.new (by decide)
    (fun j h1 h2 => by
      have h3 : j < 3 := h2
      interval_cases j <;> decide)

/-! ## The code does not depend on the result node -/

theorem parseMatched_code_indep (this : Argument)
    (children : List CString → Options → Nat → Nat × Options)
    (hch : ∀ a o1 o2 e, (children a o1 e).1 = (children a o2 e).1)
    (argv : List CString) (R1 R2 : Options) (i e g : Nat) :
    (parseMatched this children argv R1 i e g).1 = (parseMatched this children argv R2 i e g).1 := by
  unfold parseMatched
  simp only []
  split
  · split
    · rfl
    · have h := hch (copySubArgv argv.length argv i) (attachOptions this R1 i argv argv.length)
        (attachOptions this R2 i argv argv.length) e
      rw [h]
      split <;> rfl
  · rfl

theorem parseLoop_code_indep (access : CString → Bool) (this : Argument)
    (children : List CString → Options → Nat → Nat × Options)
    (hch : ∀ a o1 o2 e, (children a o1 e).1 = (children a o2 e).1)
    (argv : List CString) (R1 R2 : Options) (n i e g : Nat) :
    (parseLoop access this children argv R1 n i e g).1 =
      (parseLoop access this children argv R2 n i e g).1 := by
  induction n generalizing i e g with
  | zero =>
    rw [parseLoop_zero, parseLoop_zero]
    split <;> rfl
  | succ m ih =>
    rw [parseLoop_succ, parseLoop_succ]
    split
    · exact ih _ _ _
    · exact parseMatched_code_indep this children hch argv R1 R2 _ _ _

theorem parseChildren_code_indep (access : CString → Bool) (req : Bool) (key : CString)
    (cs : List Argument)
    (hcs : ∀ c ∈ cs, ∀ argv R1 R2,
      (Argument.parse access c argv R1).1 = (Argument.parse access c argv R2).1)
    (a : List CString) (o1 o2 : Options) (e : Nat) :
    (parseChildren access req key cs a o1 e).1 = (parseChildren access req key cs a o2 e).1 := by
  induction cs generalizing o1 o2 e with
  | nil => simp [parseChildren]
  | cons c rest ih =>
    rw [parseChildren, parseChildren]
    rw [hcs c (by simp) a (o1.get key) (o2.get key)]
    exact ih (fun d hd => hcs d (by simp [hd])) _ _ _

theorem parse_code_indep_aux (access : CString → Bool) (n : Nat) :
    ∀ N : Argument, sizeOf N ≤ n → ∀ argv R1 R2,
      (Argument.parse access N argv R1).1 = (Argument.parse access N argv R2).1 := by
  induction n with
  | zero =>
    intro N hN
    cases N
    simp at hN
  | succ m ih =>
    intro N hN argv R1 R2
    rw [parse_eq, parse_eq]
    split
    · rfl
    · apply parseLoop_code_indep
      intro a o1 o2 e
      apply parseChildren_code_indep
      intro c hc
      apply ih
      have h1 : sizeOf c < sizeOf N.arguments := List.sizeOf_lt_of_mem hc
      have h2 : sizeOf N.arguments < sizeOf N := by
        cases N
        simp
      omega

/-- The code returned by `Argument::parse` does not depend on the result node
it attaches into. -/
theorem parse_code_indep (access : CString → Bool) (N : Argument) (argv : List CString)
    (R1 R2 : Options) :
    (Argument.parse access N argv R1).1 = (Argument.parse access N argv R2).1 :=
  parse_code_indep_aux access (sizeOf N) N (Nat.le_refl _) argv R1 R2

/-! ## Lemmas on the loop over the top level arguments -/

theorem parseTopLevel_keeps_err (access : CString → Bool) (argv : List CString)
    (args : List Argument) (err : Nat) (R : Options) (i : Nat) (hi : i < 32) (h3 : i ≠ 3)
    (hbit : err.testBit i = true) :
    (parseTopLevel access argv args err R).1.testBit i = true := by
  induction args generalizing err R with
  | nil => simpa [parseTopLevel] using hbit
  | cons arg rest ih =>
    rw [parseTopLevel]
    apply ih
    have h1 : (err ||| ((Argument.parse access arg argv R).1 ||| err)).testBit i = true := by
      simp [hbit]
    split <;> split <;> simp [testBit_bnot32_8 _ i hi h3, h1, hbit]

theorem parseTopLevel_keeps_arg (access : CString → Bool) (argv : List CString)
    (args : List Argument) (err : Nat) (R : Options) (arg : Argument) (R0 : Options) (i : Nat)
    (harg : arg ∈ args) (hi : i < 32) (h3 : i ≠ 3)
    (hbit : (Argument.parse access arg argv R0).1.testBit i = true) :
    (parseTopLevel access argv args err R).1.testBit i = true := by
  induction args generalizing err R with
  | nil => simp at harg
  | cons a rest ih =>
    rw [parseTopLevel]
    rcases List.mem_cons.mp harg with h | h
    · subst h
      apply parseTopLevel_keeps_err _ _ _ _ _ i hi h3
      have hb : (Argument.parse access arg argv R).1.testBit i = true := by
        rw [parse_code_indep access arg argv R R0]; exact hbit
      have h1 : (err ||| ((Argument.parse access arg argv R).1 ||| err)).testBit i = true := by
        simp [hb]
      split <;> split <;> simp [testBit_bnot32_8 _ i hi h3, h1, hb]
    · exact ih _ _ h

/-- C19 (errors surface verbatim at the facade). For every command line, every
`argv`, every registered top level argument `arg` and every result node `R`:
each bit other than REQ_ARG_NOT_FOUND (bit 3) that is set in the code
`Argument::parse` returns for `arg` on the full `argv` is set in the code
returned by `CommandLine::parse`, for the seven other named error bits and for
every bit position below 32. -/
theorem C19_errors_surface (access : CString → Bool) (cl : CommandLine) (argv : List CString)
    (arg : Argument) (R : Options) (harg : arg ∈ cl.args.root.getArguments) :
    (∀ b ∈ [ERR_NO_ERR, ERR_UNKOWN_INPUT, ERR_INVALID_INPUT, ERR_WRONG_DATA, ERR_HELP_WILDCARD,
        ERR_NOT_FOUND, ERR_REQ_PARAM_NOT_FOUND],
      (Argument.parse access arg argv R).1 &&& b = b → (cl.parse access argv).1 &&& b = b) ∧
    (∀ i, i < 32 → i ≠ 3 → (Argument.parse access arg argv R).1 &&& 2 ^ i = 2 ^ i →
      (cl.parse access argv).1 &&& 2 ^ i = 2 ^ i) := by
  have key : ∀ i, i < 32 → i ≠ 3 → (Argument.parse access arg argv R).1 &&& 2 ^ i = 2 ^ i →
      (cl.parse access argv).1 &&& 2 ^ i = 2 ^ i := by
    intro i hi h3 hbit
    rw [and_two_pow_eq] at hbit ⊢
    have h1 := parseTopLevel_keeps_arg access argv cl.args.root.getArguments 0
      cl.build_options_tree arg R i harg hi h3 hbit
    simp only [CommandLine.parse]
    split
    · rw [Nat.testBit_or, h1]; rfl
    · exact h1
  refine ⟨?_, key⟩
  intro b hb
  simp only [List.mem_cons, List.mem_singleton, List.not_mem_nil, or_false] at hb
  rcases hb with h | h | h | h | h | h | h <;> subst h
  · exact key 0 (by omega) (by omega)
  · exact key 1 (by omega) (by omega)
  · exact key 2 (by omega) (by omega)
  · exact key 4 (by omega) (by omega)
  · exact key 5 (by omega) (by omega)
  · exact key 6 (by omega) (by omega)
  · exact key 7 (by omega) (by omega)

/-- C19, witness: `--input` and `--verbose` registered, on
`[prog, --input, --verbose]`; the WRONG_DATA bit of the code of `--input`,
whose value is a dash token, is in the code of the facade. -/
theorem C19_errors_surface_witness :
    (Argument.parse noFiles ex_input ["prog".toList, "--input".toList, "--verbose".toList]
        Options.new).1 &&& ERR_WRONG_DATA = ERR_WRONG_DATA ∧
    (((CommandLine.new.addArgument ex_input).addArgument ex_verbose).parse noFiles
        ["prog".toList, "--input".toList, "--verbose".toList]).1 &&& ERR_WRONG_DATA =
      ERR_WRONG_DATA :=
  ⟨by decide,
    (C19_errors_surface noFiles ((CommandLine.new.addArgument ex_input).addArgument ex_verbose)
      ["prog".toList, "--input".toList, "--verbose".toList] ex_input Options.new
      (List.Mem.head _)).1 ERR_WRONG_DATA (by decide) (by decide)⟩

/-! ## Lemmas on the key of the result node and on the help scan -/

theorem parseChildren_key (access : CString → Bool) (req : Bool) (key : CString)
    (cs : List Argument) (a : List CString) (o : Options) (e : Nat) :
    (parseChildren access req key cs a o e).2.key = o.key := by
  induction cs generalizing o e with
  | nil => simp [parseChildren]
  | cons c rest ih =>
    rw [parseChildren, ih]
    rfl

theorem parseMatched_key (this : Argument)
    (children : List CString → Options → Nat → Nat × Options)
    (hch : ∀ a o e, (children a o e).2.key = o.key)
    (argv : List CString) (R : Options) (i e g : Nat) :
    (parseMatched this children argv R i e g).2.key = R.key := by
  unfold parseMatched
  simp only []
  split
  · split
    · rfl
    · have h := hch (copySubArgv argv.length argv i) (attachOptions this R i argv argv.length) e
      split <;> (rw [h]; rfl)
  · rfl

theorem parseLoop_key (access : CString → Bool) (this : Argument)
    (children : List CString → Options → Nat → Nat × Options)
    (hch : ∀ a o e, (children a o e).2.key = o.key)
    (argv : List CString) (R : Options) (n i e g : Nat) :
    (parseLoop access this children argv R n i e g).2.key = R.key := by
  induction n generalizing i e g with
  | zero =>
    rw [parseLoop_zero]
    split <;> rfl
  | succ m ih =>
    rw [parseLoop_succ]
    split
    · exact ih _ _ _
    · exact parseMatched_key this children hch argv R _ _ _

/-- `Argument::parse` leaves the key of the result node it attaches into. -/
theorem parse_key (access : CString → Bool) (N : Argument) (argv : List CString)
    (R : Options) : (Argument.parse access N argv R).2.key = R.key := by
  rw [parse_eq]
  split
  · rfl
  · exact parseLoop_key access N _ (fun a o e => parseChildren_key access _ _ _ a o e) argv R _ _ _ _

theorem parseTopLevel_key (access : CString → Bool) (argv : List CString)
    (args : List Argument) (err : Nat) (R : Options) :
    (parseTopLevel access argv args err R).2.key = R.key := by
  induction args generalizing err R with
  | nil => simp [parseTopLevel]
  | cons arg rest ih =>
    rw [parseTopLevel, ih, parse_key]

theorem scanStep_foldl_snd_indep (argv : List CString) (s1 s2 : Nat × Nat) (h : s1.2 = s2.2) :
    (argv.foldl scanStep s1).2 = (argv.foldl scanStep s2).2 := by
  induction argv generalizing s1 s2 with
  | nil => exact h
  | cons tok rest ih =>
    rw [List.foldl_cons, List.foldl_cons]
    apply ih
    simp [scanStep, h]

/-- The root of the argument tree keeps its long flag `root` under
`CommandLine::addArgument`. -/
theorem root_long_flag_addArgument (cl : CommandLine) (arg : Argument) :
    (cl.addArgument arg).args.root.long_flag = cl.args.root.long_flag ∧
      CommandLine.new.args.root.long_flag = ['r', 'o', 'o', 't'] :=
  ⟨rfl, rfl⟩

/-- C20 (re-parse builds a fresh result). `CommandLine::parse` leaves the
argument tree as it is; a second call with the same `argv` (the same callbacks
and the same answers of `access`) returns the same code and the same result
tree as the first; that tree is the one the top level loop builds from the
fresh root, which has no children, and its root has the key `root` for a
command line whose argument tree root has the long flag `root`, as built by
the constructor and `addArgument`. -/
theorem C20_reparse_fresh (access : CString → Bool) (cl : CommandLine) (argv : List CString)
    (hroot : cl.args.root.long_flag = ['r', 'o', 'o', 't']) :
    (cl.parse access argv).2.args = cl.args ∧
      ((cl.parse access argv).2.parse access argv).1 = (cl.parse access argv).1 ∧
      ((cl.parse access argv).2.parse access argv).2.parsedArgs =
        (cl.parse access argv).2.parsedArgs ∧
      ((cl.parse access argv).2.parse access argv).2.parsedArgs =
        some (parseTopLevel access argv cl.args.root.getArguments 0
          (cl.parse access argv).2.build_options_tree).2 ∧
      (cl.parse access argv).2.build_options_tree.options = [] ∧
      (cl.parse access argv).2.build_options_tree.getArgc = 0 ∧
      ∃ t, ((cl.parse access argv).2.parse access argv).2.parsedArgs = some t ∧
        t.getKey = ['r', 'o', 'o', 't'] := by
  have hargs : (cl.parse access argv).2.args = cl.args := rfl
  have hbuild : (cl.parse access argv).2.build_options_tree = cl.build_options_tree := rfl
  have hhelp : (scanSwitches (cl.parse access argv).2.verbosity argv).2 =
      (scanSwitches cl.verbosity argv).2 := by
    unfold scanSwitches
    exact scanStep_foldl_snd_indep argv _ _ rfl
  have hcode : ((cl.parse access argv).2.parse access argv).1 = (cl.parse access argv).1 := by
    conv => lhs; rw [CommandLine.parse]
    conv => rhs; rw [CommandLine.parse]
    simp only [hargs, hbuild, hhelp]
  have htree : ((cl.parse access argv).2.parse access argv).2.parsedArgs =
      some (parseTopLevel access argv cl.args.root.getArguments 0
        (cl.parse access argv).2.build_options_tree).2 := rfl
  refine ⟨rfl, hcode, ?_, htree, rfl, rfl, _, htree, ?_⟩
  · rw [htree, hbuild]
    rfl
  · rw [Options.getKey, parseTopLevel_key, hbuild]
    exact hroot

/-- C20, witness: the demo command line parsed twice on
`[prog, --reference, 5]`. -/
theorem C20_reparse_fresh_witness :
    (myCommandLine.parse noFiles ["prog".toList, "--reference".toList, "5".toList]).2.args =
        myCommandLine.args ∧
      ((myCommandLine.parse noFiles ["prog".toList, "--reference".toList, "5".toList]).2.parse
          noFiles ["prog".toList, "--reference".toList, "5".toList]).1 =
        (myCommandLine.parse noFiles ["prog".toList, "--reference".toList, "5".toList]).1 ∧
      ((myCommandLine.parse noFiles ["prog".toList, "--reference".toList, "5".toList]).2.parse
          noFiles ["prog".toList, "--reference".toList, "5".toList]).2.parsedArgs =
        (myCommandLine.parse noFiles
          ["prog".toList, "--reference".toList, "5".toList]).2.parsedArgs ∧
      ((myCommandLine.parse noFiles ["prog".toList, "--reference".toList, "5".toList]).2.parse
          noFiles ["prog".toList, "--reference".toList, "5".toList]).2.parsedArgs =
        some (parseTopLevel noFiles ["prog".toList, "--reference".toList, "5".toList]
          myCommandLine.args.root.getArguments 0
          (myCommandLine.parse noFiles
            ["prog".toList, "--reference".toList, "5".toList]).2.build_options_tree).2 ∧
      (myCommandLine.parse noFiles
        ["prog".toList, "--reference".toList, "5".toList]).2.build_options_tree.options = [] ∧
      (myCommandLine.parse noFiles
        ["prog".toList, "--reference".toList, "5".toList]).2.build_options_tree.getArgc = 0 ∧
      ∃ t, ((myCommandLine.parse noFiles
            ["prog".toList, "--reference".toList, "5".toList]).2.parse
          noFiles ["prog".toList, "--reference".toList, "5".toList]).2.parsedArgs = some t ∧
        t.getKey = ['r', 'o', 'o', 't'] :=
  C20_reparse_fresh noFiles myCommandLine ["prog".toList, "--reference".toList, "5".toList] rfl

/-- C22 (error description lookup). For every code, `ErrParse` returns the
description the spec words: the message of the first set bit in the order
INVALID_INPUT, REQ_ARG_NOT_FOUND, WRONG_DATA, REQ_PARAM_NOT_FOUND, with the
marker `<Help - Wildhard>` in front exactly when HELP_WILDCARD is set too, and
the fallback when none of the four bits is set. `ErrParse(NO_ERR)` is the
fallback, and neither `No Error.` message is returned for any code. -/
theorem C22_error_description (code : Nat) :
    ErrParse code = describeError code ∧
      ErrParse ERR_NO_ERR = errFallback ∧
      ErrParse code ≠ "No Error.\n" ∧
      ErrParse code ≠ "<Help - Wildhard> No Error.\n" := by
  have h0 : ∀ x : Nat, x &&& (if (254 : Nat) = 0 then 1 else 0) = 0 := by
    intro x; simp
  by_cases hh : code &&& ERR_HELP_WILDCARD ≠ 0 <;>
    by_cases h4 : code &&& ERR_INVALID_INPUT ≠ 0 <;>
    by_cases h8 : code &&& ERR_REQ_ARG_NOT_FOUND ≠ 0 <;>
    by_cases h16 : code &&& ERR_WRONG_DATA ≠ 0 <;>
    by_cases h128 : code &&& ERR_REQ_PARAM_NOT_FOUND ≠ 0 <;>
    simp only [ErrParse, ErrParsePlain, describeError, errMessages, List.find?, h0, hh, h4, h8,
      h16, h128, ne_eq, not_true_eq_false, not_false_eq_true, if_true, if_false,
      decide_True, decide_False, decide_not, Bool.not_true, Bool.not_false] <;>
    decide

/-- C23, evaluated at the failing input. The wildcard `--version` and the
required option `--format` are registered in this order; the token `--version`
of `[prog, --version]` matches the wildcard and no token matches `--format`:
`CommandLine::parse` returns NO_ERR | REQ_ARG_NOT_FOUND (9), so the absent
required argument is reported although a wildcard was matched. -/
theorem C23_wildcard_does_not_short_circuit :
    ex_version.arg_type = WILDCARD ∧
    parseArg noFiles ex_version "--version".toList = ERR_NO_ERR ∧
    (∀ tok ∈ ["prog".toList, "--version".toList], parseArg noFiles ex_format tok ≠ ERR_NO_ERR) ∧
    (((CommandLine.new.addArgument ex_version).addArgument ex_format).parse noFiles
      ["prog".toList, "--version".toList]).1 = ERR_NO_ERR ||| ERR_REQ_ARG_NOT_FOUND ∧
    (((CommandLine.new.addArgument ex_version).addArgument ex_format).parse noFiles
      ["prog".toList, "--version".toList]).1 &&& ERR_REQ_ARG_NOT_FOUND =
        ERR_REQ_ARG_NOT_FOUND := by
  decide

/-! ## Lemmas on the sub-window -/

/-- The window `copySubArgv` builds: `argv[0]` followed by the tokens after
position `i`. -/
theorem copySubArgv_eq (argv : List CString) (i : Nat) (hi : i < argv.length) :
    copySubArgv argv.length argv i = argv.getD 0 [] :: argv.drop (i + 1) := by
  unfold copySubArgv
  apply List.ext_getElem
  · simp
    omega
  · intro k h1 h2
    simp only [List.getElem_map, List.getElem_range]
    cases k with
    | zero => simp
    | succ m =>
      simp only [Nat.add_one_ne_zero, if_false, List.getElem_cons_succ, List.getElem_drop]
      have hlt : m + 1 + i < argv.length := by
        simp at h1
        omega
      rw [List.getD_eq_getElem _ _ hlt]
      congr 1
      omega

theorem copySubArgv_length (argv : List CString) (i : Nat) :
    (copySubArgv argv.length argv i).length = argv.length - i := by
  simp [copySubArgv]

theorem parseMatched_congr (this : Argument)
    (ch1 ch2 : List CString → Options → Nat → Nat × Options)
    (argv : List CString) (R : Options) (i e g : Nat) (hi : 1 ≤ i)
    (hch : ∀ j, 1 ≤ j → j + 2 ≤ argv.length → ∀ o x,
      ch1 (copySubArgv argv.length argv j) o x = ch2 (copySubArgv argv.length argv j) o x) :
    parseMatched this ch1 argv R i e g = parseMatched this ch2 argv R i e g := by
  unfold parseMatched
  simp only []
  split
  · rename_i h
    rw [hch i hi (by omega)]
  · rfl

theorem parseLoop_congr (access : CString → Bool) (this : Argument)
    (ch1 ch2 : List CString → Options → Nat → Nat × Options)
    (argv : List CString) (R : Options) (n i e g : Nat) (hi : 1 ≤ i)
    (hch : ∀ j, 1 ≤ j → j + 2 ≤ argv.length → ∀ o x,
      ch1 (copySubArgv argv.length argv j) o x = ch2 (copySubArgv argv.length argv j) o x) :
    parseLoop access this ch1 argv R n i e g = parseLoop access this ch2 argv R n i e g := by
  induction n generalizing i e g with
  | zero => rw [parseLoop_zero, parseLoop_zero]
  | succ m ih =>
    rw [parseLoop_succ, parseLoop_succ]
    split
    · exact ih _ _ _ (by omega)
    · exact parseMatched_congr this ch1 ch2 argv R i _ _ hi hch

theorem sizeOf_child_lt (N c : Argument) (hc : c ∈ N.arguments) : sizeOf c < sizeOf N := by
  have h1 : sizeOf c < sizeOf N.arguments := List.sizeOf_lt_of_mem hc
  have h2 : sizeOf N.arguments < sizeOf N := by
    cases N
    simp
  omega

/-- C21 (termination). `Argument.parse` is a total function: it recurses on
the children of the node, each smaller than the node, and its token loop runs
`argc - 1` times at most. A recursive call is made on the window
`copySubArgv(argc, argv, i)` only for a matched position `i` with
`1 ≤ i ≤ argc - 2`: replacing the loop over the children by any function that
agrees with it on these windows leaves the result unchanged. Such a window is
`argv[0]` followed by the tokens after position `i`, has `argc - i` tokens, at
least 2 and fewer than `argc`. -/
theorem C21_termination (access : CString → Bool) (N : Argument) (argv : List CString)
    (R : Options) :
    (∃ r, Argument.parse access N argv R = r) ∧
      (∀ c ∈ N.arguments, sizeOf c < sizeOf N) ∧
      (∀ i, 1 ≤ i → i + 2 ≤ argv.length →
        copySubArgv argv.length argv i = argv.getD 0 [] :: argv.drop (i + 1) ∧
          (copySubArgv argv.length argv i).length = argv.length - i ∧
          2 ≤ (copySubArgv argv.length argv i).length ∧
          (copySubArgv argv.length argv i).length < argv.length) ∧
      (∀ ch : List CString → Options → Nat → Nat × Options,
        (∀ i, 1 ≤ i → i + 2 ≤ argv.length → ∀ o e,
          ch (copySubArgv argv.length argv i) o e =
            parseChildren access N.required N.long_flag N.arguments
              (copySubArgv argv.length argv i) o e) →
        2 ≤ argv.length →
        Argument.parse access N argv R =
          parseLoop access N ch argv R (argv.length - 1) 1 0 1) := by
  refine ⟨⟨_, rfl⟩, fun c hc => sizeOf_child_lt N c hc, ?_, ?_⟩
  · intro i h1 h2
    rw [copySubArgv_length]
    exact ⟨copySubArgv_eq argv i (by omega), rfl, by omega, by omega⟩
  · intro ch hch hlen
    rw [parse_eq, if_neg (by omega)]
    exact parseLoop_congr access N _ ch argv R _ 1 0 1 (Nat.le_refl 1)
      (fun j h1 h2 o x => (hch j h1 h2 o x).symm)

/-- C21, witness: the demo option `--reference` on
`[prog, --reference, 5, --question, hi]`; the match is at position 1 and the
children are parsed on `[prog, 5, --question, hi]`. -/
theorem C21_termination_witness :
    copySubArgv
        ["prog".toList, "--reference".toList, "5".toList, "--question".toList, "hi".toList].length
        ["prog".toList, "--reference".toList, "5".toList, "--question".toList, "hi".toList] 1 =
        ["prog".toList, "--reference".toList, "5".toList, "--question".toList, "hi".toList].getD
            0 [] ::
          ["prog".toList, "--reference".toList, "5".toList, "--question".toList,
            "hi".toList].drop (1 + 1) ∧
      (copySubArgv
        ["prog".toList, "--reference".toList, "5".toList, "--question".toList, "hi".toList].length
        ["prog".toList, "--reference".toList, "5".toList, "--question".toList, "hi".toList]
          1).length =
        ["prog".toList, "--reference".toList, "5".toList, "--question".toList,
          "hi".toList].length - 1 ∧
      2 ≤ (copySubArgv
        ["prog".toList, "--reference".toList, "5".toList, "--question".toList, "hi".toList].length
        ["prog".toList, "--reference".toList, "5".toList, "--question".toList, "hi".toList]
          1).length ∧
      (copySubArgv
        ["prog".toList, "--reference".toList, "5".toList, "--question".toList, "hi".toList].length
        ["prog".toList, "--reference".toList, "5".toList, "--question".toList, "hi".toList]
          1).length <
        ["prog".toList, "--reference".toList, "5".toList, "--question".toList,
          "hi".toList].length :=
  (C21_termination noFiles demo_mynextArg
    ["prog".toList, "--reference".toList, "5".toList, "--question".toList, "hi".toList]
    Options.new).2.2.1 1 (by decide) (by decide)

/-! ## Lemmas on a matched token -/

theorem one_or_of_testBit_zero (y : Nat) (h : y.testBit 0 = true) : 1 ||| y = y := by
  apply Nat.eq_of_testBit_eq
  intro i
  rw [Nat.testBit_or]
  cases i with
  | zero => simp [h]
  | succ n => simp [Nat.testBit_succ]

theorem parseArg_unmatched (access : CString → Bool) (N : Argument) (t : CString)
    (hk : N.arg_type = OPTION ∨ N.arg_type = WILDCARD ∨ N.arg_type = OPTION ||| WILDCARD ∨
      N.arg_type = METHOD)
    (h : parseArg access N t ≠ ERR_NO_ERR) : parseArg access N t = parseArgFallback N := by
  rcases hk with h1 | h1 | h1 | h1
  · rw [parseArg_flag access N t (Or.inl h1)] at h ⊢
    split
    · rename_i hm
      rw [if_pos hm] at h
      exact absurd rfl h
    · rfl
  · rw [parseArg_flag access N t (Or.inr (Or.inl h1))] at h ⊢
    split
    · rename_i hm
      rw [if_pos hm] at h
      exact absurd rfl h
    · rfl
  · rw [parseArg_flag access N t (Or.inr (Or.inr h1))] at h ⊢
    split
    · rename_i hm
      rw [if_pos hm] at h
      exact absurd rfl h
    · rfl
  · rw [parseArg_method access N t h1] at h ⊢
    split
    · rename_i hm
      rw [if_pos hm] at h
      exact absurd rfl h
    · rfl

/-- The first matching token is before the last one: the node is attached
and the loop over the children runs on the sub-window. -/
theorem parse_match_inner (access : CString → Bool) (N : Argument) (argv : List CString)
    (R : Options) (k : Nat) (hk1 : 1 ≤ k) (hk2 : k + 1 < argv.length)
    (h : ∀ j, 1 ≤ j → j < k → parseArg access N (argv.getD j []) ≠ ERR_NO_ERR)
    (hk : parseArg access N (argv.getD k []) = ERR_NO_ERR) :
    Argument.parse access N argv R =
      (ERR_NO_ERR ||| (parseChildren access N.required N.long_flag N.arguments
          (copySubArgv argv.length argv k) (attachOptions N R k argv argv.length) ERR_NO_ERR).1,
        (parseChildren access N.required N.long_flag N.arguments
          (copySubArgv argv.length argv k) (attachOptions N R k argv argv.length) ERR_NO_ERR).2) := by
  rw [parse_match access N argv R k hk1 (by omega) h hk]
  unfold parseMatched
  have h1 : k < argv.length - 1 ∧ ERR_NO_ERR &&& ERR_NO_ERR ≠ 0 := ⟨by omega, by decide⟩
  dsimp only
  rw [if_pos h1]
  by_cases hc : N.arguments.length = 0
  · have hnil : N.arguments = [] := List.length_eq_zero.mp hc
    rw [if_pos hc, hnil, parseChildren]
    have e1 : ERR_NO_ERR ||| ERR_NO_ERR = ERR_NO_ERR := by decide
    simp only [e1]
  · rw [if_neg hc]
    generalize parseChildren access N.required N.long_flag N.arguments
      (copySubArgv argv.length argv k) (attachOptions N R k argv argv.length) ERR_NO_ERR = r
    obtain ⟨e, o⟩ := r
    by_cases he : e = ERR_NO_ERR
    · simp [he, ERR_NO_ERR]
    · simp [he]

/-- The first matching token is the last one: the node is attached and the
bits of the required children are ORed into NO_ERR. -/
theorem parse_match_last (access : CString → Bool) (N : Argument) (argv : List CString)
    (R : Options) (hlen : 2 ≤ argv.length)
    (h : ∀ j, 1 ≤ j → j < argv.length - 1 → parseArg access N (argv.getD j []) ≠ ERR_NO_ERR)
    (hk : parseArg access N (argv.getD (argv.length - 1) []) = ERR_NO_ERR) :
    Argument.parse access N argv R =
      (requiredChildren N ERR_NO_ERR,
        attachOptions N R (argv.length - 1) argv argv.length) := by
  rw [parse_match access N argv R (argv.length - 1) (by omega) (by omega) h hk]
  unfold parseMatched
  have h1 : ¬ (argv.length - 1 < argv.length - 1 ∧ ERR_NO_ERR &&& ERR_NO_ERR ≠ 0) :=
    fun hh => absurd hh.1 (by omega)
  dsimp only
  rw [if_neg h1]

theorem foldl_or_left (cs : List Argument) (f : Argument → Nat) (g e : Nat) :
    g ||| cs.foldl (fun e c => e ||| f c) e = cs.foldl (fun e c => e ||| f c) (g ||| e) := by
  induction cs generalizing e with
  | nil => rfl
  | cons c rest ih =>
    rw [List.foldl_cons, List.foldl_cons, ih, Nat.lor_assoc]

/-- The loop over the children of a required node ORs the codes of the
children into `e`; nothing is cleared. -/
theorem parseChildren_required (access : CString → Bool) (key : CString)
    (cs : List Argument) (a : List CString) (o : Options) (e : Nat)
    (node : Argument → Options) :
    (parseChildren access true key cs a o e).1 =
      cs.foldl (fun e c => e ||| (Argument.parse access c a (node c)).1) e := by
  induction cs generalizing o e with
  | nil => simp [parseChildren]
  | cons c rest ih =>
    rw [parseChildren, List.foldl_cons, parse_code_indep access c a (o.get key) (node c)]
    simp only [Bool.not_true, Bool.false_eq_true, false_and, and_false, if_false]
    exact ih _ _

/-- The loop over the children of an optional node, all of them required,
leaves REQ_ARG_NOT_FOUND clear. -/
theorem parseChildren_optional (access : CString → Bool) (key : CString)
    (cs : List Argument) (hcs : ∀ c ∈ cs, c.required = true)
    (a : List CString) (o : Options) (e : Nat) (he : e.testBit 3 = false) :
    (parseChildren access false key cs a o e).1.testBit 3 = false := by
  induction cs generalizing o e with
  | nil => simpa [parseChildren] using he
  | cons c rest ih =>
    rw [parseChildren]
    apply ih (fun d hd => hcs d (by simp [hd]))
    have hc : c.required = true := hcs c (by simp)
    simp only [hc, Bool.not_false, and_self, and_true]
    split
    · exact testBit_bnot32_8_three _
    · rename_i hz
      have hz2 : (e ||| (Argument.parse access c a (o.get key)).1) &&& 2 ^ 3 = 0 := by
        have := not_not.mp hz
        exact this
      exact (and_two_pow_eq_zero _ 3).mp hz2

/-! ## Lemmas on the nodes of the result tree -/

theorem get_of_getLoop (R : Options) (key : CString) (o : Options)
    (h : Options.getLoop key R.options R.argc = some o) : R.get key = o := by
  unfold Options.get
  rw [h]

theorem putLoop_map_header (key : CString) (node : Options) (opts : List Options) (n : Nat)
    (h : ∀ o, Options.getLoop key opts n = some o → node.header = o.header) :
    (Options.putLoop key node opts n).map Options.header = opts.map Options.header := by
  induction opts generalizing n with
  | nil => simp [Options.putLoop]
  | cons o os ih =>
    cases n with
    | zero => simp [Options.putLoop]
    | succ m =>
      rw [Options.putLoop]
      by_cases hc : _compare_cstring key o.key = true
      · rw [if_pos hc]
        have h1 := h o (by simp [Options.getLoop, hc])
        simp [h1]
      · rw [if_neg hc]
        have h2 : ∀ o2, Options.getLoop key os m = some o2 → node.header = o2.header := by
          intro o2 ho2
          apply h
          simp [Options.getLoop, hc, ho2]
        simp [ih m h2]

theorem parseChildren_header (access : CString → Bool) (req : Bool) (key : CString)
    (cs : List Argument) (a : List CString) (o : Options) (e : Nat) :
    (parseChildren access req key cs a o e).2.header = o.header := by
  induction cs generalizing o e with
  | nil => simp [parseChildren]
  | cons c rest ih =>
    rw [parseChildren, ih]
    rfl

theorem parseMatched_header (this : Argument)
    (children : List CString → Options → Nat → Nat × Options)
    (hch : ∀ a o e, (children a o e).2.header = o.header)
    (argv : List CString) (R : Options) (i e g : Nat) :
    (parseMatched this children argv R i e g).2.header = R.header := by
  unfold parseMatched
  simp only []
  split
  · split
    · rfl
    · have h := hch (copySubArgv argv.length argv i) (attachOptions this R i argv argv.length) e
      split <;> (rw [h]; rfl)
  · rfl

theorem parseLoop_header (access : CString → Bool) (this : Argument)
    (children : List CString → Options → Nat → Nat × Options)
    (hch : ∀ a o e, (children a o e).2.header = o.header)
    (argv : List CString) (R : Options) (n i e g : Nat) :
    (parseLoop access this children argv R n i e g).2.header = R.header := by
  induction n generalizing i e g with
  | zero =>
    rw [parseLoop_zero]
    split <;> rfl
  | succ m ih =>
    rw [parseLoop_succ]
    split
    · exact ih _ _ _
    · exact parseMatched_header this children hch argv R _ _ _

/-- `Argument::parse` leaves kind, key, value and parsed flag of the result
node it attaches into. -/
theorem parse_header (access : CString → Bool) (N : Argument) (argv : List CString)
    (R : Options) : (Argument.parse access N argv R).2.header = R.header := by
  rw [parse_eq]
  split
  · rfl
  · exact parseLoop_header access N _ (fun a o e => parseChildren_header access _ _ _ a o e)
      argv R _ _ _ _

/-- The loop over the children writes below the children of `o` only: the
child count of `o` and kind, key, value and parsed flag of each of its children
are left. -/
theorem parseChildren_frame (access : CString → Bool) (req : Bool) (key : CString)
    (cs : List Argument) (a : List CString) (o : Options) (e : Nat) :
    (parseChildren access req key cs a o e).2.argc = o.argc ∧
      (parseChildren access req key cs a o e).2.options.map Options.header =
        o.options.map Options.header := by
  induction cs generalizing o e with
  | nil => simp [parseChildren]
  | cons c rest ih =>
    rw [parseChildren]
    obtain ⟨h1, h2⟩ := ih (o.put key (Argument.parse access c a (o.get key)).2)
      (if (e ||| (Argument.parse access c a (o.get key)).1) &&& ERR_REQ_ARG_NOT_FOUND ≠ 0 ∧
          ((!req) = true ∧ c.required = true) then
        (e ||| (Argument.parse access c a (o.get key)).1) &&& bnot32 ERR_REQ_ARG_NOT_FOUND
      else e ||| (Argument.parse access c a (o.get key)).1)
    refine ⟨h1.trans rfl, h2.trans ?_⟩
    unfold Options.put
    apply putLoop_map_header
    intro o2 ho2
    rw [parse_header, get_of_getLoop o key o2 ho2]

/-- C25 (single attachment at the first match). When the first token at the
positions `1 .. argc-1` that matches `N` is token `k`, `Argument::parse`
leaves the result node `R` with one more child, appended after the existing
ones, of key `N.long_flag`, kind `N.arg_type`, value `argv[k]` and
`parsed = true`; the child count of `R` grows by one, and kind, key, value and
parsed flag of `R` and of its earlier children are unchanged. When no token
matches, `R` is returned unchanged. -/
theorem C25_single_attachment (access : CString → Bool) (N : Argument) (argv : List CString)
    (R : Options) :
    (∀ k, 1 ≤ k → k < argv.length →
        (∀ j, 1 ≤ j → j < k → parseArg access N (argv.getD j []) ≠ ERR_NO_ERR) →
        parseArg access N (argv.getD k []) = ERR_NO_ERR →
        (Argument.parse access N argv R).2.options.map Options.header =
            R.options.map Options.header ++
              [(N.arg_type, N.long_flag, argv.getD k [], [], true)] ∧
          (Argument.parse access N argv R).2.options.length = R.options.length + 1 ∧
          (Argument.parse access N argv R).2.argc = R.argc + 1 ∧
          (Argument.parse access N argv R).2.header = R.header) ∧
      ((∀ j, 1 ≤ j → j < argv.length → parseArg access N (argv.getD j []) ≠ ERR_NO_ERR) →
        (Argument.parse access N argv R).2 = R) := by
  constructor
  · intro k hk1 hk2 hfirst hmatch
    have hmap : (Argument.parse access N argv R).2.options.map Options.header =
        R.options.map Options.header ++
          [(N.arg_type, N.long_flag, argv.getD k [], [], true)] ∧
        (Argument.parse access N argv R).2.argc = R.argc + 1 := by
      by_cases hlast : k + 1 < argv.length
      · rw [parse_match_inner access N argv R k hk1 hlast hfirst hmatch]
        obtain ⟨h1, h2⟩ := parseChildren_frame access N.required N.long_flag N.arguments
          (copySubArgv argv.length argv k) (attachOptions N R k argv argv.length) ERR_NO_ERR
        refine ⟨h2.trans ?_, h1.trans ?_⟩
        · rw [attachOptions_eq]
          simp [Options.header]
        · rw [attachOptions_eq]
      · have hk : k = argv.length - 1 := by omega
        subst hk
        rw [parse_match_last access N argv R (by omega) hfirst hmatch, attachOptions_eq]
        simp [Options.header]
    refine ⟨hmap.1, ?_, hmap.2, parse_header access N argv R⟩
    have hl := congrArg List.length hmap.1
    simpa using hl
  · intro hno
    by_cases hlen : argv.length < 2
    · rw [parse_eq, if_pos hlen]
    · rw [parse_nomatch access N argv R (by omega) hno]
      split <;> rfl

/-- C25, witness: the demo option `--reference` on `[prog, x, --reference, 5]`,
first matched by token 2. -/
theorem C25_single_attachment_witness :
    (Argument.parse noFiles demo_mynextArg
        ["prog".toList, "x".toList, "--reference".toList, "5".toList]
        Options.new).2.options.map Options.header =
        Options.new.options.map Options.header ++
          [(demo_mynextArg.arg_type, demo_mynextArg.long_flag,
            ["prog".toList, "x".toList, "--reference".toList, "5".toList].getD 2 [], [],
            true)] ∧
      (Argument.parse noFiles demo_mynextArg
        ["prog".toList, "x".toList, "--reference".toList, "5".toList]
        Options.new).2.options.length = Options.new.options.length + 1 ∧
      (Argument.parse noFiles demo_mynextArg
        ["prog".toList, "x".toList, "--reference".toList, "5".toList]
        Options.new).2.argc = Options.new.argc + 1 ∧
      (Argument.parse noFiles demo_mynextArg
        ["prog".toList, "x".toList, "--reference".toList, "5".toList]
        Options.new).2.header = Options.new.header :=
  (C25_single_attachment noFiles demo_mynextArg
    ["prog".toList, "x".toList, "--reference".toList, "5".toList] Options.new).1 2
    (by decide) (by decide)
    (fun j h1 h2 => by
      have h3 : j = 1 := by omega
      subst h3
      decide)
    (by decide)

theorem copySubArgv_getD (argv : List CString) (k j : Nat) (hj1 : 1 ≤ j)
    (hj2 : j < argv.length - k) :
    (copySubArgv argv.length argv k).getD j [] = argv.getD (j + k) [] := by
  unfold copySubArgv
  rw [List.getD_eq_getElem _ _ (by simp; omega)]
  have hj : j ≠ 0 := by omega
  simp [hj]

/-- A required flag node that no token of a window of at least 2 tokens
matches returns a code with REQ_ARG_NOT_FOUND set. -/
theorem parse_required_absent (access : CString → Bool) (N : Argument) (argv : List CString)
    (R : Options) (hreq : N.required = true)
    (hk : N.arg_type = OPTION ∨ N.arg_type = WILDCARD ∨ N.arg_type = OPTION ||| WILDCARD ∨
      N.arg_type = METHOD)
    (hlen : 2 ≤ argv.length)
    (hno : ∀ j, 1 ≤ j → j < argv.length → parseArg access N (argv.getD j []) ≠ ERR_NO_ERR) :
    (Argument.parse access N argv R).1.testBit 3 = true := by
  have hlast : parseArg access N (argv.getD (argv.length - 1) []) = ERR_REQ_ARG_NOT_FOUND := by
    rw [parseArg_unmatched access N _ hk (hno (argv.length - 1) (by omega) (by omega))]
    simp [parseArgFallback, hreq]
  rw [parse_nomatch access N argv R hlen hno, hlast]
  have h8 : ERR_REQ_ARG_NOT_FOUND.testBit 3 = true := by decide
  split
  · exact requiredChildren_testBit N _ 3 h8
  · simp only [Nat.testBit_or, requiredChildren_testBit N _ 3 h8, Bool.true_or]

/-- C24, counterexample. The optional option `--export` has one child, the
required option `--format`. On `[prog, --export, x]` token 1 matches
`--export`, it is not the last token, and no token matches `--format`:
`Argument::parse` returns exactly NO_ERR, without REQ_ARG_NOT_FOUND. -/
theorem C24_counterexample :
    ex_export.required = false ∧ ex_export.arg_type = OPTION ∧
      ex_export.arguments.length = 1 ∧
      ex_export.arguments.map (fun c => (c.arg_type, c.long_flag, c.required)) =
        [(OPTION, "format".toList, true)] ∧
      parseArg noFiles ex_export "--export".toList = ERR_NO_ERR ∧
      parseArg noFiles ex_format "x".toList ≠ ERR_NO_ERR ∧
      (Argument.parse noFiles ex_export
        ["prog".toList, "--export".toList, "x".toList] Options.new).1 = ERR_NO_ERR ∧
      (Argument.parse noFiles ex_export
        ["prog".toList, "--export".toList, "x".toList] Options.new).1 &&&
          ERR_REQ_ARG_NOT_FOUND = 0 := by
  decide

/-- C24, as amended (the relaxation applies to an invoked parent). `N` is an
optional node whose only child is a required Option `C` (with or without the
Wildcard bit). When the first token matching `N` is token `k`, before the last
one, and no token after it matches `C`, the code of `C` on the sub-window has
REQ_ARG_NOT_FOUND set, and `Argument::parse` on `N` returns NO_ERR ORed with
that code with REQ_ARG_NOT_FOUND cleared: the failure of the required child is
forgiven although `N` was invoked. When the window has at least 2 tokens and
none matches `N`, the code has REQ_ARG_NOT_FOUND set. -/
theorem C24_relaxation_for_invoked_parent (access : CString → Bool) (N C : Argument)
    (argv : List CString) (R RC : Options)
    (hopt : N.required = false) (hch : N.arguments = [C]) (hCreq : C.required = true)
    (hCk : C.arg_type = OPTION ∨ C.arg_type = OPTION ||| WILDCARD) :
    (∀ k, 1 ≤ k → k + 1 < argv.length →
        (∀ j, 1 ≤ j → j < k → parseArg access N (argv.getD j []) ≠ ERR_NO_ERR) →
        parseArg access N (argv.getD k []) = ERR_NO_ERR →
        (∀ j, k < j → j < argv.length → parseArg access C (argv.getD j []) ≠ ERR_NO_ERR) →
        (Argument.parse access C (copySubArgv argv.length argv k) RC).1 &&&
            ERR_REQ_ARG_NOT_FOUND = ERR_REQ_ARG_NOT_FOUND ∧
          (Argument.parse access N argv R).1 =
            (ERR_NO_ERR ||| (Argument.parse access C (copySubArgv argv.length argv k) RC).1) &&&
              bnot32 ERR_REQ_ARG_NOT_FOUND ∧
          (Argument.parse access N argv R).1 &&& ERR_REQ_ARG_NOT_FOUND = 0) ∧
      (2 ≤ argv.length →
        (∀ j, 1 ≤ j → j < argv.length → parseArg access N (argv.getD j []) ≠ ERR_NO_ERR) →
        (Argument.parse access N argv R).1 &&& ERR_REQ_ARG_NOT_FOUND = ERR_REQ_ARG_NOT_FOUND) := by
  have hCkind : C.arg_type = OPTION ∨ C.arg_type = WILDCARD ∨
      C.arg_type = OPTION ||| WILDCARD ∨ C.arg_type = METHOD := by
    rcases hCk with h | h
    · exact Or.inl h
    · exact Or.inr (Or.inr (Or.inl h))
  have e8 : ERR_REQ_ARG_NOT_FOUND = 2 ^ 3 := by decide
  constructor
  · intro k hk1 hk2 hfirst hmatch hnoC
    have hWlen : (copySubArgv argv.length argv k).length = argv.length - k :=
      copySubArgv_length argv k
    have hC : ∀ RX, (Argument.parse access C (copySubArgv argv.length argv k) RX).1.testBit 3 =
        true := by
      intro RX
      apply parse_required_absent access C _ RX hCreq hCkind (by omega)
      intro j hj1 hj2
      rw [copySubArgv_getD argv k j hj1 (by omega)]
      exact hnoC (j + k) (by omega) (by omega)
    have hcode : (Argument.parse access N argv R).1 =
        (ERR_NO_ERR ||| (Argument.parse access C (copySubArgv argv.length argv k) RC).1) &&&
          bnot32 ERR_REQ_ARG_NOT_FOUND := by
      rw [parse_match_inner access N argv R k hk1 hk2 hfirst hmatch, hch, hopt]
      rw [parseChildren, parseChildren]
      rw [parse_code_indep access C (copySubArgv argv.length argv k) _ RC]
      have hbit : (ERR_NO_ERR |||
          (Argument.parse access C (copySubArgv argv.length argv k) RC).1) &&&
            ERR_REQ_ARG_NOT_FOUND ≠ 0 := by
        intro hz
        rw [e8] at hz
        have := (and_two_pow_eq_zero _ 3).mp hz
        rw [Nat.testBit_or, hC RC] at this
        simp at this
      simp only [hbit, hCreq, ne_eq, not_false_eq_true, Bool.not_false, and_self, if_true]
      apply one_or_of_testBit_zero
      rw [Nat.testBit_and, Nat.testBit_or, bnot32_8_bits.1]
      have h1 : ERR_NO_ERR.testBit 0 = true := by decide
      simp [h1]
    refine ⟨?_, hcode, ?_⟩
    · rw [e8]
      exact (and_two_pow_eq _ 3).mpr (hC RC)
    · rw [hcode, e8]
      exact (and_two_pow_eq_zero _ 3).mpr (testBit_bnot32_8_three _)
  · intro hlen hno
    rw [parse_nomatch access N argv R hlen hno, e8]
    apply (and_two_pow_eq _ 3).mpr
    have hreq : ∀ g, (requiredChildren N g).testBit 3 = true := by
      intro g
      have hp : C.arg_type &&& PARAM = 0 := by
        rcases hCk with h | h <;> rw [h] <;> decide
      have h8 : ERR_REQ_ARG_NOT_FOUND.testBit 3 = true := by decide
      simp [requiredChildren, hch, hCreq, hp, Nat.testBit_or, h8]
    split
    · exact hreq _
    · rw [Nat.testBit_or, hreq]
      rfl

/-- C24, witness: `--export` with its required child `--format`, invoked on
`[prog, --export, x]` and absent from `[prog, a, b]`. -/
theorem C24_relaxation_for_invoked_parent_witness :
    ((Argument.parse noFiles ex_format
          (copySubArgv ["prog".toList, "--export".toList, "x".toList].length
            ["prog".toList, "--export".toList, "x".toList] 1) Options.new).1 &&&
            ERR_REQ_ARG_NOT_FOUND = ERR_REQ_ARG_NOT_FOUND ∧
        (Argument.parse noFiles ex_export ["prog".toList, "--export".toList, "x".toList]
            Options.new).1 =
          (ERR_NO_ERR ||| (Argument.parse noFiles ex_format
            (copySubArgv ["prog".toList, "--export".toList, "x".toList].length
              ["prog".toList, "--export".toList, "x".toList] 1) Options.new).1) &&&
            bnot32 ERR_REQ_ARG_NOT_FOUND ∧
        (Argument.parse noFiles ex_export ["prog".toList, "--export".toList, "x".toList]
            Options.new).1 &&& ERR_REQ_ARG_NOT_FOUND = 0) ∧
      (Argument.parse noFiles ex_export ["prog".toList, "a".toList, "b".toList]
        Options.new).1 &&& ERR_REQ_ARG_NOT_FOUND = ERR_REQ_ARG_NOT_FOUND :=
  ⟨(C24_relaxation_for_invoked_parent noFiles ex_export ex_format
      ["prog".toList, "--export".toList, "x".toList] Options.new Options.new rfl rfl rfl
      (Or.inl rfl)).1 1 (by decide) (by decide) (fun j h1 h2 => by omega) (by decide)
      (fun j h1 h2 => by
        have h3 : j < 3 := h2
        interval_cases j
        decide),
    (C24_relaxation_for_invoked_parent noFiles ex_export ex_format
      ["prog".toList, "a".toList, "b".toList] Options.new Options.new rfl rfl rfl
      (Or.inl rfl)).2 (by decide)
      (fun j h1 h2 => by
        have h3 : j < 3 := h2
        interval_cases j <;> decide)⟩

/-- C26 (required-relaxation in the matcher). `N` is optional, all its children
are required, and the first token matching `N` is token `k`, before the last
one. The code returned by `Argument::parse` on `N` does not have
REQ_ARG_NOT_FOUND set, whatever the children return. -/
theorem C26_required_relaxation (access : CString → Bool) (N : Argument)
    (argv : List CString) (R : Options) (k : Nat)
    (hopt : N.required = false) (hall : ∀ c ∈ N.arguments, c.required = true)
    (hk1 : 1 ≤ k) (hk2 : k + 1 < argv.length)
    (hfirst : ∀ j, 1 ≤ j → j < k → parseArg access N (argv.getD j []) ≠ ERR_NO_ERR)
    (hmatch : parseArg access N (argv.getD k []) = ERR_NO_ERR) :
    (Argument.parse access N argv R).1 &&& ERR_REQ_ARG_NOT_FOUND = 0 := by
  have e8 : ERR_REQ_ARG_NOT_FOUND = 2 ^ 3 := by decide
  rw [parse_match_inner access N argv R k hk1 hk2 hfirst hmatch, hopt, e8]
  apply (and_two_pow_eq_zero _ 3).mpr
  have h1 : ERR_NO_ERR.testBit 3 = false := by decide
  rw [Nat.testBit_or, h1,
    parseChildren_optional access N.long_flag N.arguments hall _ _ ERR_NO_ERR h1]
  rfl

/-- C26, witness: the optional `--export`, whose child `--format` is required
and returns REQ_ARG_NOT_FOUND on the sub-window of `[prog, --export, x]`. -/
theorem C26_required_relaxation_witness :
    (Argument.parse noFiles ex_export ["prog".toList, "--export".toList, "x".toList]
      Options.new).1 &&& ERR_REQ_ARG_NOT_FOUND = 0 :=
  C26_required_relaxation noFiles ex_export ["prog".toList, "--export".toList, "x".toList]
    Options.new 1 rfl
    (fun c hc => by
      have ha : ex_export.arguments = [ex_format] := rfl
      rw [ha] at hc
      rw [List.mem_singleton.mp hc]
      rfl)
    (by decide) (by decide) (fun j h1 h2 => by omega) (by decide)

/-- C27 (child errors OR into the parent). `N` is required and the first token
matching `N` is token `i`, before the last one. The code returned by
`Argument::parse` on `N` is NO_ERR ORed with the codes that `Argument::parse`
of each child of `N` returns on the sub-window `copySubArgv(argc, argv, i)`,
which is `argv[0]` followed by the tokens after token `i`. The code of a child
does not depend on the result node it is given. -/
theorem C27_child_errors_or (access : CString → Bool) (N : Argument)
    (argv : List CString) (R : Options) (i : Nat) (node : Argument → Options)
    (hreq : N.required = true) (hi1 : 1 ≤ i) (hi2 : i + 1 < argv.length)
    (hfirst : ∀ j, 1 ≤ j → j < i → parseArg access N (argv.getD j []) ≠ ERR_NO_ERR)
    (hmatch : parseArg access N (argv.getD i []) = ERR_NO_ERR) :
    (Argument.parse access N argv R).1 =
        N.arguments.foldl
          (fun e c => e ||| (Argument.parse access c (copySubArgv argv.length argv i) (node c)).1)
          ERR_NO_ERR ∧
      copySubArgv argv.length argv i = argv.getD 0 [] :: argv.drop (i + 1) := by
  refine ⟨?_, copySubArgv_eq argv i (by omega)⟩
  rw [parse_match_inner access N argv R i hi1 hi2 hfirst hmatch, hreq,
    parseChildren_required access N.long_flag N.arguments _ _ ERR_NO_ERR node,
    foldl_or_left]
  have e1 : ERR_NO_ERR ||| ERR_NO_ERR = ERR_NO_ERR := by decide
  rw [e1]

/-- C27, witness: the required `--copy` with the required parameters `from`
and `to` on `[prog, --copy, a, -b]`. -/
theorem C27_child_errors_or_witness :
    (Argument.parse noFiles ex_copy
        ["prog".toList, "--copy".toList, "a".toList, "-b".toList] Options.new).1 =
        ex_copy.arguments.foldl
          (fun e c => e ||| (Argument.parse noFiles c
            (copySubArgv ["prog".toList, "--copy".toList, "a".toList, "-b".toList].length
              ["prog".toList, "--copy".toList, "a".toList, "-b".toList] 1) Options.new).1)
          ERR_NO_ERR ∧
      copySubArgv ["prog".toList, "--copy".toList, "a".toList, "-b".toList].length
          ["prog".toList, "--copy".toList, "a".toList, "-b".toList] 1 =
        ["prog".toList, "--copy".toList, "a".toList, "-b".toList].getD 0 [] ::
          ["prog".toList, "--copy".toList, "a".toList, "-b".toList].drop (1 + 1) :=
  C27_child_errors_or noFiles ex_copy
    ["prog".toList, "--copy".toList, "a".toList, "-b".toList] Options.new 1
    (fun _ => Options.new) rfl (by decide) (by decide) (fun j h1 h2 => by omega) (by decide)

/-! ## Lemmas on the required children of an unmatched or last-matched node -/

theorem requiredChildren_eq_filter (N : Argument) (g : Nat) :
    requiredChildren N g =
      (N.arguments.filter (fun c => c.required)).foldl (fun e c => e ||| missingChildCode N c)
        g := by
  unfold requiredChildren
  generalize N.arguments = cs
  induction cs generalizing g with
  | nil => rfl
  | cons c rest ih =>
    rw [List.foldl_cons, ih]
    cases hc : c.required
    · simp [List.filter_cons, hc]
    · simp only [List.filter_cons, hc, if_true, List.foldl_cons]
      rfl

theorem foldl_or_no_err (cs : List Argument) (f : Argument → Nat)
    (hf : ∀ c ∈ cs, f c = ERR_NO_ERR) (g : Nat) :
    cs.foldl (fun e c => e ||| f c) g = g ∨
      cs.foldl (fun e c => e ||| f c) g = g ||| ERR_NO_ERR := by
  induction cs generalizing g with
  | nil => exact Or.inl rfl
  | cons c rest ih =>
    rw [List.foldl_cons, hf c (by simp)]
    rcases ih (fun d hd => hf d (by simp [hd])) (g ||| ERR_NO_ERR) with h | h
    · exact Or.inr h
    · right
      rw [h, Nat.lor_assoc]
      have e2 : ERR_NO_ERR ||| ERR_NO_ERR = ERR_NO_ERR := by decide
      rw [e2]

/-- The required children of an optional node, all of them with the PARAM
bit, add nothing but NO_ERR. -/
theorem requiredChildren_optional_params (N : Argument) (g : Nat) (hopt : N.required = false)
    (hall : ∀ c ∈ N.arguments, c.required = true → c.arg_type &&& PARAM ≠ 0) :
    requiredChildren N g = g ∨ requiredChildren N g = g ||| ERR_NO_ERR := by
  rw [requiredChildren_eq_filter]
  apply foldl_or_no_err
  intro c hc
  have hm := List.mem_filter.mp hc
  have hp := hall c hm.1 (by simpa using hm.2)
  simp [missingChildCode, hp, hopt]

theorem parse_nomatch_unchanged (access : CString → Bool) (N : Argument) (argv : List CString)
    (R : Options)
    (hno : ∀ j, 1 ≤ j → j < argv.length → parseArg access N (argv.getD j []) ≠ ERR_NO_ERR) :
    (Argument.parse access N argv R).2 = R := by
  by_cases hlen : argv.length < 2
  · rw [parse_eq, if_pos hlen]
  · rw [parse_nomatch access N argv R (by omega) hno]
    split <;> rfl

/-- C28 (match on the last token). When the first token matching `N` is the
last token of the window, `Argument::parse` attaches the result node of `N`
for that token and returns NO_ERR ORed, over every required child `c` of `N`,
with REQ_PARAM_NOT_FOUND if `c` has the PARAM bit and `N` is required and has
an Option, Wildcard or Method bit, with NO_ERR if `c` has the PARAM bit and `N`
is not such a node, and with REQ_ARG_NOT_FOUND if `c` has no PARAM bit. So for
an optional `N` whose required children all have the PARAM bit the code is
exactly NO_ERR. -/
theorem C28_match_on_last_token (access : CString → Bool) (N : Argument)
    (argv : List CString) (R : Options) (hlen : 2 ≤ argv.length)
    (hfirst : ∀ j, 1 ≤ j → j < argv.length - 1 →
      parseArg access N (argv.getD j []) ≠ ERR_NO_ERR)
    (hmatch : parseArg access N (argv.getD (argv.length - 1) []) = ERR_NO_ERR) :
    Argument.parse access N argv R =
        (lastTokenCode N, attachOptions N R (argv.length - 1) argv argv.length) ∧
      (N.required = false →
        (∀ c ∈ N.arguments, c.required = true → c.arg_type &&& PARAM ≠ 0) →
        (Argument.parse access N argv R).1 = ERR_NO_ERR) := by
  have hp := parse_match_last access N argv R hlen hfirst hmatch
  constructor
  · rw [hp, requiredChildren_eq_filter]
    rfl
  · intro hopt hall
    rw [hp]
    rcases requiredChildren_optional_params N ERR_NO_ERR hopt hall with h | h
    · exact h
    · rw [h]
      dsimp only
      decide

/-- C28, witness: the required `--name` with its required parameter on
`[prog, --name]` (code NO_ERR | REQ_PARAM_NOT_FOUND), and the optional
`--output` with its required parameter on `[prog, --output]` (code NO_ERR). -/
theorem C28_match_on_last_token_witness :
    (Argument.parse noFiles ex_name ["prog".toList, "--name".toList] Options.new =
        (lastTokenCode ex_name,
          attachOptions ex_name Options.new (["prog".toList, "--name".toList].length - 1)
            ["prog".toList, "--name".toList] ["prog".toList, "--name".toList].length) ∧
      lastTokenCode ex_name = ERR_NO_ERR ||| ERR_REQ_PARAM_NOT_FOUND) ∧
      (Argument.parse noFiles ex_output ["prog".toList, "--output".toList] Options.new).1 =
        ERR_NO_ERR :=
  ⟨⟨(C28_match_on_last_token noFiles ex_name ["prog".toList, "--name".toList] Options.new
      (by decide) (fun j h1 h2 => absurd h2 (by have h3 : ¬ j < 1 := by omega
                                                exact h3)) (by decide)).1, by decide⟩,
    (C28_match_on_last_token noFiles ex_output ["prog".toList, "--output".toList] Options.new
      (by decide) (fun j h1 h2 => absurd h2 (by have h3 : ¬ j < 1 := by omega
                                                exact h3)) (by decide)).2 rfl
      (fun c hc hr => by
        have ha : ex_output.arguments =
            [(NewParamter "path".toList "string".toList).setRequired true] := rfl
        rw [ha] at hc
        rw [List.mem_singleton.mp hc]
        decide)⟩

/-- C29 (missing required flag at the node). `N` is required, of kind Option,
Wildcard, Option|Wildcard or Method, and no token at the positions
`1 .. argc-1` of the window matches `N` (the window may have fewer than 2
tokens). `Argument::parse` on `N` returns a code with REQ_ARG_NOT_FOUND set and
leaves the result node unchanged. -/
theorem C29_missing_required_flag (access : CString → Bool) (N : Argument)
    (argv : List CString) (R : Options) (hreq : N.required = true)
    (hk : N.arg_type = OPTION ∨ N.arg_type = WILDCARD ∨ N.arg_type = OPTION ||| WILDCARD ∨
      N.arg_type = METHOD)
    (hno : ∀ j, 1 ≤ j → j < argv.length → parseArg access N (argv.getD j []) ≠ ERR_NO_ERR) :
    (Argument.parse access N argv R).1 &&& ERR_REQ_ARG_NOT_FOUND = ERR_REQ_ARG_NOT_FOUND ∧
      (Argument.parse access N argv R).2 = R := by
  refine ⟨?_, parse_nomatch_unchanged access N argv R hno⟩
  by_cases hlen : argv.length < 2
  · rw [parse_eq, if_pos hlen, hreq]
    dsimp only
    decide
  · have e8 : ERR_REQ_ARG_NOT_FOUND = 2 ^ 3 := by decide
    rw [e8]
    exact (and_two_pow_eq _ 3).mpr
      (parse_required_absent access N argv R hreq hk (by omega) hno)

/-- C29, witness: the required `--input` on `[prog, a, b]`. -/
theorem C29_missing_required_flag_witness :
    (Argument.parse noFiles ex_input ["prog".toList, "a".toList, "b".toList]
        Options.new).1 &&& ERR_REQ_ARG_NOT_FOUND = ERR_REQ_ARG_NOT_FOUND ∧
      (Argument.parse noFiles ex_input ["prog".toList, "a".toList, "b".toList]
        Options.new).2 = Options.new :=
  C29_missing_required_flag noFiles ex_input ["prog".toList, "a".toList, "b".toList]
    Options.new rfl (Or.inl rfl)
    (fun j h1 h2 => by
      have h3 : j < 3 := h2
      interval_cases j <;> decide)

/-- C30 (an absent optional option does not demand its parameter). `N` is an
optional Option (with or without the Wildcard bit), every required child of
`N` has the PARAM bit, and no token at the positions `1 .. argc-1` of the
window matches `N`. The code returned by `Argument::parse` on `N` has neither
REQ_ARG_NOT_FOUND nor REQ_PARAM_NOT_FOUND set, and the result node is
unchanged. -/
theorem C30_absent_option_no_demand (access : CString → Bool) (N : Argument)
    (argv : List CString) (R : Options)
    (hk : N.arg_type = OPTION ∨ N.arg_type = OPTION ||| WILDCARD)
    (hopt : N.required = false)
    (hall : ∀ c ∈ N.arguments, c.required = true → c.arg_type &&& PARAM ≠ 0)
    (hno : ∀ j, 1 ≤ j → j < argv.length → parseArg access N (argv.getD j []) ≠ ERR_NO_ERR) :
    (Argument.parse access N argv R).1 &&& ERR_REQ_ARG_NOT_FOUND = 0 ∧
      (Argument.parse access N argv R).1 &&& ERR_REQ_PARAM_NOT_FOUND = 0 ∧
      (Argument.parse access N argv R).2 = R := by
  refine ⟨?_, ?_, parse_nomatch_unchanged access N argv R hno⟩
  all_goals
    by_cases hlen : argv.length < 2
    · rw [parse_eq, if_pos hlen, hopt]
      dsimp only
      decide
    · have hkind : N.arg_type = OPTION ∨ N.arg_type = WILDCARD ∨
          N.arg_type = OPTION ||| WILDCARD ∨ N.arg_type = METHOD := by
        rcases hk with h | h
        · exact Or.inl h
        · exact Or.inr (Or.inr (Or.inl h))
      have hlast : parseArg access N (argv.getD (argv.length - 1) []) = ERR_NOT_FOUND := by
        rw [parseArg_unmatched access N _ hkind (hno (argv.length - 1) (by omega) (by omega))]
        simp [parseArgFallback, hopt]
      rw [parse_nomatch access N argv R (by omega) hno, hlast]
      rcases requiredChildren_optional_params N ERR_NOT_FOUND hopt hall with h | h <;>
        rw [h] <;> split <;> dsimp only <;> decide

/-- C30, witness: the optional option `--output`, whose parameter `path` is
required, on `[prog, a, b]`. -/
theorem C30_absent_option_no_demand_witness :
    (ex_output.arguments.map (fun c => (c.required, c.arg_type)) = [(true, PARAM)] ∧
      (Argument.parse noFiles ex_output
        ["prog".toList, "a".toList, "b".toList] Options.new).1 &&&
        ERR_REQ_ARG_NOT_FOUND = 0) ∧
      (Argument.parse noFiles ex_output
        ["prog".toList, "a".toList, "b".toList] Options.new).1 &&&
        ERR_REQ_PARAM_NOT_FOUND = 0 ∧
      (Argument.parse noFiles ex_output
        ["prog".toList, "a".toList, "b".toList] Options.new).2 = Options.new :=
  ⟨⟨by decide,
      (C30_absent_option_no_demand noFiles ex_output
        ["prog".toList, "a".toList, "b".toList] Options.new (Or.inl rfl) rfl
        (fun c hc hr => by
          have ha : ex_output.arguments =
              [(NewParamter "path".toList "string".toList).setRequired true] := rfl
          rw [ha] at hc
          rw [List.mem_singleton.mp hc]
          decide)
        (fun j h1 h2 => by
          have h3 : j < 3 := h2
          interval_cases j <;> decide)).1⟩,
    (C30_absent_option_no_demand noFiles ex_output
      ["prog".toList, "a".toList, "b".toList] Options.new (Or.inl rfl) rfl
      (fun c hc hr => by
        have ha : ex_output.arguments =
            [(NewParamter "path".toList "string".toList).setRequired true] := rfl
        rw [ha] at hc
        rw [List.mem_singleton.mp hc]
        decide)
      (fun j h1 h2 => by
        have h3 : j < 3 := h2
        interval_cases j <;> decide)).2⟩

/-! ## Lemmas on the nodes of a result tree -/

theorem mem_nodesList (x : Options) (os : List Options) :
    x ∈ Options.nodesList os ↔ ∃ c ∈ os, x ∈ c.nodes := by
  induction os with
  | nil => simp [Options.nodesList]
  | cons o rest ih => simp [Options.nodesList, ih]

theorem mem_nodes (x o : Options) :
    x ∈ o.nodes ↔ x = o ∨ ∃ c ∈ o.options, x ∈ c.nodes := by
  cases o
  rw [Options.nodes]
  simp [mem_nodesList]

theorem getLoop_mem (key : CString) (opts : List Options) (n : Nat) (o : Options)
    (h : Options.getLoop key opts n = some o) : o ∈ opts := by
  induction opts generalizing n with
  | nil => simp [Options.getLoop] at h
  | cons c rest ih =>
    cases n with
    | zero => simp [Options.getLoop] at h
    | succ m =>
      rw [Options.getLoop] at h
      split at h
      · simp at h
        simp [h]
      · exact List.mem_cons_of_mem _ (ih m h)

theorem putLoop_length (key : CString) (node : Options) (opts : List Options) (n : Nat) :
    (Options.putLoop key node opts n).length = opts.length := by
  induction opts generalizing n with
  | nil => simp [Options.putLoop]
  | cons c rest ih =>
    cases n with
    | zero => simp [Options.putLoop]
    | succ m =>
      rw [Options.putLoop]
      split
      · simp
      · simp [ih m]

theorem putLoop_mem (key : CString) (node : Options) (opts : List Options) (n : Nat)
    (x : Options) (h : x ∈ Options.putLoop key node opts n) :
    x ∈ opts ∨ (x = node ∧ ∃ o, Options.getLoop key opts n = some o) := by
  induction opts generalizing n with
  | nil => simp [Options.putLoop] at h
  | cons c rest ih =>
    cases n with
    | zero =>
      left
      simpa [Options.putLoop] using h
    | succ m =>
      rw [Options.putLoop] at h
      by_cases hc : _compare_cstring key c.key = true
      · rw [if_pos hc] at h
        rcases List.mem_cons.mp h with h1 | h1
        · right
          exact ⟨h1, c, by simp [Options.getLoop, hc]⟩
        · left
          exact List.mem_cons_of_mem _ h1
      · rw [if_neg hc] at h
        rcases List.mem_cons.mp h with h1 | h1
        · left
          simp [h1]
        · rcases ih m h1 with h2 | ⟨h2, o, ho⟩
          · left
            exact List.mem_cons_of_mem _ h2
          · right
            exact ⟨h2, o, by simp [Options.getLoop, hc, ho]⟩

/-! ## Properties of every node that the matcher preserves -/

/-- The result node of `Argument::parse`: the node it was given, or that node
with the node of a matching token attached, or the latter after the loop over
the children. -/
theorem parse_result_cases (access : CString → Bool) (N : Argument) (argv : List CString)
    (R : Options) :
    (Argument.parse access N argv R).2 = R ∨
      ∃ k, k < argv.length ∧ parseArg access N (argv.getD k []) = ERR_NO_ERR ∧
        ((Argument.parse access N argv R).2 = attachOptions N R k argv argv.length ∨
          (Argument.parse access N argv R).2 =
            (parseChildren access N.required N.long_flag N.arguments
              (copySubArgv argv.length argv k) (attachOptions N R k argv argv.length)
              ERR_NO_ERR).2) := by
  by_cases h : ∃ k, 1 ≤ k ∧ k < argv.length ∧ parseArg access N (argv.getD k []) = ERR_NO_ERR
  · right
    obtain ⟨h1, h2, h3⟩ := Nat.find_spec h
    have hmin : ∀ j, 1 ≤ j → j < Nat.find h →
        parseArg access N (argv.getD j []) ≠ ERR_NO_ERR := by
      intro j hj1 hj2 hj3
      exact Nat.find_min h hj2 ⟨hj1, by omega, hj3⟩
    refine ⟨Nat.find h, h2, h3, ?_⟩
    by_cases hlast : Nat.find h + 1 < argv.length
    · right
      rw [parse_match_inner access N argv R (Nat.find h) h1 hlast hmin h3]
    · left
      have hk : Nat.find h = argv.length - 1 := by omega
      rw [hk] at hmin h3 ⊢
      rw [parse_match_last access N argv R (by omega) hmin h3]
  · left
    apply parse_nomatch_unchanged
    intro j hj1 hj2 hj3
    exact h ⟨j, hj1, hj2, hj3⟩

theorem attachOptions_eq_node (arg : Argument) (R : Options) (i : Nat) (argv : List CString)
    (c : Nat) :
    attachOptions arg R i argv c =
      { R with
        argc := R.argc + 1
        options := R.options ++ [attachedNode arg (argv.getD i [])] } := rfl

theorem attachOptions_nodes (P : Options → Prop) (N : Argument) (R : Options) (k : Nat)
    (argv : List CString) (c : Nat)
    (hroot : P { R with
      argc := R.argc + 1
      options := R.options ++
        [attachedNode N (argv.getD k [])] })
    (hnode : P (attachedNode N (argv.getD k [])))
    (hR : ∀ x ∈ R.nodes, P x) :
    ∀ x ∈ (attachOptions N R k argv c).nodes, P x := by
  intro x hx
  rw [attachOptions_eq_node, mem_nodes] at hx
  rcases hx with hx | ⟨d, hd, hx⟩
  · rw [hx]
    exact hroot
  · rcases List.mem_append.mp hd with hd | hd
    · exact hR x ((mem_nodes x R).mpr (Or.inr ⟨d, hd, hx⟩))
    · rw [List.mem_singleton.mp hd, mem_nodes] at hx
      rcases hx with hx | ⟨d2, hd2, _⟩
      · rw [hx]
        exact hnode
      · have hnil : (attachedNode N (argv.getD k [])).options = [] := rfl
        rw [hnil] at hd2
        simp at hd2

theorem put_nodes (P : Options → Prop)
    (hcongr : ∀ o os, P o → os.length = o.options.length → P { o with options := os })
    (R : Options) (key : CString) (node : Options) (hR : ∀ x ∈ R.nodes, P x)
    (hnode : ∀ o, Options.getLoop key R.options R.argc = some o → ∀ x ∈ node.nodes, P x) :
    ∀ x ∈ (R.put key node).nodes, P x := by
  intro x hx
  unfold Options.put at hx
  rw [mem_nodes] at hx
  rcases hx with hx | ⟨d, hd, hx⟩
  · rw [hx]
    exact hcongr R _ (hR R ((mem_nodes R R).mpr (Or.inl rfl))) (putLoop_length _ _ _ _)
  · rcases putLoop_mem key node R.options R.argc d hd with h1 | ⟨h1, o, ho⟩
    · exact hR x ((mem_nodes x R).mpr (Or.inr ⟨d, h1, hx⟩))
    · rw [h1] at hx
      exact hnode o ho x hx

theorem parseChildren_nodes (access : CString → Bool) (P : Options → Prop)
    (hcongr : ∀ o os, P o → os.length = o.options.length → P { o with options := os })
    (req : Bool) (key : CString) (cs : List Argument)
    (hcs : ∀ c ∈ cs, ∀ a R, (∀ x ∈ R.nodes, P x) →
      ∀ x ∈ (Argument.parse access c a R).2.nodes, P x)
    (a : List CString) (o : Options) (e : Nat) (ho : ∀ x ∈ o.nodes, P x) :
    ∀ x ∈ (parseChildren access req key cs a o e).2.nodes, P x := by
  induction cs generalizing o e with
  | nil => simpa [parseChildren] using ho
  | cons c rest ih =>
    rw [parseChildren]
    apply ih (fun d hd => hcs d (by simp [hd]))
    apply put_nodes P hcongr o key _ ho
    intro o2 ho2
    rw [get_of_getLoop o key o2 ho2]
    apply hcs c (by simp)
    intro x hx
    exact ho x ((mem_nodes x o).mpr (Or.inr ⟨o2, getLoop_mem key _ _ o2 ho2, hx⟩))

theorem parse_nodes_aux (access : CString → Bool) (P : Options → Prop)
    (hcongr : ∀ o os, P o → os.length = o.options.length → P { o with options := os })
    (hatt : ∀ (N : Argument) (o : Options) (tok : CString),
      parseArg access N tok = ERR_NO_ERR → P o →
      P { o with
          argc := o.argc + 1
          options := o.options ++
            [attachedNode N tok] } ∧
        P (attachedNode N tok))
    (n : Nat) :
    ∀ N : Argument, sizeOf N ≤ n → ∀ argv R, (∀ x ∈ R.nodes, P x) →
      ∀ x ∈ (Argument.parse access N argv R).2.nodes, P x := by
  induction n with
  | zero =>
    intro N hN
    cases N
    simp at hN
  | succ m ih =>
    intro N hN argv R hR
    have hroot : P R := hR R ((mem_nodes R R).mpr (Or.inl rfl))
    rcases parse_result_cases access N argv R with h | ⟨k, _, hm, h | h⟩
    · rw [h]
      exact hR
    · rw [h]
      exact attachOptions_nodes P N R k argv _ (hatt N R _ hm hroot).1 (hatt N R _ hm hroot).2 hR
    · rw [h]
      apply parseChildren_nodes access P hcongr
      · intro c hc
        apply ih
        have h1 := sizeOf_child_lt N c hc
        omega
      · exact attachOptions_nodes P N R k argv _ (hatt N R _ hm hroot).1
          (hatt N R _ hm hroot).2 hR

/-- A property of nodes that holds for the root built by `build_options_tree`,
for a node attached for a matching token and for its parent, and that does not
depend on the trees below the children, holds for every node of the result tree
of `CommandLine::parse`. -/
theorem commandLine_nodes (access : CString → Bool) (P : Options → Prop)
    (hcongr : ∀ o os, P o → os.length = o.options.length → P { o with options := os })
    (hatt : ∀ (N : Argument) (o : Options) (tok : CString),
      parseArg access N tok = ERR_NO_ERR → P o →
      P { o with
          argc := o.argc + 1
          options := o.options ++
            [attachedNode N tok] } ∧
        P (attachedNode N tok))
    (cl : CommandLine) (hroot : P cl.build_options_tree) (argv : List CString) :
    ∃ T, (cl.parse access argv).2.parsedArgs = some T ∧ ∀ x ∈ T.nodes, P x := by
  refine ⟨_, rfl, ?_⟩
  have hgen : ∀ (args : List Argument) (err : Nat) (R : Options), (∀ x ∈ R.nodes, P x) →
      ∀ x ∈ (parseTopLevel access argv args err R).2.nodes, P x := by
    intro args
    induction args with
    | nil =>
      intro err R hR
      simpa [parseTopLevel] using hR
    | cons arg rest ih =>
      intro err R hR
      rw [parseTopLevel]
      apply ih
      exact parse_nodes_aux access P hcongr hatt (sizeOf arg) arg (Nat.le_refl _) argv R hR
  apply hgen
  intro x hx
  rw [mem_nodes] at hx
  rcases hx with hx | ⟨d, hd, _⟩
  · rw [hx]
    exact hroot
  · have : cl.build_options_tree.options = [] := rfl
    rw [this] at hd
    simp at hd

theorem getLoop_length (key : CString) (opts : List Options) :
    Options.getLoop key opts opts.length =
      opts.find? (fun c => _compare_cstring key c.key) := by
  induction opts with
  | nil => rfl
  | cons o rest ih =>
    rw [List.length_cons, Options.getLoop, List.find?_cons]
    cases hc : _compare_cstring key o.key
    · simp [ih]
    · simp

theorem parseArg_param_no_dash (access : CString → Bool) (N : Argument) (tok : CString)
    (hk : N.arg_type = PARAM) (hm : parseArg access N tok = ERR_NO_ERR) :
    tok.head? ≠ some '-' := by
  cases tok with
  | nil => simp
  | cons c t =>
    intro hc
    have hc2 : c = '-' := by simpa using hc
    rw [hc2, parseArg_param_dash access N t hk] at hm
    exact absurd hm (by decide)

/-- C31 (no option token is swallowed as a value). In the result tree of
`CommandLine::parse`, for every command line and every `argv`, every node whose
kind is exactly Param holds a value that does not begin with `-`; a node is
created for an argument only for a token that `parseArg` accepted, with the
kind of the argument and that token as value. -/
theorem C31_no_option_swallowed (access : CString → Bool) (cl : CommandLine)
    (argv : List CString) :
    ∃ T, (cl.parse access argv).2.parsedArgs = some T ∧
      ∀ o ∈ T.nodes, o.arg_type = PARAM → o.data.head? ≠ some '-' := by
  apply commandLine_nodes access (fun o => o.arg_type = PARAM → o.data.head? ≠ some '-')
  · intro o os h _
    exact h
  · intro N o tok hm h
    refine ⟨h, ?_⟩
    intro hk
    exact parseArg_param_no_dash access N tok hk hm
  · intro h
    have ht : cl.build_options_tree.arg_type = _NULL_ARG_ := rfl
    rw [ht] at h
    exact absurd h (by decide)

/-- C31, witness: the demo command line on `[prog, --reference, 5, -q, --q]`. -/
theorem C31_no_option_swallowed_witness :
    ∃ T, (myCommandLine.parse noFiles
        ["prog".toList, "--reference".toList, "5".toList, "-q".toList, "--q".toList]).2.parsedArgs =
          some T ∧
      ∀ o ∈ T.nodes, o.arg_type = PARAM → o.data.head? ≠ some '-' :=
  C31_no_option_swallowed noFiles myCommandLine
    ["prog".toList, "--reference".toList, "5".toList, "-q".toList, "--q".toList]

/-- C36 (result-tree well-formedness). In the result tree of
`CommandLine::parse`, for every command line and every `argv`, every node has
a stored child count `argc` equal to the length of its children sequence and
`parsed = true`; so the scan of `Options::get` over the indices `0 .. argc-1`
stays inside the sequence and returns the first child with the key, or the
fresh node when there is none. -/
theorem C36_result_tree_well_formed (access : CString → Bool) (cl : CommandLine)
    (argv : List CString) :
    ∃ T, (cl.parse access argv).2.parsedArgs = some T ∧
      ∀ o ∈ T.nodes, o.argc = o.options.length ∧ o.parsed = true ∧
        ∀ key, o.get key =
          (o.options.find? (fun c => _compare_cstring key c.key)).getD Options.new := by
  obtain ⟨T, hT, h⟩ := commandLine_nodes access
    (fun o => o.argc = o.options.length ∧ o.parsed = true)
    (fun o os h hl => ⟨h.1.trans hl.symm, h.2⟩)
    (fun N o tok _ h => ⟨⟨by simp [h.1], h.2⟩, rfl, rfl⟩)
    cl ⟨rfl, rfl⟩ argv
  refine ⟨T, hT, fun o ho => ⟨(h o ho).1, (h o ho).2, ?_⟩⟩
  intro key
  unfold Options.get
  rw [(h o ho).1, getLoop_length]
  cases o.options.find? (fun c => _compare_cstring key c.key) <;> rfl

/-- C36, witness: the result tree of the demo command line on
`[prog, --reference, 5, --question, hi]`. -/
theorem C36_result_tree_well_formed_witness :
    ∃ T, (myCommandLine.parse noFiles
        ["prog".toList, "--reference".toList, "5".toList, "--question".toList,
          "hi".toList]).2.parsedArgs = some T ∧
      ∀ o ∈ T.nodes, o.argc = o.options.length ∧ o.parsed = true ∧
        ∀ key, o.get key =
          (o.options.find? (fun c => _compare_cstring key c.key)).getD Options.new :=
  C36_result_tree_well_formed noFiles myCommandLine
    ["prog".toList, "--reference".toList, "5".toList, "--question".toList, "hi".toList]

theorem parseTopLevel_sets_param (access : CString → Bool) (argv : List CString)
    (args : List Argument) (err : Nat) (R : Options)
    (h : ∃ a ∈ args, a.required = true ∧ a.arg_type &&& PARAM ≠ 0) :
    (parseTopLevel access argv args err R).1.testBit 7 = true := by
  induction args generalizing err R with
  | nil =>
    obtain ⟨a, ha, _⟩ := h
    simp at ha
  | cons arg rest ih =>
    rw [parseTopLevel]
    obtain ⟨a, ha, hreq, hp⟩ := h
    rcases List.mem_cons.mp ha with ha | ha
    · subst ha
      apply parseTopLevel_keeps_err access argv rest _ _ 7 (by decide) (by decide)
      have h7 : ERR_REQ_PARAM_NOT_FOUND.testBit 7 = true := by decide
      simp [hreq, hp, Nat.testBit_or, h7]
    · exact ih _ _ ⟨a, ha, hreq, hp⟩

/-- C32 (a required top-level Param always fails). When some top-level
registered argument is required and has the PARAM bit, the code returned by
`CommandLine::parse` has REQ_PARAM_NOT_FOUND set, for every `argv`. -/
theorem C32_required_top_level_param (access : CString → Bool) (cl : CommandLine)
    (argv : List CString)
    (h : ∃ a ∈ cl.args.root.getArguments, a.required = true ∧ a.arg_type &&& PARAM ≠ 0) :
    (cl.parse access argv).1 &&& ERR_REQ_PARAM_NOT_FOUND = ERR_REQ_PARAM_NOT_FOUND := by
  have e7 : ERR_REQ_PARAM_NOT_FOUND = 2 ^ 7 := by decide
  rw [e7]
  apply (and_two_pow_eq _ 7).mpr
  have h1 := parseTopLevel_sets_param access argv cl.args.root.getArguments 0
    cl.build_options_tree h
  unfold CommandLine.parse
  dsimp only
  split
  · rw [Nat.testBit_or, h1]
    rfl
  · exact h1

/-- C32, witness: the only registered argument is the required string
parameter `file`; `[prog, data]` supplies a value that `parseArg` accepts, and
the code still has REQ_PARAM_NOT_FOUND set. -/
theorem C32_required_top_level_param_witness :
    parseArg noFiles ((NewParamter "file".toList "string".toList).setRequired true)
        "data".toList = ERR_NO_ERR ∧
      ((CommandLine.new.addArgument
        ((NewParamter "file".toList "string".toList).setRequired true)).parse noFiles
          ["prog".toList, "data".toList]).1 &&& ERR_REQ_PARAM_NOT_FOUND =
        ERR_REQ_PARAM_NOT_FOUND :=
  ⟨by decide,
    C32_required_top_level_param noFiles
      (CommandLine.new.addArgument ((NewParamter "file".toList "string".toList).setRequired true))
      ["prog".toList, "data".toList]
      ⟨(NewParamter "file".toList "string".toList).setRequired true, List.Mem.head _, rfl,
        by decide⟩⟩

/-- C34 (the empty token is accepted as a value). For a Param of datatype
`string` and for a Param of datatype `int`, without custom callback,
`parseArg` on the empty token returns NO_ERR. `strlen` counts the terminating
NUL, so it is at least 1 for every token, and a string Param returns NO_ERR or
the code of a token that begins with `-`, never WRONG_DATA. -/
theorem C34_empty_token_accepted (access : CString → Bool) (P : Argument)
    (hk : P.arg_type = PARAM) (hcb : P.is_custom_dtype = false) :
    (P.dtype_custom = ['s', 't', 'r', 'i', 'n', 'g'] → parseArg access P [] = ERR_NO_ERR) ∧
      (P.dtype_custom = ['i', 'n', 't'] → parseArg access P [] = ERR_NO_ERR) ∧
      (∀ t : CString, 1 ≤ strlen t) ∧
      (P.dtype_custom = ['s', 't', 'r', 'i', 'n', 'g'] → ∀ t : CString,
        parseArg access P t ≠ ERR_WRONG_DATA ∧
          (parseArg access P t = ERR_NO_ERR ∨
            parseArg access P t =
              ERR_REQ_PARAM_NOT_FOUND ||| ERR_INVALID_INPUT ||| ERR_WRONG_DATA)) := by
  have hstr : P.dtype_custom = ['s', 't', 'r', 'i', 'n', 'g'] → ∀ t : CString,
      parseArg access P t = ERR_NO_ERR ∨
        parseArg access P t =
          ERR_REQ_PARAM_NOT_FOUND ||| ERR_INVALID_INPUT ||| ERR_WRONG_DATA := by
    intro hd t
    by_cases ht : t.head? = some '-'
    · right
      cases t with
      | nil => simp at ht
      | cons c r =>
        have hc : c = '-' := by simpa using ht
        rw [hc]
        exact parseArg_param_dash access P r hk
    · left
      exact parseArg_param_string access P t hk hcb hd ht
  refine ⟨?_, ?_, ?_, ?_⟩
  · intro hd
    exact parseArg_param_string access P [] hk hcb hd (by simp)
  · intro hd
    have h1 : _compare_cstring_until ([] : CString) ['-'] 1 = false := by decide
    have h2 : _compare_cstring_until ([] : CString) ['-', '-'] 2 = false := by decide
    have h3 : _compare_cstring ['i', 'n', 't'] ['s', 't', 'r', 'i', 'n', 'g'] = false := by
      decide
    have h4 : _compare_cstring ['i', 'n', 't'] ['i', 'n', 't'] = true := by decide
    have h5 : charAt (strtol_end []) 0 = NUL := by decide
    simp [parseArg, hk, PARAM, OPTION, WILDCARD, METHOD, kind_bits, hcb, hd, h1, h2, h3, h4, h5,
      ERR_NO_ERR]
  · intro t
    simp [strlen]
  · intro hd t
    refine ⟨?_, hstr hd t⟩
    rcases hstr hd t with h | h <;> rw [h] <;> decide

/-- C34, witness: the demo parameters `theq` (string) and `number` (int) on
the empty token. -/
theorem C34_empty_token_accepted_witness :
    parseArg noFiles (NewParamter "theq".toList "string".toList) [] = ERR_NO_ERR ∧
      parseArg noFiles (NewParamter "number".toList "int".toList) [] = ERR_NO_ERR :=
  ⟨(C34_empty_token_accepted noFiles (NewParamter "theq".toList "string".toList) rfl rfl).1 rfl,
    (C34_empty_token_accepted noFiles (NewParamter "number".toList "int".toList) rfl rfl).2.1
      rfl⟩

/-! ## Lemmas on parameters below a matched node -/

theorem requiredChildren_no_required (N : Argument) (g : Nat)
    (h : ∀ c ∈ N.arguments, c.required = false) : requiredChildren N g = g := by
  rw [requiredChildren_eq_filter]
  have hf : N.arguments.filter (fun c => c.required) = [] := by
    apply List.filter_eq_nil_iff.mpr
    intro c hc
    simp [h c hc]
  rw [hf]
  rfl

theorem parseArg_param_url (access : CString → Bool) (P : Argument) (t : CString)
    (hk : P.arg_type = PARAM) (hcb : P.is_custom_dtype = false)
    (hd : P.dtype_custom = ['u', 'r', 'l']) (ht : t.head? ≠ some '-') :
    parseArg access P t =
      if _compare_cstring_until t ['h', 't', 't', 'p'] 4 = true then ERR_NO_ERR else 0 := by
  simp [parseArg, hk, PARAM, OPTION, WILDCARD, METHOD, kind_bits, compare_until_dash1,
    compare_until_dash2 _ ht, ht, hcb, hd, compare_cstring_eq]

/-- C33, counterexample. The url parameter `addr` has a required child of its
own, the option `--secure`, and is the only child of the option `--site`. On
`[prog, --site, ftp://x]` the value neither begins with `-` nor with `http`;
`Argument::parse` on `addr` returns REQ_ARG_NOT_FOUND (8), not 0, and on
`--site` it returns NO_ERR | REQ_ARG_NOT_FOUND (9), not NO_ERR. -/
theorem C33_counterexample :
    ex_site_nested.arg_type = OPTION ∧ ex_site_nested.arguments.length = 1 ∧
      ex_site_nested.arguments.map
          (fun c => (c.arg_type, c.dtype_custom, c.is_custom_dtype)) =
        [(PARAM, "url".toList, false)] ∧
      parseArg noFiles ex_site_nested "--site".toList = ERR_NO_ERR ∧
      "ftp://x".toList.head? ≠ some '-' ∧ ¬ "http".toList <+: "ftp://x".toList ∧
      (Argument.parse noFiles ex_addr_nested ["prog".toList, "ftp://x".toList]
        Options.new).1 = ERR_REQ_ARG_NOT_FOUND ∧
      (Argument.parse noFiles ex_site_nested
        ["prog".toList, "--site".toList, "ftp://x".toList] Options.new).1 =
          ERR_NO_ERR ||| ERR_REQ_ARG_NOT_FOUND := by
  decide

/-- C33, as amended (an invalid url value is swallowed as success). `N` is a
node whose only child is a Param `P` of datatype `url` without custom callback
and without a required child of its own, `t1` matches `N`, and `t2` neither
begins with `-` nor with `http`. On `[prog, t1, t2]`, `Argument::parse` on `P`
over the sub-window `[prog, t2]` returns 0 and leaves its result node, and
`Argument::parse` on `N` returns exactly NO_ERR; the result tree is the parent
with the node of `N` appended and nothing for `P`. -/
theorem C33_invalid_url_swallowed (access : CString → Bool) (N P : Argument)
    (prog t1 t2 : CString) (R : Options)
    (hN : N.arguments = [P]) (hmatch : parseArg access N t1 = ERR_NO_ERR)
    (hk : P.arg_type = PARAM) (hcb : P.is_custom_dtype = false)
    (hd : P.dtype_custom = ['u', 'r', 'l'])
    (hPc : ∀ c ∈ P.arguments, c.required = false)
    (hdash : t2.head? ≠ some '-') (hhttp : ¬ ['h', 't', 't', 'p'] <+: t2) :
    copySubArgv 3 [prog, t1, t2] 1 = [prog, t2] ∧
      (∀ RP, Argument.parse access P [prog, t2] RP = (0, RP)) ∧
      Argument.parse access N [prog, t1, t2] R =
        (ERR_NO_ERR, attachOptions N R 1 [prog, t1, t2] 3) := by
  have hW : copySubArgv 3 [prog, t1, t2] 1 = [prog, t2] := rfl
  have hP0 : parseArg access P t2 = 0 := by
    rw [parseArg_param_url access P t2 hk hcb hd hdash, if_neg]
    intro hh
    exact hhttp ((compare_until_http t2).mp hh)
  have hP : ∀ RP, Argument.parse access P [prog, t2] RP = (0, RP) := by
    intro RP
    rw [parse_nomatch access P [prog, t2] RP (by simp)]
    · have e : [prog, t2].getD ([prog, t2].length - 1) [] = t2 := rfl
      have el : [prog, t2].length = 2 := rfl
      rw [if_pos el, e, hP0, requiredChildren_no_required P 0 hPc]
    · intro j hj1 hj2
      have hj : j = 1 := by
        simp at hj2
        omega
      subst hj
      have e : [prog, t2].getD 1 [] = t2 := rfl
      rw [e, hP0]
      decide
  refine ⟨hW, hP, ?_⟩
  have hm : parseArg access N ([prog, t1, t2].getD 1 []) = ERR_NO_ERR := hmatch
  rw [parse_match_inner access N [prog, t1, t2] R 1 (Nat.le_refl 1) (by simp)
    (fun j h1 h2 => by omega) hm, hN]
  have hl : [prog, t1, t2].length = 3 := rfl
  rw [hl, hW, parseChildren, parseChildren, hP, put_get_self]
  have e1 : ERR_NO_ERR ||| 0 = ERR_NO_ERR := by decide
  have e2 : ¬ (ERR_NO_ERR &&& ERR_REQ_ARG_NOT_FOUND ≠ 0 ∧
      ((!N.required) = true ∧ P.required = true)) := by
    intro hh
    exact hh.1 (by decide)
  have e3 : ERR_NO_ERR ||| ERR_NO_ERR = ERR_NO_ERR := by decide
  simp only [e1, e2, if_false, e3]

/-- C33, witness: the option `--site` with its url parameter `addr` on
`[prog, --site, ftp://x]`. -/
theorem C33_invalid_url_swallowed_witness :
    copySubArgv 3 ["prog".toList, "--site".toList, "ftp://x".toList] 1 =
        ["prog".toList, "ftp://x".toList] ∧
      (∀ RP, Argument.parse noFiles (NewParamter "addr".toList "url".toList)
        ["prog".toList, "ftp://x".toList] RP = (0, RP)) ∧
      Argument.parse noFiles ex_site ["prog".toList, "--site".toList, "ftp://x".toList]
          Options.new =
        (ERR_NO_ERR, attachOptions ex_site Options.new 1
          ["prog".toList, "--site".toList, "ftp://x".toList] 3) :=
  C33_invalid_url_swallowed noFiles ex_site (NewParamter "addr".toList "url".toList)
    "prog".toList "--site".toList "ftp://x".toList Options.new rfl (by decide) rfl rfl rfl
    (fun c hc => by
      have ha : (NewParamter "addr".toList "url".toList).arguments = [] := rfl
      rw [ha] at hc
      simp at hc)
    (by decide) (by decide)

/-- C35, counterexample. The option `--copy` has the string parameters `from`
and `to`; `from` has a required int parameter `mode` of its own. On
`[prog, --copy, a, b]` both values do not begin with `-`, `from` takes `a` and
its child rejects `b`: `Argument::parse` on `--copy` returns
NO_ERR | WRONG_DATA | REQ_PARAM_NOT_FOUND (145), not NO_ERR. -/
theorem C35_counterexample :
    ex_copy_nested.arg_type = OPTION ∧
      ex_copy_nested.arguments.map
          (fun c => (c.arg_type, c.long_flag, c.dtype_custom, c.is_custom_dtype)) =
        [(PARAM, "from".toList, "string".toList, false),
          (PARAM, "to".toList, "string".toList, false)] ∧
      parseArg noFiles ex_copy_nested "--copy".toList = ERR_NO_ERR ∧
      (Argument.parse noFiles ex_copy_nested
        ["prog".toList, "--copy".toList, "a".toList, "b".toList] Options.new).1 =
          ERR_NO_ERR ||| ERR_WRONG_DATA ||| ERR_REQ_PARAM_NOT_FOUND ∧
      (Argument.parse noFiles ex_copy_nested
        ["prog".toList, "--copy".toList, "a".toList, "b".toList] Options.new).1 ≠
          ERR_NO_ERR := by
  decide

/-- C35, as amended (sibling parameters do not consume tokens from each
other). `N` has exactly two children, the string Params `A` and `B` without
custom callback and without children, of distinct names; `t` matches `N` and
`x` does not begin with `-`. On `[prog, t, x, y]`, parsed into a result node
without children, `Argument::parse` returns NO_ERR, and the node of `N` gets
two children, one for `A` and one for `B`, both with the value `x`: both
`get(N.long_flag).get(A.long_flag)` and `get(N.long_flag).get(B.long_flag)`
have the value `x`, and `y` is stored nowhere. -/
theorem C35_sibling_parameters (access : CString → Bool) (N A B : Argument)
    (prog t x y : CString) (R : Options)
    (hN : N.arguments = [A, B]) (hmatch : parseArg access N t = ERR_NO_ERR)
    (hA : A.arg_type = PARAM) (hAcb : A.is_custom_dtype = false)
    (hAd : A.dtype_custom = ['s', 't', 'r', 'i', 'n', 'g']) (hAc : A.arguments = [])
    (hB : B.arg_type = PARAM) (hBcb : B.is_custom_dtype = false)
    (hBd : B.dtype_custom = ['s', 't', 'r', 'i', 'n', 'g']) (hBc : B.arguments = [])
    (hne : A.long_flag ≠ B.long_flag) (hx : x.head? ≠ some '-')
    (hR : R.options = []) (hRc : R.argc = 0) :
    (Argument.parse access N [prog, t, x, y] R).1 = ERR_NO_ERR ∧
      (Argument.parse access N [prog, t, x, y] R).2 =
        { R with
          argc := 1
          options := [{ attachedNode N t with
            argc := 2
            options := [attachedNode A x, attachedNode B x] }] } ∧
      (((Argument.parse access N [prog, t, x, y] R).2.get N.long_flag).get
        A.long_flag).getData = x ∧
      (((Argument.parse access N [prog, t, x, y] R).2.get N.long_flag).get
        B.long_flag).getData = x := by
  have hW : copySubArgv 4 [prog, t, x, y] 1 = [prog, x, y] := rfl
  have hAx : parseArg access A ([prog, x, y].getD 1 []) = ERR_NO_ERR :=
    parseArg_param_string access A x hA hAcb hAd hx
  have hBx : parseArg access B ([prog, x, y].getD 1 []) = ERR_NO_ERR :=
    parseArg_param_string access B x hB hBcb hBd hx
  have hAp := fun RX => parse_leaf_match access A [prog, x, y] RX hAc (by simp) hAx
  have hBp := fun RX => parse_leaf_match access B [prog, x, y] RX hBc (by simp) hBx
  have hm : parseArg access N ([prog, t, x, y].getD 1 []) = ERR_NO_ERR := hmatch
  have hl : [prog, t, x, y].length = 4 := rfl
  have hne2 : ¬ B.long_flag = A.long_flag := fun h => hne h.symm
  have e1 : ERR_NO_ERR ||| ERR_NO_ERR = ERR_NO_ERR := by decide
  have e2 : ERR_NO_ERR &&& ERR_REQ_ARG_NOT_FOUND = 0 := by decide
  have key : Argument.parse access N [prog, t, x, y] R =
      (ERR_NO_ERR, { R with
        argc := 1
        options := [{ attachedNode N t with
          argc := 2
          options := [attachedNode A x, attachedNode B x] }] }) := by
    rw [parse_match_inner access N [prog, t, x, y] R 1 (Nat.le_refl 1) (by simp)
      (fun j h1 h2 => by omega) hm, hN, hl, hW, parseChildren, parseChildren, parseChildren,
      hAp, hBp]
    simp [e1, e2, attachOptions_eq_node, Options.put, Options.get, Options.putLoop,
      Options.getLoop, hR, hRc, compare_cstring_eq, attachedNode, Options.setKey,
      Options.setArgType, Options.setData, Options.setParsed, Options.new]
  rw [key]
  refine ⟨rfl, rfl, ?_, ?_⟩
  · simp [Options.get, Options.getLoop, compare_cstring_eq, attachedNode, Options.setKey,
      Options.setArgType, Options.setData, Options.setParsed, Options.new, Options.getData]
  · simp [Options.get, Options.getLoop, compare_cstring_eq, attachedNode, Options.setKey,
      Options.setArgType, Options.setData, Options.setParsed, Options.new, Options.getData, hne2]

/-- C35, witness: the option `--move` with the string parameters `src` and
`dst` on `[prog, --move, a, b]`. -/
theorem C35_sibling_parameters_witness :
    (Argument.parse noFiles ex_move
        ["prog".toList, "--move".toList, "a".toList, "b".toList] Options.new).1 = ERR_NO_ERR ∧
      (Argument.parse noFiles ex_move
        ["prog".toList, "--move".toList, "a".toList, "b".toList] Options.new).2 =
        { Options.new with
          argc := 1
          options := [{ attachedNode ex_move "--move".toList with
            argc := 2
            options := [attachedNode (NewParamter "src".toList "string".toList) "a".toList,
              attachedNode (NewParamter "dst".toList "string".toList) "a".toList] }] } ∧
      (((Argument.parse noFiles ex_move
        ["prog".toList, "--move".toList, "a".toList, "b".toList] Options.new).2.get
          ex_move.long_flag).get
            (NewParamter "src".toList "string".toList).long_flag).getData = "a".toList ∧
      (((Argument.parse noFiles ex_move
        ["prog".toList, "--move".toList, "a".toList, "b".toList] Options.new).2.get
          ex_move.long_flag).get
            (NewParamter "dst".toList "string".toList).long_flag).getData = "a".toList :=
  C35_sibling_parameters noFiles ex_move (NewParamter "src".toList "string".toList)
    (NewParamter "dst".toList "string".toList) "prog".toList "--move".toList "a".toList
    "b".toList Options.new rfl (by decide) rfl rfl rfl rfl rfl rfl rfl rfl (by decide)
    (by decide) rfl rfl

/-! ## The bits of the codes -/

theorem and_eq_self_iff (c m : Nat) :
    c &&& m = c ↔ ∀ i, c.testBit i = true → m.testBit i = true := by
  constructor
  · intro h i hi
    have h2 := congrArg (fun z => Nat.testBit z i) h
    simp only [Nat.testBit_and, hi, Bool.true_and] at h2
    exact h2
  · intro h
    apply Nat.eq_of_testBit_eq
    intro i
    rw [Nat.testBit_and]
    cases hc : c.testBit i
    · rfl
    · simp [h i hc]

theorem within_or (a b m : Nat) (ha : a &&& m = a) (hb : b &&& m = b) :
    (a ||| b) &&& m = a ||| b := by
  rw [and_eq_self_iff] at ha hb ⊢
  intro i hi
  rw [Nat.testBit_or] at hi
  rcases Bool.or_eq_true _ _ ▸ hi with h | h
  · exact ha i h
  · exact hb i h

theorem within_and (a b m : Nat) (ha : a &&& m = a) : (a &&& b) &&& m = a &&& b := by
  rw [and_eq_self_iff] at ha ⊢
  intro i hi
  rw [Nat.testBit_and] at hi
  exact ha i (by
    cases h : a.testBit i
    · simp [h] at hi
    · rfl)

theorem noCustomCallbackList_iff (cs : List Argument) :
    Argument.noCustomCallbackList cs = true ↔ ∀ c ∈ cs, c.noCustomCallback = true := by
  induction cs with
  | nil => simp [Argument.noCustomCallbackList]
  | cons c rest ih => simp [Argument.noCustomCallbackList, ih]

theorem noCustomCallback_iff (N : Argument) :
    N.noCustomCallback = true ↔
      N.is_custom_dtype = false ∧ ∀ c ∈ N.arguments, c.noCustomCallback = true := by
  cases N
  rw [Argument.noCustomCallback]
  simp [noCustomCallbackList_iff]

theorem within_ite (c : Prop) [Decidable c] (a b m : Nat) (ha : a &&& m = a)
    (hb : b &&& m = b) : (if c then a else b) &&& m = if c then a else b := by
  split <;> assumption

/-- Without custom callback every value of `parseArg` is made of the bits of
`matcherBits`. -/
theorem parseArg_within (access : CString → Bool) (N : Argument) (t : CString)
    (hcb : N.is_custom_dtype = false) :
    parseArg access N t &&& matcherBits = parseArg access N t := by
  have hfb : parseArgFallback N &&& matcherBits = parseArgFallback N := by
    unfold parseArgFallback
    refine within_ite _ _ _ _ ?_ ?_ <;> decide
  unfold parseArg
  refine within_ite _ _ _ _ ?_ ?_
  · decide
  refine within_ite _ _ _ _ ?_ ?_
  · decide
  refine within_ite _ _ _ _ ?_ ?_
  · decide
  refine within_ite _ _ _ _ ?_ hfb
  refine within_ite _ _ _ _ ?_ ?_
  · decide
  rw [hcb, if_neg (by decide)]
  refine within_ite _ _ _ _ ?_ ?_
  · refine within_ite _ _ _ _ ?_ ?_ <;> decide
  refine within_ite _ _ _ _ ?_ ?_
  · refine within_ite _ _ _ _ ?_ ?_
    · decide
    · refine within_ite _ _ _ _ ?_ ?_ <;> decide
  refine within_ite _ _ _ _ ?_ ?_
  · refine within_ite _ _ _ _ ?_ ?_ <;> decide
  refine within_ite _ _ _ _ ?_ ?_
  · refine within_ite _ _ _ _ ?_ ?_ <;> decide
  refine within_ite _ _ _ _ ?_ hfb
  decide

theorem requiredChildren_within (N : Argument) (g : Nat) (hg : g &&& matcherBits = g) :
    requiredChildren N g &&& matcherBits = requiredChildren N g := by
  rw [requiredChildren_eq_filter]
  generalize N.arguments.filter (fun c => c.required) = cs
  induction cs generalizing g with
  | nil => exact hg
  | cons c rest ih =>
    rw [List.foldl_cons]
    apply ih
    apply within_or _ _ _ hg
    unfold missingChildCode
    refine within_ite _ _ _ _ ?_ ?_
    · refine within_ite _ _ _ _ ?_ ?_ <;> decide
    · decide

theorem parseChildren_within (access : CString → Bool) (req : Bool) (key : CString)
    (cs : List Argument)
    (hcs : ∀ c ∈ cs, ∀ a R,
      (Argument.parse access c a R).1 &&& matcherBits = (Argument.parse access c a R).1)
    (a : List CString) (o : Options) (e : Nat) (he : e &&& matcherBits = e) :
    (parseChildren access req key cs a o e).1 &&& matcherBits =
      (parseChildren access req key cs a o e).1 := by
  induction cs generalizing o e with
  | nil => simpa [parseChildren] using he
  | cons c rest ih =>
    rw [parseChildren]
    apply ih (fun d hd => hcs d (by simp [hd]))
    have h1 := within_or _ _ _ he (hcs c (by simp) a (o.get key))
    split
    · exact within_and _ _ _ h1
    · exact h1

theorem parseMatched_within (this : Argument)
    (children : List CString → Options → Nat → Nat × Options)
    (hch : ∀ a o e, e &&& matcherBits = e →
      (children a o e).1 &&& matcherBits = (children a o e).1)
    (argv : List CString) (R : Options) (i e g : Nat)
    (he : e &&& matcherBits = e) (hg : g &&& matcherBits = g) :
    (parseMatched this children argv R i e g).1 &&& matcherBits =
      (parseMatched this children argv R i e g).1 := by
  unfold parseMatched
  simp only []
  split
  · split
    · exact hg
    · have h := hch (copySubArgv argv.length argv i) (attachOptions this R i argv argv.length)
        e he
      split
      · exact h
      · exact within_or _ _ _ hg h
  · exact requiredChildren_within this g hg

theorem parseLoop_within (access : CString → Bool) (this : Argument)
    (hcb : this.is_custom_dtype = false)
    (children : List CString → Options → Nat → Nat × Options)
    (hch : ∀ a o e, e &&& matcherBits = e →
      (children a o e).1 &&& matcherBits = (children a o e).1)
    (argv : List CString) (R : Options) (n i e g : Nat)
    (he : e &&& matcherBits = e) (hg : g &&& matcherBits = g) :
    (parseLoop access this children argv R n i e g).1 &&& matcherBits =
      (parseLoop access this children argv R n i e g).1 := by
  have h0 : ∀ t, parseArg access this t &&& matcherBits = parseArg access this t :=
    fun t => parseArg_within access this t hcb
  induction n generalizing i e g with
  | zero =>
    rw [parseLoop_zero]
    split
    · exact requiredChildren_within this g hg
    · exact within_or _ _ _ (requiredChildren_within this g hg) he
  | succ m ih =>
    rw [parseLoop_succ]
    split
    · exact ih _ _ _ (h0 _) (h0 _)
    · exact parseMatched_within this children hch argv R _ _ _ (h0 _) (h0 _)

theorem parse_within_aux (access : CString → Bool) (n : Nat) :
    ∀ N : Argument, sizeOf N ≤ n → N.noCustomCallback = true → ∀ argv R,
      (Argument.parse access N argv R).1 &&& matcherBits = (Argument.parse access N argv R).1 := by
  induction n with
  | zero =>
    intro N hN
    cases N
    simp at hN
  | succ m ih =>
    intro N hN hno argv R
    obtain ⟨hcb, hch⟩ := (noCustomCallback_iff N).mp hno
    rw [parse_eq]
    split
    · dsimp only
      split <;> decide
    · apply parseLoop_within access N hcb
      · intro a o e he
        apply parseChildren_within access _ _ _ _ a o e he
        intro c hc
        apply ih c _ (hch c hc)
        have h1 := sizeOf_child_lt N c hc
        omega
      · decide
      · decide

theorem parseTopLevel_within (access : CString → Bool) (argv : List CString)
    (args : List Argument) (hargs : ∀ a ∈ args, a.noCustomCallback = true)
    (err : Nat) (R : Options) (herr : err &&& matcherBits = err) :
    (parseTopLevel access argv args err R).1 &&& matcherBits =
      (parseTopLevel access argv args err R).1 := by
  induction args generalizing err R with
  | nil => simpa [parseTopLevel] using herr
  | cons arg rest ih =>
    rw [parseTopLevel]
    apply ih (fun a ha => hargs a (by simp [ha]))
    have h1 := within_or _ _ _ herr (within_or _ _ _
      (parse_within_aux access (sizeOf arg) arg (Nat.le_refl _) (hargs arg (by simp)) argv R) herr)
    have h128 : ERR_REQ_PARAM_NOT_FOUND &&& matcherBits = ERR_REQ_PARAM_NOT_FOUND := by decide
    split <;> split <;>
      first
      | exact h1
      | exact within_and _ _ _ h1
      | exact within_or _ _ _ h1 h128
      | exact within_or _ _ _ (within_and _ _ _ h1) h128

theorem within_no_unknown_no_help (c : Nat) (h : c &&& matcherBits = c) :
    c &&& ERR_UNKOWN_INPUT = 0 ∧ c &&& ERR_HELP_WILDCARD = 0 := by
  have e1 : ERR_UNKOWN_INPUT = 2 ^ 1 := by decide
  have e5 : ERR_HELP_WILDCARD = 2 ^ 5 := by decide
  have hb := (and_eq_self_iff c matcherBits).mp h
  rw [e1, e5]
  constructor
  · apply (and_two_pow_eq_zero c 1).mpr
    cases hc : c.testBit 1
    · rfl
    · exact absurd (hb 1 hc) (by decide)
  · apply (and_two_pow_eq_zero c 5).mpr
    cases hc : c.testBit 5
    · rfl
    · exact absurd (hb 5 hc) (by decide)

/-- C37 (unknown input is never reported). For an argument tree without
custom datatype callback, the code returned by `Argument::parse` has only bits
among NO_ERR, INVALID_INPUT, REQ_ARG_NOT_FOUND, WRONG_DATA, NOT_FOUND and
REQ_PARAM_NOT_FOUND, so neither UNKNOWN_INPUT nor HELP_WILDCARD; the code
returned by `CommandLine::parse` never has UNKNOWN_INPUT set, and it has
HELP_WILDCARD set only if `argv` contains `-h` or `--help`. -/
theorem C37_unknown_never_reported (access : CString → Bool) :
    (∀ (N : Argument) (argv : List CString) (R : Options), N.noCustomCallback = true →
        (Argument.parse access N argv R).1 &&& matcherBits = (Argument.parse access N argv R).1 ∧
          (Argument.parse access N argv R).1 &&& ERR_UNKOWN_INPUT = 0 ∧
          (Argument.parse access N argv R).1 &&& ERR_HELP_WILDCARD = 0) ∧
      (∀ (cl : CommandLine) (argv : List CString), cl.args.root.noCustomCallback = true →
        (cl.parse access argv).1 &&& ERR_UNKOWN_INPUT = 0 ∧
          ((cl.parse access argv).1 &&& ERR_HELP_WILDCARD ≠ 0 →
            ['-', 'h'] ∈ argv ∨ ['-', '-', 'h', 'e', 'l', 'p'] ∈ argv)) := by
  constructor
  · intro N argv R hN
    have h := parse_within_aux access (sizeOf N) N (Nat.le_refl _) hN argv R
    exact ⟨h, within_no_unknown_no_help _ h⟩
  · intro cl argv hcl
    have hargs : ∀ a ∈ cl.args.root.getArguments, a.noCustomCallback = true :=
      ((noCustomCallback_iff cl.args.root).mp hcl).2
    have hr := parseTopLevel_within access argv cl.args.root.getArguments hargs 0
      cl.build_options_tree (by decide)
    obtain ⟨hr1, hr5⟩ := within_no_unknown_no_help _ hr
    have e1 : ERR_UNKOWN_INPUT = 2 ^ 1 := by decide
    have e5 : ERR_HELP_WILDCARD = 2 ^ 5 := by decide
    rw [e1] at hr1
    rw [e5] at hr5
    have t1 := (and_two_pow_eq_zero _ 1).mp hr1
    have t5 := (and_two_pow_eq_zero _ 5).mp hr5
    by_cases hh : ['-', 'h'] ∈ argv ∨ ['-', '-', 'h', 'e', 'l', 'p'] ∈ argv
    · refine ⟨?_, fun _ => hh⟩
      have hhelp : (scanSwitches cl.verbosity argv).2 = ERR_HELP_WILDCARD := by
        unfold scanSwitches
        apply scanSwitches_foldl_help
        right
        rcases hh with h | h
        · exact ⟨_, h, Or.inl rfl⟩
        · exact ⟨_, h, Or.inr rfl⟩
      unfold CommandLine.parse
      dsimp only
      rw [hhelp, e1]
      apply (and_two_pow_eq_zero _ 1).mpr
      have h32 : ERR_HELP_WILDCARD.testBit 1 = false := by decide
      split
      · rw [Nat.testBit_or, t1, h32]
        rfl
      · exact t1
    · have hhelp : (scanSwitches cl.verbosity argv).2 = 0 := by
        apply scanSwitches_no_help
        intro tok htok
        constructor
        · intro e
          exact hh (Or.inl (e ▸ htok))
        · intro e
          exact hh (Or.inr (e ▸ htok))
      have hcode : (cl.parse access argv).1 =
          (parseTopLevel access argv cl.args.root.getArguments 0 cl.build_options_tree).1 := by
        unfold CommandLine.parse
        dsimp only
        rw [hhelp]
        split
        · exact Nat.or_zero _
        · rfl
      rw [hcode, e1, e5]
      refine ⟨(and_two_pow_eq_zero _ 1).mpr t1, ?_⟩
      intro hne
      exact absurd ((and_two_pow_eq_zero _ 5).mpr t5) hne

/-- C37, witness: the demo command line, which registers no custom callback,
on `[prog, --bogus, x]`, where no token matches a registered argument. -/
theorem C37_unknown_never_reported_witness :
    ((Argument.parse noFiles demo_mynextArg ["prog".toList, "--bogus".toList, "x".toList]
          Options.new).1 &&& matcherBits =
        (Argument.parse noFiles demo_mynextArg ["prog".toList, "--bogus".toList, "x".toList]
          Options.new).1 ∧
      (Argument.parse noFiles demo_mynextArg ["prog".toList, "--bogus".toList, "x".toList]
        Options.new).1 &&& ERR_UNKOWN_INPUT = 0 ∧
      (Argument.parse noFiles demo_mynextArg ["prog".toList, "--bogus".toList, "x".toList]
        Options.new).1 &&& ERR_HELP_WILDCARD = 0) ∧
      (myCommandLine.parse noFiles ["prog".toList, "--bogus".toList, "x".toList]).1 &&&
        ERR_UNKOWN_INPUT = 0 ∧
      ((myCommandLine.parse noFiles ["prog".toList, "--bogus".toList, "x".toList]).1 &&&
          ERR_HELP_WILDCARD ≠ 0 →
        ['-', 'h'] ∈ ["prog".toList, "--bogus".toList, "x".toList] ∨
          ['-', '-', 'h', 'e', 'l', 'p'] ∈ ["prog".toList, "--bogus".toList, "x".toList]) :=
  ⟨(C37_unknown_never_reported noFiles).1 demo_mynextArg
      ["prog".toList, "--bogus".toList, "x".toList] Options.new (by decide),
    (C37_unknown_never_reported noFiles).2 myCommandLine
      ["prog".toList, "--bogus".toList, "x".toList] (by decide)⟩

/-! ## The node of a matched flag whose value begins with a dash -/

theorem getLoop_append_new (key : CString) (os : List Options) (n : Options)
    (hos : ∀ o ∈ os, o.key ≠ key) (hn : n.key = key) :
    Options.getLoop key (os ++ [n]) (os.length + 1) = some n := by
  induction os with
  | nil =>
    simp [Options.getLoop, compare_cstring_eq, hn]
  | cons o rest ih =>
    have ho : ¬ key = o.key := fun e => hos o (by simp) e.symm
    rw [List.cons_append, List.length_cons, Options.getLoop]
    simp only [compare_cstring_eq, ho, decide_False, Bool.false_eq_true, if_false]
    exact ih (fun d hd => hos d (by simp [hd]))

/-- C4 (dash-as-value rejection). `N` is a node whose only child is a Param
`P` (any datatype, required or not), `t1` matches `N` and `t2` begins with
`-`. Then, for every parent result node `R`, `Argument::parse` on `N` over
`[prog, t1, t2]` returns a code with REQ_PARAM_NOT_FOUND, INVALID_INPUT and
WRONG_DATA all set, and the result tree is `R` with one node appended, the
node of `N`: it holds `t1`, has no children, and its `get(P.long_flag)` is the
unparsed sentinel, so nothing is attached for `P` and `t2` is stored nowhere.
When `R` has as many children as its `argc` says and none with the key
`N.long_flag`, as in a call by the facade for a flag registered once,
`get(N.long_flag)` on the result is that node. -/
theorem C4_dash_as_value_rejected (access : CString → Bool) (N P : Argument)
    (prog t1 t2 rest : CString) (R : Options)
    (hN : N.arguments = [P]) (hmatch : parseArg access N t1 = ERR_NO_ERR)
    (hP : P.arg_type = PARAM) (ht2 : t2 = '-' :: rest) :
    (Argument.parse access N [prog, t1, t2] R).1 &&& ERR_REQ_PARAM_NOT_FOUND =
        ERR_REQ_PARAM_NOT_FOUND ∧
      (Argument.parse access N [prog, t1, t2] R).1 &&& ERR_INVALID_INPUT = ERR_INVALID_INPUT ∧
      (Argument.parse access N [prog, t1, t2] R).1 &&& ERR_WRONG_DATA = ERR_WRONG_DATA ∧
      (Argument.parse access N [prog, t1, t2] R).2 = attachOptions N R 1 [prog, t1, t2] 3 ∧
      (Argument.parse access N [prog, t1, t2] R).2.options = R.options ++ [attachedNode N t1] ∧
      (Argument.parse access N [prog, t1, t2] R).2.argc = R.argc + 1 ∧
      (attachedNode N t1).getData = t1 ∧
      (attachedNode N t1).options = [] ∧
      (attachedNode N t1).get P.long_flag = Options.new ∧
      ((attachedNode N t1).get P.long_flag).getParsed = false ∧
      (R.argc = R.options.length → (∀ o ∈ R.options, o.key ≠ N.long_flag) →
        (Argument.parse access N [prog, t1, t2] R).2.get N.long_flag = attachedNode N t1 ∧
          ((Argument.parse access N [prog, t1, t2] R).2.get N.long_flag).getData = t1 ∧
          ((Argument.parse access N [prog, t1, t2] R).2.get N.long_flag).get P.long_flag =
            Options.new ∧
          (((Argument.parse access N [prog, t1, t2] R).2.get N.long_flag).get
            P.long_flag).getParsed = false) := by
  obtain ⟨code, hcode, h7, h2, h4⟩ := parse_dash_value access N P prog t1 t2 rest R hN hmatch hP ht2
  rw [hcode]
  have p7 : ERR_REQ_PARAM_NOT_FOUND = 2 ^ 7 := by decide
  have p2 : ERR_INVALID_INPUT = 2 ^ 2 := by decide
  have p4 : ERR_WRONG_DATA = 2 ^ 4 := by decide
  have hnode : attachOptions N R 1 [prog, t1, t2] 3 =
      { R with argc := R.argc + 1, options := R.options ++ [attachedNode N t1] } :=
    attachOptions_eq_node N R 1 [prog, t1, t2] 3
  have hsent : (attachedNode N t1).get P.long_flag = Options.new := rfl
  refine ⟨?_, ?_, ?_, rfl, ?_, ?_, rfl, rfl, hsent, rfl, ?_⟩
  · rw [p7]; exact (and_two_pow_eq code 7).mpr h7
  · rw [p2]; exact (and_two_pow_eq code 2).mpr h2
  · rw [p4]; exact (and_two_pow_eq code 4).mpr h4
  · dsimp only
    rw [hnode]
  · dsimp only
    rw [hnode]
  · intro hwf hkey
    have hget : (attachOptions N R 1 [prog, t1, t2] 3).get N.long_flag = attachedNode N t1 := by
      rw [hnode]
      unfold Options.get
      dsimp only
      rw [hwf, getLoop_append_new N.long_flag R.options (attachedNode N t1) hkey rfl]
    dsimp only
    rw [hget]
    exact ⟨rfl, rfl, hsent, rfl⟩

/-- C4, witness: the demo on `[prog, --question, --reference]`. The facade
parses `--reference` first, which attaches its node; `--question` is then
parsed into that tree, and its parameter `theq` rejects `--reference`. -/
theorem C4_dash_as_value_rejected_witness :
    (Argument.parse noFiles demo_mynextArg2
        ["prog".toList, "--question".toList, "--reference".toList]
        (Argument.parse noFiles demo_mynextArg
          ["prog".toList, "--question".toList, "--reference".toList]
          myCommandLine.build_options_tree).2).1 &&& ERR_REQ_PARAM_NOT_FOUND =
          ERR_REQ_PARAM_NOT_FOUND ∧
      (Argument.parse noFiles demo_mynextArg2
        ["prog".toList, "--question".toList, "--reference".toList]
        (Argument.parse noFiles demo_mynextArg
          ["prog".toList, "--question".toList, "--reference".toList]
          myCommandLine.build_options_tree).2).2.options =
        (Argument.parse noFiles demo_mynextArg
          ["prog".toList, "--question".toList, "--reference".toList]
          myCommandLine.build_options_tree).2.options ++
          [attachedNode demo_mynextArg2 "--question".toList] ∧
      (Argument.parse noFiles demo_mynextArg
          ["prog".toList, "--question".toList, "--reference".toList]
          myCommandLine.build_options_tree).2.options.length = 1 ∧
      ((Argument.parse noFiles demo_mynextArg2
        ["prog".toList, "--question".toList, "--reference".toList]
        (Argument.parse noFiles demo_mynextArg
          ["prog".toList, "--question".toList, "--reference".toList]
          myCommandLine.build_options_tree).2).2.get demo_mynextArg2.long_flag).getData =
        "--question".toList ∧
      (((Argument.parse noFiles demo_mynextArg2
        ["prog".toList, "--question".toList, "--reference".toList]
        (Argument.parse noFiles demo_mynextArg
          ["prog".toList, "--question".toList, "--reference".toList]
          myCommandLine.build_options_tree).2).2.get demo_mynextArg2.long_flag).get
            (NewParamter ['t', 'h', 'e', 'q'] ['s', 't', 'r', 'i', 'n', 'g']).long_flag) =
        Options.new :=
  ⟨(C4_dash_as_value_rejected noFiles demo_mynextArg2
      (NewParamter ['t', 'h', 'e', 'q'] ['s', 't', 'r', 'i', 'n', 'g'])
      "prog".toList "--question".toList "--reference".toList "-reference".toList
      (Argument.parse noFiles demo_mynextArg
        ["prog".toList, "--question".toList, "--reference".toList]
        myCommandLine.build_options_tree).2 rfl (by decide) rfl rfl).1,
    (C4_dash_as_value_rejected noFiles demo_mynextArg2
      (NewParamter ['t', 'h', 'e', 'q'] ['s', 't', 'r', 'i', 'n', 'g'])
      "prog".toList "--question".toList "--reference".toList "-reference".toList
      (Argument.parse noFiles demo_mynextArg
        ["prog".toList, "--question".toList, "--reference".toList]
        myCommandLine.build_options_tree).2 rfl (by decide) rfl rfl).2.2.2.2.1,
    by decide,
    ((C4_dash_as_value_rejected noFiles demo_mynextArg2
      (NewParamter ['t', 'h', 'e', 'q'] ['s', 't', 'r', 'i', 'n', 'g'])
      "prog".toList "--question".toList "--reference".toList "-reference".toList
      (Argument.parse noFiles demo_mynextArg
        ["prog".toList, "--question".toList, "--reference".toList]
        myCommandLine.build_options_tree).2 rfl (by decide) rfl rfl).2.2.2.2.2.2.2.2.2.2
          (by decide) (by decide)).2.1,
    ((C4_dash_as_value_rejected noFiles demo_mynextArg2
      (NewParamter ['t', 'h', 'e', 'q'] ['s', 't', 'r', 'i', 'n', 'g'])
      "prog".toList "--question".toList "--reference".toList "-reference".toList
      (Argument.parse noFiles demo_mynextArg
        ["prog".toList, "--question".toList, "--reference".toList]
        myCommandLine.build_options_tree).2 rfl (by decide) rfl rfl).2.2.2.2.2.2.2.2.2.2
          (by decide) (by decide)).2.2.1⟩

end cli
